import Mathlib

/-! Store rating service: rating submission, deletion, statistics and dashboards.

A shallow embedding of the rating routes of the server
(`src/server/routes/ratings.js`), of the dashboard queries
(`src/server/routes/dashboard.js`) and of the middleware they are mounted behind
(`src/server/middleware/auth.js`, `src/server/middleware/validation.js`).

Conventions of the embedding.

* The database is an explicit value `Db`; every `pool.query` is a function on it.
  A handler is a function from the database (and the request data) to a
  response and the database after the call.
* `CURRENT_TIMESTAMP` is the argument `now`.
* Identifiers and scores are integers (`Int`), timestamps are naturals.
* The table declarations (the SQL schema) are not part of the sources. What the
  handlers rely on is recorded in `Schema`: whether the ratings table declares
  a unique constraint over `(user_id, store_id)` and whether it declares a range
  check on `rating`. Every result below is stated for all values of these two
  switches unless it says otherwise.
* The type of the id columns is not part of the sources either: `Db.integerIds`
  tells whether it is the SQL type `INTEGER`, for which the store check of the
  submit handler refuses a larger parameter. The ids that reach the other
  handlers are path parameters, taken to be values of the id column.
* A statement that throws is caught by the `try`/`catch` of the handler, which
  answers 500.
* `AVG` is an exact fraction. `parseFloat` is an argument of the functions that
  render an average; `toFixed(2)` is computed on the exact value it returns.
* A table is the list of its rows in the order the storage returns them. Joins,
  `GROUP BY`, `HAVING`, `ORDER BY` and `LIMIT` are list functions; the sort is
  stable, so rows that tie on every sort key keep the order in which they
  reach it. For the rows of a plain query that is the order of the table. For
  the groups of the three queries grouped by store that end in `ORDER BY ...
  LIMIT 5` it is the order in which the database hands out the groups, which no
  statement fixes: `Db.plan`.
-/

namespace Roxiler

/-! ## Data model -/

/-- Row of the `users` table, with the columns the routes read. -/
structure User where
  id : Int
  name : String
  email : String
  role : String
  created_at : Nat
deriving DecidableEq, Repr

/-- Row of the `stores` table. -/
structure Store where
  id : Int
  name : String
  email : String
  address : String
  owner_id : Option Int
  created_at : Nat
deriving DecidableEq, Repr

/-- Row of the `ratings` table. -/
structure Rating where
  id : Int
  user_id : Int
  store_id : Int
  rating : Int
  created_at : Nat
  updated_at : Nat
deriving DecidableEq, Repr

/-- Constraints of the `ratings` table that the handlers do not spell out
themselves; the table declaration is not among the sources, so both are kept
as switches. -/
structure Schema where
  uniqueUserStore : Bool
  ratingRange : Bool
deriving DecidableEq, Repr

/-- The orders in which the database hands out the groups of the queries grouped
by store whose `ORDER BY` can leave ties: `topStoresQuery`,
`recommendedStoresQuery` and `unratedStoresQuery`. Each is a list of store ids
(for a hashed aggregation, the order of its hash table): a store listed
earlier comes out earlier, the stores that are not listed come out after the
listed ones, in table order. -/
structure PlanOrders where
  topStores : List Int
  recommended : List Int
  unrated : List Int
deriving DecidableEq, Repr

/-- The database: the three tables, the serial counter of `ratings.id`, the
constraints of the ratings table, and two traits of the database that the
statements of the handlers depend on and do not fix.

`integerIds` tells whether the id columns have the SQL type `INTEGER`; the
table declarations are not among the sources.

`plan` holds the orders in which the database hands out the groups of the
grouped queries. -/
structure Db where
  users : List User
  stores : List Store
  ratings : List Rating
  ratingSeq : Int
  schema : Schema
  integerIds : Bool
  plan : PlanOrders
deriving DecidableEq, Repr

/-- Payload of a JSON answer. -/
inductive Body where
  | error (msg : String)
  | validation (details : List String)
  | rated (message : String) (rating : Option Rating)
  | message (msg : String)
deriving DecidableEq, Repr

/-- The answer of a route: `res.status(..).json(..)`. -/
structure Response where
  status : Nat
  body : Body
deriving DecidableEq, Repr

/-! ## Middleware (`middleware/auth.js`, `middleware/validation.js`) -/

/-- `authenticateToken`: reads the bearer token of the `authorization` header,
verifies it and loads the user row. `jwtVerify` stands for `jwt.verify` with the
server secret: it gives the `userId` of the payload, or `none` when it throws.
`Except.error res` means the middleware answered `res`; `Except.ok u` means it
set `req.user = u` and called `next()`. -/
def authenticateToken (jwtVerify : String → Option Int) (db : Db)
    (authHeader : Option String) : Except Response User :=
  let token : Option String :=
    authHeader.bind (fun h => ((h.data.splitOn ' ').get? 1).map String.mk)
  match token with
  | none => .error ⟨401, .error "Access token required"⟩
  | some tok =>
    if tok = "" then .error ⟨401, .error "Access token required"⟩
    else
      match jwtVerify tok with
      | none => .error ⟨403, .error "Invalid or expired token"⟩
      | some userId =>
        match db.users.filter (fun u => decide (u.id = userId)) with
        | [] => .error ⟨401, .error "Invalid token"⟩
        | u :: _ => .ok u

/-- `authorizeRoles(...roles)`: applied to `req.user`. -/
def authorizeRoles (roles : List String) (reqUser : Option User) : Except Response Unit :=
  match reqUser with
  | none => .error ⟨401, .error "Authentication required"⟩
  | some u =>
    if roles.contains u.role then .ok ()
    else .error ⟨403, .error "Access denied. Insufficient permissions."⟩

/-- Body of `POST /ratings` (integer-valued fields). -/
structure RatingBody where
  storeId : Int
  rating : Int
deriving DecidableEq, Repr

/-- `ratingValidationRules()` run on a body: the list of validation errors.
`rating` must be an integer in `1..5`, `storeId` an integer `>= 1`. -/
def ratingValidationRules (body : RatingBody) : List String :=
  (if 1 ≤ body.rating ∧ body.rating ≤ 5 then []
    else ["Rating must be an integer between 1 and 5"]) ++
  (if 1 ≤ body.storeId then [] else ["Valid store ID is required"])

/-- `handleValidationErrors`: 400 unless the error list is empty. -/
def handleValidationErrors (errors : List String) : Except Response Unit :=
  if errors.isEmpty then .ok () else .error ⟨400, .validation errors⟩

/-! ## SQL statements on the ratings table -/

/-- The `WHERE user_id = $1 AND store_id = $2` condition. -/
def matchesUserStore (userId storeId : Int) (r : Rating) : Bool :=
  decide (r.user_id = userId ∧ r.store_id = storeId)

/-- A value the range check of the table (when declared) accepts. -/
def ratingAllowed (sc : Schema) (rating : Int) : Bool :=
  !sc.ratingRange || decide (1 ≤ rating ∧ rating ≤ 5)

/-- `SELECT id FROM stores WHERE id = $1`: the rows found. -/
def selectStore (db : Db) (storeId : Int) : List Store :=
  db.stores.filter (fun s => decide (s.id = storeId))

/-- The values of the SQL type `INTEGER` (32 bits, signed). -/
def inIntegerRange (i : Int) : Bool := decide (-2147483648 ≤ i ∧ i ≤ 2147483647)

/-- Whether `SELECT id FROM stores WHERE id = $1` throws: with id columns of the
type `INTEGER` the database refuses a parameter outside the type. The rows of
such a table have their ids within the type, so a refused parameter is the id
of no row. -/
def storeCheckThrows (db : Db) (storeId : Int) : Bool :=
  db.integerIds && !inIntegerRange storeId && (selectStore db storeId).isEmpty

/-- `SELECT id FROM ratings WHERE user_id = $1 AND store_id = $2`. -/
def selectExisting (db : Db) (userId storeId : Int) : List Rating :=
  db.ratings.filter (matchesUserStore userId storeId)

/-- The `SET rating = $1, updated_at = CURRENT_TIMESTAMP` of the `UPDATE`
statement, applied to one row. -/
def setScore (rating : Int) (now : Nat) (r : Rating) : Rating :=
  { r with rating := rating, updated_at := now }

/-- The rows of the table after the `UPDATE` statement: the rows meeting the
`WHERE` condition are rewritten, the others are kept. -/
def updateRows (userId storeId rating : Int) (now : Nat) (rs : List Rating) : List Rating :=
  rs.map (fun r => if matchesUserStore userId storeId r then setScore rating now r else r)

/-- `UPDATE ratings SET rating = $1, updated_at = CURRENT_TIMESTAMP
WHERE user_id = $2 AND store_id = $3 RETURNING *`.
The first component is `result.rows`, or `none` when the statement throws
(a matching row would break the range check); the table is then unchanged. -/
def updateRating (db : Db) (now : Nat) (rating userId storeId : Int) :
    Option (List Rating) × Db :=
  if (selectExisting db userId storeId).length > 0 ∧ ratingAllowed db.schema rating = false then
    (none, db)
  else
    (some ((selectExisting db userId storeId).map (setScore rating now)),
     { db with ratings := updateRows userId storeId rating now db.ratings })

/-- Modelled from the spec: the column defaults of the ratings table, whose
declaration is not among the sources. A new rating takes the next value of the
serial counter as its id, and its created and updated timestamps are both the
time of the insertion. -/
def newRatingRow (seq : Int) (now : Nat) (userId storeId rating : Int) : Rating :=
  { id := seq, user_id := userId, store_id := storeId, rating := rating,
    created_at := now, updated_at := now }

/-- `INSERT INTO ratings (user_id, store_id, rating) VALUES ($1, $2, $3) RETURNING *`.
The statement throws (first component `none`) when a declared constraint
rejects the row; the serial counter has advanced all the same. -/
def insertRating (db : Db) (now : Nat) (userId storeId rating : Int) :
    Option (List Rating) × Db :=
  let row := newRatingRow db.ratingSeq now userId storeId rating
  if ratingAllowed db.schema rating = false
      ∨ (db.schema.uniqueUserStore = true ∧ (selectExisting db userId storeId).length > 0) then
    (none, { db with ratingSeq := db.ratingSeq + 1 })
  else
    (some [row], { db with ratings := db.ratings ++ [row], ratingSeq := db.ratingSeq + 1 })

/-- `DELETE FROM ratings WHERE id = $1`. -/
def deleteById (db : Db) (id : Int) : Db :=
  { db with ratings := db.ratings.filter (fun r => decide (r.id ≠ id)) }

/-! ## Handlers of `routes/ratings.js` -/

/-- The answer of the `catch` block. -/
def internalError : Response := ⟨500, .error "Internal server error"⟩

/-- Handler of `POST /ratings` (the `async (req, res)` body), with
`userId = req.user.id` and `storeId`, `rating` taken from `req.body`. -/
def submitRating (db : Db) (now : Nat) (userId storeId rating : Int) : Response × Db :=
  if storeCheckThrows db storeId then (internalError, db)
  else if (selectStore db storeId).length = 0 then
    (⟨404, .error "Store not found"⟩, db)
  else if (selectExisting db userId storeId).length > 0 then
    match updateRating db now rating userId storeId with
    | (some rows, db') => (⟨200, .rated "Rating updated successfully" rows.head?⟩, db')
    | (none, db') => (internalError, db')
  else
    match insertRating db now userId storeId rating with
    | (some rows, db') => (⟨201, .rated "Rating submitted successfully" rows.head?⟩, db')
    | (none, db') => (internalError, db')

/-- A request to `POST /ratings`. -/
structure SubmitRequest where
  authorization : Option String
  body : RatingBody
deriving DecidableEq, Repr

/-- The route `POST /ratings`: `authenticateToken`, `authorizeRoles('user')`,
`ratingValidationRules()`, `handleValidationErrors`, then the handler. -/
def postRating (jwtVerify : String → Option Int) (db : Db) (now : Nat)
    (req : SubmitRequest) : Response × Db :=
  match authenticateToken jwtVerify db req.authorization with
  | .error res => (res, db)
  | .ok user =>
    match authorizeRoles ["user"] (some user) with
    | .error res => (res, db)
    | .ok _ =>
      match handleValidationErrors (ratingValidationRules req.body) with
      | .error res => (res, db)
      | .ok _ => submitRating db now user.id req.body.storeId req.body.rating

/-- Handler of `DELETE /ratings/:id`, with `reqUser = req.user` and `id` the
path parameter, taken to be a value of the id column. -/
def deleteRating (db : Db) (reqUser : User) (id : Int) : Response × Db :=
  match db.ratings.filter (fun r => decide (r.id = id)) with
  | [] => (⟨404, .error "Rating not found"⟩, db)
  | rating :: _ =>
    if reqUser.role ≠ "admin" ∧ rating.user_id ≠ reqUser.id then
      (⟨403, .error "You can only delete your own ratings"⟩, db)
    else
      (⟨200, .message "Rating deleted successfully"⟩, deleteById db id)

/-- The route `DELETE /ratings/:id`: `authenticateToken`, then the handler. -/
def deleteRatingRoute (jwtVerify : String → Option Int) (db : Db)
    (authHeader : Option String) (id : Int) : Response × Db :=
  match authenticateToken jwtVerify db authHeader with
  | .error res => (res, db)
  | .ok user => deleteRating db user id

/-! ## Store statistics (`GET /ratings/store/:storeId/stats`) -/

/-- The row returned by the statistics query. `average_rating` is `AVG(rating)`
as an exact fraction, `none` for SQL `NULL` (no row). -/
structure StatsRow where
  total_ratings : Nat
  average_rating : Option ℚ
  five_star : Nat
  four_star : Nat
  three_star : Nat
  two_star : Nat
  one_star : Nat
deriving DecidableEq, Repr

/-- The scores of the ratings of one store, in table order. -/
def storeScores (db : Db) (storeId : Int) : List Int :=
  (db.ratings.filter (fun r => decide (r.store_id = storeId))).map (fun r => r.rating)

/-- SQL `AVG` over a list of integers: `NULL` on no row, else sum over count. -/
def sqlAvg (xs : List Int) : Option ℚ :=
  if xs.length = 0 then none else some ((xs.sum : ℚ) / (xs.length : ℚ))

/-- The `statsQuery` of the statistics route, run for `storeId`. -/
def statsQuery (db : Db) (storeId : Int) : StatsRow :=
  let xs := storeScores db storeId
  { total_ratings := xs.length
    average_rating := sqlAvg xs
    five_star := xs.count 5
    four_star := xs.count 4
    three_star := xs.count 3
    two_star := xs.count 2
    one_star := xs.count 1 }

/-! ## The submit handler between its `await`s

The handler of `POST /ratings` awaits three queries in turn: the store check,
the existence check, and the `UPDATE` or `INSERT`. Each query is one statement,
run by the database on its own; between two of them the event loop may run
other requests. `submitStep` runs a handler up to its next `await`. -/

/-- Where a running submit handler stands. -/
inductive SubmitPc where
  | start
  | storeChecked
  | existingChecked (found : Bool)
  | done (res : Response)
deriving DecidableEq, Repr

/-- A submit request being served: its inputs and where its handler stands. -/
structure SubmitTask where
  userId : Int
  storeId : Int
  rating : Int
  pc : SubmitPc
deriving DecidableEq, Repr

/-- One query of the submit handler, and the code up to the next `await`. -/
def submitStep (db : Db) (now : Nat) (t : SubmitTask) : SubmitTask × Db :=
  match t.pc with
  | .start =>
    if storeCheckThrows db t.storeId then ({ t with pc := .done internalError }, db)
    else if (selectStore db t.storeId).length = 0 then
      ({ t with pc := .done ⟨404, .error "Store not found"⟩ }, db)
    else ({ t with pc := .storeChecked }, db)
  | .storeChecked =>
    ({ t with pc := .existingChecked (decide ((selectExisting db t.userId t.storeId).length > 0)) },
      db)
  | .existingChecked true =>
    match updateRating db now t.rating t.userId t.storeId with
    | (some rows, db') =>
      ({ t with pc := .done ⟨200, .rated "Rating updated successfully" rows.head?⟩ }, db')
    | (none, db') => ({ t with pc := .done internalError }, db')
  | .existingChecked false =>
    match insertRating db now t.userId t.storeId t.rating with
    | (some rows, db') =>
      ({ t with pc := .done ⟨201, .rated "Rating submitted successfully" rows.head?⟩ }, db')
    | (none, db') => ({ t with pc := .done internalError }, db')
  | .done _ => (t, db)

/-- The event loop resumes the handler of request `i` at time `now`. -/
def stepAt (db : Db) (tasks : List SubmitTask) (i now : Nat) : Db × List SubmitTask :=
  match tasks.get? i with
  | none => (db, tasks)
  | some t => ((submitStep db now t).2, tasks.set i (submitStep db now t).1)

/-- A run of the server on concurrent submit requests: the schedule lists, in
order, which request is resumed and at what time. -/
def runSchedule (db : Db) (tasks : List SubmitTask) : List (Nat × Nat) → Db × List SubmitTask
  | [] => (db, tasks)
  | (i, now) :: rest => runSchedule (stepAt db tasks i now).1 (stepAt db tasks i now).2 rest

/-- Two submit requests of user 1 for store 1, with scores 3 and 5. -/
def racingTasks : List SubmitTask := [⟨1, 1, 3, .start⟩, ⟨1, 1, 5, .start⟩]

/-- Both requests run their two checks before either of them writes. -/
def racingSchedule : List (Nat × Nat) :=
  [(0, 100), (0, 101), (1, 102), (1, 103), (0, 104), (1, 105)]

/-! ## Rendering of the statistics (`res.json` of the statistics route) -/

/-- The decimal text of `n / 100` with exactly two decimals: the digits of `n`,
padded to three with zeros on the left, with a point before the last two. -/
def renderHundredths (n : Nat) : String :=
  Nat.repr (n / 100) ++ "." ++ Nat.repr (n / 10 % 10) ++ Nat.repr (n % 10)

/-- `Number.prototype.toFixed(2)` on the exact value `x` of a number (below
`10^21` in absolute value): a minus sign when `x < 0`, then the integer `n`
nearest to `100 * |x|`, the larger one on a tie, written as hundredths. -/
def toFixed2 (x : ℚ) : String :=
  (if x < 0 then "-" else "") ++ renderHundredths (⌊|x| * 100 + 1 / 2⌋).toNat

/-- What is asked of `parseFloat` applied to the text of a numeric column: the
number obtained is the exact value up to a relative error of `10^-15` (the
column text carries at least 16 significant digits and a double about 16). -/
def ParsesAccurately (parseFloat : ℚ → ℚ) : Prop :=
  ∀ q : ℚ, |parseFloat q - q| ≤ |q| / 10 ^ 15

/-- The JSON answer of the statistics route. `distribution` lists the keys
`5, 4, 3, 2, 1` of the object with their values. -/
structure StoreStats where
  totalRatings : Nat
  averageRating : String
  distribution : List (Nat × Nat)
deriving DecidableEq, Repr

/-- The statistics of a store: `statsQuery` and the `res.json` mapping of its
row. `parseFloat` stands for the JavaScript function, applied to the text of
`AVG(rating)`; a `NULL` average is falsy and gives the text `0.00`. -/
def storeStats (parseFloat : ℚ → ℚ) (db : Db) (storeId : Int) : StoreStats :=
  let stats := statsQuery db storeId
  { totalRatings := stats.total_ratings
    averageRating :=
      match stats.average_rating with
      | some a => toFixed2 (parseFloat a)
      | none => "0.00"
    distribution :=
      [(5, stats.five_star), (4, stats.four_star), (3, stats.three_star),
       (2, stats.two_star), (1, stats.one_star)] }

/-- Handler of `GET /ratings/store/:storeId/stats` behind
`authorizeRoles('store_owner')`, with `reqUser = req.user`: 404 for an unknown
store, 403 for a store of another owner, else the statistics. -/
def getStoreStats (parseFloat : ℚ → ℚ) (db : Db) (reqUser : User) (storeId : Int) :
    Except Response StoreStats :=
  match authorizeRoles ["store_owner"] (some reqUser) with
  | .error res => .error res
  | .ok _ =>
    match db.stores.filter (fun s => decide (s.id = storeId)) with
    | [] => .error ⟨404, .error "Store not found"⟩
    | st :: _ =>
      if st.owner_id ≠ some reqUser.id then
        .error ⟨403, .error "You can only view statistics for your own stores"⟩
      else .ok (storeStats parseFloat db storeId)

/-! ## Relational operators used by the dashboard queries

Tables are lists of rows, in the order the storage returns them. Rows that tie
on every `ORDER BY` key keep the order in which they reached the sort; SQL
leaves that order open, and it is the order of the table lists here. -/

/-- `xs LEFT JOIN ys ON cond`: every left row with each right row it matches, or
with `NULL` when it matches none. -/
def leftJoin {α β : Type} (xs : List α) (ys : List β) (cond : α → β → Bool) :
    List (α × Option β) :=
  xs.flatMap (fun x =>
    match ys.filter (cond x) with
    | [] => [(x, none)]
    | y :: rest => (y :: rest).map (fun y' => (x, some y')))

/-- `xs JOIN ys ON cond`. -/
def innerJoin {α β : Type} (xs : List α) (ys : List β) (cond : α → β → Bool) : List (α × β) :=
  xs.flatMap (fun x => (ys.filter (cond x)).map (fun y => (x, y)))

/-- The distinct values of a column, by first occurrence: the groups of a
`GROUP BY` on it. -/
def groupKeys {κ : Type} [DecidableEq κ] : List κ → List κ
  | [] => []
  | k :: ks => k :: (groupKeys ks).filter (fun k' => decide (k' ≠ k))

/-- One group of a `GROUP BY` over stores joined with their ratings: the
grouping columns and the non-null values of `r.rating` in the rows of the
group, which is what `COUNT(r.rating)` and `AVG(r.rating)` aggregate. -/
structure RatingGroup (κ : Type) where
  key : κ
  scores : List Int
deriving DecidableEq, Repr

/-- `GROUP BY key`, keeping for each group the non-null values of `val`. -/
def groupRows {ρ κ : Type} [DecidableEq κ] (key : ρ → κ) (val : ρ → Option Int)
    (rows : List ρ) : List (RatingGroup κ) :=
  (groupKeys (rows.map key)).map
    (fun k => ⟨k, (rows.filter (fun r => decide (key r = k))).filterMap val⟩)

/-- `COUNT(r.rating)` of a group. -/
def RatingGroup.total_ratings {κ : Type} (g : RatingGroup κ) : Nat := g.scores.length

/-- `COALESCE(AVG(r.rating), 0)` of a group, as an exact fraction. -/
def RatingGroup.average_rating {κ : Type} (g : RatingGroup κ) : ℚ := (sqlAvg g.scores).getD 0

/-- The denominator of the average of a group written as a fraction of
integers: the number of scores, or 1 for the empty group (average 0). -/
def scoreDen (xs : List Int) : Int := if xs.length = 0 then 1 else (xs.length : Int)

/-- `AVG(r.rating) >= k` as an SQL condition: it does not hold on `NULL`. -/
def avgAtLeast (xs : List Int) (k : Int) : Prop :=
  ∃ a, sqlAvg xs = some a ∧ (k : ℚ) ≤ a

/-- `ORDER BY average_rating DESC, total_ratings DESC`: `a` may come before
`b`. -/
def rankedBefore {κ : Type} (a b : RatingGroup κ) : Prop :=
  a.average_rating > b.average_rating ∨
    (a.average_rating = b.average_rating ∧ a.total_ratings ≥ b.total_ratings)

instance avgAtLeastDecidable (xs : List Int) (k : Int) : Decidable (avgAtLeast xs k) :=
  decidable_of_iff (xs.length ≠ 0 ∧ k * (xs.length : Int) ≤ xs.sum) (by
    unfold avgAtLeast sqlAvg
    by_cases h : xs.length = 0
    · simp [h]
    · have hpos : (0 : ℚ) < (xs.length : ℚ) := by exact_mod_cast Nat.pos_of_ne_zero h
      simp only [h, if_false, Option.some.injEq, exists_eq_left', ne_eq, not_false_eq_true,
        true_and]
      rw [le_div_iff₀ hpos]
      exact_mod_cast Iff.rfl)

instance rankedBeforeDecidable {κ : Type} : DecidableRel (@rankedBefore κ) := fun a b =>
  decidable_of_iff
    (b.scores.sum * scoreDen a.scores < a.scores.sum * scoreDen b.scores ∨
      (a.scores.sum * scoreDen b.scores = b.scores.sum * scoreDen a.scores ∧
        a.total_ratings ≥ b.total_ratings))
    (by
      have hden : ∀ xs : List Int, (0 : ℚ) < (scoreDen xs : ℚ) := by
        intro xs
        unfold scoreDen
        split
        · norm_num
        · rename_i h; exact_mod_cast Nat.pos_of_ne_zero h
      have havg : ∀ g : RatingGroup κ,
          g.average_rating = (g.scores.sum : ℚ) / (scoreDen g.scores : ℚ) := by
        intro g
        unfold RatingGroup.average_rating sqlAvg scoreDen
        by_cases h : g.scores.length = 0
        · have : g.scores = [] := List.length_eq_zero.mp h
          simp [this]
        · simp [h]
      unfold rankedBefore
      rw [havg a, havg b, gt_iff_lt,
        div_lt_div_iff₀ (hden b.scores) (hden a.scores),
        div_eq_div_iff (hden a.scores).ne' (hden b.scores).ne']
      exact_mod_cast Iff.rfl)

instance rankedBeforeTotal {κ : Type} : IsTotal (RatingGroup κ) rankedBefore :=
  ⟨fun a b => by
    unfold rankedBefore
    rcases lt_trichotomy a.average_rating b.average_rating with h | h | h
    · exact Or.inr (Or.inl h)
    · rcases le_total a.total_ratings b.total_ratings with h' | h'
      · exact Or.inr (Or.inr ⟨h.symm, h'⟩)
      · exact Or.inl (Or.inr ⟨h, h'⟩)
    · exact Or.inl (Or.inl h)⟩

instance rankedBeforeTrans {κ : Type} : IsTrans (RatingGroup κ) rankedBefore :=
  ⟨fun a b c hab hbc => by
    unfold rankedBefore at *
    rcases hab with h1 | ⟨h1, h1'⟩ <;> rcases hbc with h2 | ⟨h2, h2'⟩
    · exact Or.inl (gt_trans h1 h2)
    · exact Or.inl (h2 ▸ h1)
    · exact Or.inl (h1 ▸ h2)
    · exact Or.inr ⟨h1.trans h2, ge_trans h1' h2'⟩⟩

/-! ## Queries of the admin dashboard (`GET /dashboard/admin`) -/

/-- `recentUsersQuery`: the rows of `users` by `created_at` descending, first
five. The rows are kept whole; the query reads name, email, role and
created_at from them. -/
def recentUsersQuery (db : Db) : List User :=
  (db.users.insertionSort (fun a b => a.created_at ≥ b.created_at)).take 5

/-- `recentStoresQuery`: the rows of `stores` by `created_at` descending, first
five. -/
def recentStoresQuery (db : Db) : List Store :=
  (db.stores.insertionSort (fun a b => a.created_at ≥ b.created_at)).take 5

/-- The rows of `ratings r JOIN users u ON r.user_id = u.id
JOIN stores s ON r.store_id = s.id`. -/
def ratingsWithUserAndStore (db : Db) : List ((Rating × User) × Store) :=
  innerJoin (innerJoin db.ratings db.users (fun r u => decide (r.user_id = u.id))) db.stores
    (fun ru s => decide (ru.1.store_id = s.id))

/-- `recentRatingsQuery`: the joined rating rows by `r.created_at` descending,
first five. -/
def recentRatingsQuery (db : Db) : List ((Rating × User) × Store) :=
  ((ratingsWithUserAndStore db).insertionSort
    (fun a b => a.1.1.created_at ≥ b.1.1.created_at)).take 5

/-- `SELECT rating, COUNT(*) ... GROUP BY rating ORDER BY rating DESC` over the
scores of the rows in scope; the `map` of the answer keeps the pairs as they
are. -/
def ratingDistributionOf (scores : List Int) : List (Int × Nat) :=
  ((groupKeys scores).map (fun k => (k, scores.count k))).insertionSort (fun a b => a.1 ≥ b.1)

/-- `ratingDistributionQuery` of the admin dashboard: all ratings. -/
def adminRatingDistribution (db : Db) : List (Int × Nat) :=
  ratingDistributionOf (db.ratings.map (fun r => r.rating))

/-- `ratingDistributionQuery` of the store owner dashboard: the ratings joined
with their store, for the stores of the owner. -/
def ownerRatingDistribution (db : Db) (ownerId : Int) : List (Int × Nat) :=
  ratingDistributionOf
    (((innerJoin db.ratings db.stores (fun r s => decide (r.store_id = s.id))).filter
      (fun rs => decide (rs.2.owner_id = some ownerId))).map (fun rs => rs.1.rating))

/-- `ratingDistributionQuery` of the user dashboard: the ratings of the user. -/
def userRatingDistribution (db : Db) (userId : Int) : List (Int × Nat) :=
  ratingDistributionOf
    ((db.ratings.filter (fun r => decide (r.user_id = userId))).map (fun r => r.rating))

/-- The rows of `stores s LEFT JOIN ratings r ON s.id = r.store_id`. -/
def storesWithRatings (db : Db) : List (Store × Option Rating) :=
  leftJoin db.stores db.ratings (fun s r => decide (s.id = r.store_id))

/-- The groups of `topStoresQuery`: `GROUP BY s.id, s.name, s.email`. -/
def topStoresGroups (db : Db) : List (RatingGroup (Int × String × String)) :=
  groupRows (fun row => (row.1.id, row.1.name, row.1.email))
    (fun row => row.2.map (fun r => r.rating)) (storesWithRatings db)

/-- The groups that pass `HAVING COUNT(r.rating) > 0`. -/
def topStoresCandidates (db : Db) : List (RatingGroup (Int × String × String)) :=
  (topStoresGroups db).filter (fun g => decide (g.total_ratings > 0))

/-- The place of a store in an order of `PlanOrders`. -/
def planRank (order : List Int) (storeId : Int) : Nat := order.indexOf storeId

/-- The groups of a query grouped by store, in the order in which the database
hands them to the sort of its `ORDER BY`. -/
def planSort (order : List Int) (gs : List (RatingGroup (Int × String × String))) :
    List (RatingGroup (Int × String × String)) :=
  gs.insertionSort (fun a b => planRank order a.key.1 ≤ planRank order b.key.1)

/-- `topStoresQuery`: the candidates by average descending, then count
descending, first five. -/
def topStoresQuery (db : Db) : List (RatingGroup (Int × String × String)) :=
  ((planSort db.plan.topStores (topStoresCandidates db)).insertionSort rankedBefore).take 5

/-! ## Queries of the user dashboard (`GET /dashboard/user`) -/

/-- The rows of `stores s LEFT JOIN ratings r ON s.id = r.store_id
LEFT JOIN ratings ur ON s.id = ur.store_id AND ur.user_id = $1
WHERE ur.id IS NULL`. -/
def notRatedRows (db : Db) (userId : Int) : List ((Store × Option Rating) × Option Rating) :=
  (leftJoin (storesWithRatings db) db.ratings
    (fun row ur => decide (row.1.id = ur.store_id ∧ ur.user_id = userId))).filter
    (fun row => row.2.isNone)

/-- Their groups: `GROUP BY s.id, s.name, s.address`. -/
def notRatedGroups (db : Db) (userId : Int) : List (RatingGroup (Int × String × String)) :=
  groupRows (fun row => (row.1.1.id, row.1.1.name, row.1.1.address))
    (fun row => row.1.2.map (fun r => r.rating)) (notRatedRows db userId)

/-- The groups that pass `HAVING COUNT(r.rating) >= 3 AND AVG(r.rating) >= 4.0`. -/
def recommendedCandidates (db : Db) (userId : Int) :
    List (RatingGroup (Int × String × String)) :=
  (notRatedGroups db userId).filter
    (fun g => decide (g.total_ratings ≥ 3) && decide (avgAtLeast g.scores 4))

/-- `recommendedStoresQuery`: the candidates by average descending, then count
descending, first five. -/
def recommendedStoresQuery (db : Db) (userId : Int) :
    List (RatingGroup (Int × String × String)) :=
  ((planSort db.plan.recommended (recommendedCandidates db userId)).insertionSort
    rankedBefore).take 5

/-- The groups that pass `HAVING COUNT(r.rating) >= 5`. -/
def unratedCandidates (db : Db) (userId : Int) : List (RatingGroup (Int × String × String)) :=
  (notRatedGroups db userId).filter (fun g => decide (g.total_ratings ≥ 5))

/-- `unratedStoresQuery`: the candidates by count descending, first five. -/
def unratedStoresQuery (db : Db) (userId : Int) : List (RatingGroup (Int × String × String)) :=
  ((planSort db.plan.unrated (unratedCandidates db userId)).insertionSort
    (fun a b => a.total_ratings ≥ b.total_ratings)).take 5

/-! ## Listing the ratings of a store (`GET /ratings/store/:storeId`) -/

/-- `LIMIT $limit OFFSET $offset` on the rows of a query; the statement throws
(`none`) when one of the two is negative. -/
def limitOffset {α : Type} (rows : List α) (limit offset : Int) : Option (List α) :=
  if limit < 0 ∨ offset < 0 then none else some ((rows.drop offset.toNat).take limit.toNat)

/-- The rows of the listing query before `LIMIT`: the ratings of the store
joined with their user, by `r.created_at` descending. -/
def storeRatingsRows (db : Db) (storeId : Int) : List (Rating × User) :=
  ((innerJoin db.ratings db.users (fun r u => decide (r.user_id = u.id))).filter
    (fun ru => decide (ru.1.store_id = storeId))).insertionSort
    (fun a b => a.1.created_at ≥ b.1.created_at)

/-- The answer of the listing: the rows and, of the pagination block, the total
number of ratings of the store. -/
structure RatingsPage where
  ratings : List (Rating × User)
  totalRatings : Nat
deriving DecidableEq, Repr

/-- Handler of `GET /ratings/store/:storeId` with `reqUser = req.user` and
`storeId` the path parameter, taken to be a value of the id column; `page` and
`limit` are the values of `parseInt(page)` and `parseInt(limit)`. -/
def getStoreRatings (db : Db) (reqUser : User) (storeId page limit : Int) :
    Except Response RatingsPage :=
  match db.stores.filter (fun s => decide (s.id = storeId)) with
  | [] => .error ⟨404, .error "Store not found"⟩
  | st :: _ =>
    if reqUser.role = "store_owner" ∧ st.owner_id ≠ some reqUser.id then
      .error ⟨403, .error "You can only view ratings for your own stores"⟩
    else if reqUser.role = "user" then
      .error ⟨403, .error "Access denied"⟩
    else
      match limitOffset (storeRatingsRows db storeId) limit ((page - 1) * limit) with
      | none => .error internalError
      | some rows =>
        .ok ⟨rows, (db.ratings.filter (fun r => decide (r.store_id = storeId))).length⟩

/-! ## Store listings (`routes/stores.js`) -/

/-- The grouping columns `s.id, s.name, s.email, s.address, s.created_at`. -/
structure StoreColumns where
  id : Int
  name : String
  email : String
  address : String
  created_at : Nat
deriving DecidableEq, Repr

/-- The columns of a store row that the listings group by. -/
def Store.columns (s : Store) : StoreColumns :=
  ⟨s.id, s.name, s.email, s.address, s.created_at⟩

/-- The grouping columns of the store listing: those of the store and
`ur.rating`, which is the `user_rating` of the answer. -/
structure StoreListKey where
  store : StoreColumns
  user_rating : Option Int
deriving DecidableEq, Repr

/-- The rows of `stores s LEFT JOIN ratings r ON s.id = r.store_id
LEFT JOIN ratings ur ON s.id = ur.store_id AND ur.user_id = $1 WHERE ...`, the
`WHERE` condition being a condition `flt` on the store. -/
def storeListRows (db : Db) (userId : Int) (flt : Store → Bool) :
    List ((Store × Option Rating) × Option Rating) :=
  (leftJoin (storesWithRatings db) db.ratings
    (fun row ur => decide (row.1.id = ur.store_id ∧ ur.user_id = userId))).filter
    (fun row => flt row.1.1)

/-- Their groups: `GROUP BY s.id, s.name, s.email, s.address, s.created_at,
ur.rating`. -/
def storeListGroups (db : Db) (userId : Int) (flt : Store → Bool) :
    List (RatingGroup StoreListKey) :=
  groupRows
    (fun row => ⟨row.1.1.columns, row.2.map (fun ur => ur.rating)⟩)
    (fun row => row.1.2.map (fun r => r.rating)) (storeListRows db userId flt)

/-- A query parameter that is present and not the empty string. -/
def truthy (o : Option String) : Bool :=
  match o with
  | some s => decide (s ≠ "")
  | none => false

/-- The `WHERE` condition of `GET /stores`: `s.name ILIKE %name%` when `name` is
given, `s.address ILIKE %address%` when `address` is given. `ilike pattern text`
stands for the operator of the database. -/
def storeFilter (ilike : String → String → Bool) (name address : Option String)
    (s : Store) : Bool :=
  (!truthy name || ilike ("%" ++ name.getD "" ++ "%") s.name) &&
  (!truthy address || ilike ("%" ++ address.getD "" ++ "%") s.address)

/-- Handler of `GET /stores` (any authenticated user): the groups of the
stores passing the filters, in the order of the `ORDER BY` clause, one page of
them. `order a b` stands for the comparison the clause asks of the database;
`none` is a statement that throws. The answer renders each average with
`toFixed(2)`. -/
def getStores (ilike : String → String → Bool)
    (order : RatingGroup StoreListKey → RatingGroup StoreListKey → Bool)
    (db : Db) (reqUser : User) (name address : Option String) (page limit : Int) :
    Option (List (RatingGroup StoreListKey)) :=
  limitOffset
    ((storeListGroups db reqUser.id (storeFilter ilike name address)).insertionSort
      (fun a b => order a b = true))
    limit ((page - 1) * limit)

/-- Handler of `GET /stores/:id` (any authenticated user): 404 when the query
has no row, else its first row. -/
def getStoreById (db : Db) (reqUser : User) (id : Int) :
    Except Response (RatingGroup StoreListKey) :=
  match storeListGroups db reqUser.id (fun s => decide (s.id = id)) with
  | [] => .error ⟨404, .error "Store not found"⟩
  | g :: _ => .ok g

/-! ## Queries of the store owner dashboard (`GET /dashboard/store-owner`) -/

/-- The rows of `stores s LEFT JOIN ratings r ON s.id = r.store_id
WHERE s.owner_id = $1`. -/
def ownerRows (db : Db) (ownerId : Int) : List (Store × Option Rating) :=
  (storesWithRatings db).filter (fun row => decide (row.1.owner_id = some ownerId))

/-- The groups of `storesQuery` (and of `GET /stores/owner/my-stores`):
`GROUP BY s.id, s.name, s.email, s.address, s.created_at`, before the
`ORDER BY s.name`. -/
def ownerStoresGroups (db : Db) (ownerId : Int) :
    List (RatingGroup StoreColumns) :=
  groupRows (fun row => row.1.columns)
    (fun row => row.2.map (fun r => r.rating)) (ownerRows db ownerId)

/-- `storesQuery`: the groups by store name; `nameLe` stands for the collation
of the database. -/
def ownerStoresQuery (nameLe : String → String → Bool) (db : Db) (ownerId : Int) :
    List (RatingGroup StoreColumns) :=
  (ownerStoresGroups db ownerId).insertionSort (fun a b => nameLe a.key.name b.key.name = true)

/-- The row of `overallStatsQuery`. -/
structure OverallStats where
  total_stores : Nat
  overall_average_rating : ℚ
  total_ratings_received : Nat

/-- `overallStatsQuery`: `COUNT(DISTINCT s.id)`, `COALESCE(AVG(r.rating), 0)` and
`COUNT(r.rating)` over the rows of the stores of the owner. -/
def overallStatsQuery (db : Db) (ownerId : Int) : OverallStats :=
  { total_stores := (groupKeys ((ownerRows db ownerId).map (fun row => row.1.id))).length
    overall_average_rating :=
      (sqlAvg ((ownerRows db ownerId).filterMap
        (fun row => row.2.map (fun r => r.rating)))).getD 0
    total_ratings_received :=
      ((ownerRows db ownerId).filterMap (fun row => row.2.map (fun r => r.rating))).length }

/-- The rows of `stores s LEFT JOIN ratings r ON s.id = r.store_id
LEFT JOIN users u ON r.user_id = u.id WHERE s.owner_id = $1`; a row without
rating matches no user. -/
def ratingUsersRows (db : Db) (ownerId : Int) : List ((Store × Option Rating) × Option User) :=
  (leftJoin (storesWithRatings db) db.users
    (fun row u => match row.2 with
      | some r => decide (r.user_id = u.id)
      | none => false)).filter
    (fun row => decide (row.1.1.owner_id = some ownerId))

/-- The groups of `ratingUsersQuery`: `GROUP BY s.id, s.name`, each with the
non-null values of `r.user_id` in its rows. -/
def ratingUsersGroups (db : Db) (ownerId : Int) : List (RatingGroup (Int × String)) :=
  groupRows (fun row => (row.1.1.id, row.1.1.name))
    (fun row => row.1.2.map (fun r => r.user_id)) (ratingUsersRows db ownerId)

/-- `COUNT(DISTINCT r.user_id)` of a group of `ratingUsersQuery`. -/
def uniqueRaters {κ : Type} (g : RatingGroup κ) : Nat := (groupKeys g.scores).length

/-! ## Query texts built from the request -/

/-- `String.prototype.toUpperCase` on ASCII text. -/
def toUpperCase (s : String) : String := String.mk (s.data.map Char.toUpper)

/-- `String.prototype.toLowerCase` on ASCII text. -/
def toLowerCase (s : String) : String := String.mk (s.data.map Char.toLower)

/-- The `ORDER BY` line of the admin listing of all ratings (`GET /ratings`):
the text interpolated into the query for `sortBy` and `sortOrder`. -/
def ratingsOrderBy (sortBy sortOrder : String) : String :=
  "ORDER BY r." ++ (if sortBy = "rating" then "rating" else "created_at") ++ " "
    ++ toUpperCase sortOrder

/-- The text appended to the query of `GET /stores` for the sorting. -/
def storesOrderBy (sortBy sortOrder : String) : String :=
  if ["name", "address", "average_rating", "created_at"].contains sortBy
      ∧ ["asc", "desc"].contains (toLowerCase sortOrder) then
    if sortBy = "average_rating" then " ORDER BY average_rating " ++ toUpperCase sortOrder
    else " ORDER BY s." ++ sortBy ++ " " ++ toUpperCase sortOrder
  else " ORDER BY s.name ASC"

/-- The text appended to the query of `GET /users` for the sorting. -/
def usersOrderBy (sortBy sortOrder : String) : String :=
  if ["name", "email", "address", "role", "created_at"].contains sortBy
      ∧ ["asc", "desc"].contains (toLowerCase sortOrder) then
    " ORDER BY u." ++ sortBy ++ " " ++ toUpperCase sortOrder
  else " ORDER BY u.name ASC"

/-- A value bound to a statement. -/
inductive SqlValue where
  | text (s : String)
  | int (i : Int)
  | null
deriving DecidableEq, Repr

/-- The `updates`, `values` and `paramCount` of a dynamic update. -/
structure UpdateBuilder where
  updates : List String
  values : List SqlValue
  paramCount : Nat
deriving DecidableEq, Repr

/-- One step of the user update: `paramCount++`, then the pushes. The text
pushed is the column, ` = ` and the number, as the template of the source
writes it. -/
def pushUserField (b : UpdateBuilder) (column : String) (v : SqlValue) : UpdateBuilder :=
  { updates := b.updates ++ [column ++ " = " ++ Nat.repr (b.paramCount + 1)]
    values := b.values ++ [v]
    paramCount := b.paramCount + 1 }

/-- One step of the store update: `paramCount++`, then the pushes. The text
pushed is the column, ` = $` and the number. -/
def pushStoreField (b : UpdateBuilder) (column : String) (v : SqlValue) : UpdateBuilder :=
  { updates := b.updates ++ [column ++ " = $" ++ Nat.repr (b.paramCount + 1)]
    values := b.values ++ [v]
    paramCount := b.paramCount + 1 }

/-- The statement built by `PUT /users/:id` once its checks have passed, with
the values bound to it; `none` is the answer 400 `No fields to update`. -/
def buildUserUpdate (name email address role : Option String) (id : String) :
    Option (String × List SqlValue) :=
  let b0 : UpdateBuilder := ⟨[], [], 0⟩
  let b1 := if truthy name then pushUserField b0 "name" (.text (name.getD "")) else b0
  let b2 := if truthy email then pushUserField b1 "email" (.text (email.getD "")) else b1
  let b3 := match address with
    | some a => pushUserField b2 "address" (.text a)
    | none => b2
  let b4 := if truthy role then pushUserField b3 "role" (.text (role.getD "")) else b3
  if b4.updates.length = 0 then none
  else
    some ("UPDATE users SET "
        ++ ", ".intercalate (b4.updates ++ ["updated_at = CURRENT_TIMESTAMP"])
        ++ " WHERE id = " ++ Nat.repr (b4.paramCount + 1)
        ++ " RETURNING id, name, email, address, role, created_at, updated_at",
      b4.values ++ [.text id])

/-- The statement built by `PUT /stores/:id` once its checks have passed, with
the values bound to it. `owner` is `none` when `ownerEmail` is undefined, else
the owner id found for it (`NULL` for an empty `ownerEmail`); `none` as a result
is the answer 400 `No fields to update`. -/
def buildStoreUpdate (name email address : Option String) (owner : Option (Option Int))
    (id : String) : Option (String × List SqlValue) :=
  let b0 : UpdateBuilder := ⟨[], [], 0⟩
  let b1 := if truthy name then pushStoreField b0 "name" (.text (name.getD "")) else b0
  let b2 := if truthy email then pushStoreField b1 "email" (.text (email.getD "")) else b1
  let b3 := match address with
    | some a => pushStoreField b2 "address" (.text a)
    | none => b2
  let b4 := match owner with
    | some (some ownerId) => pushStoreField b3 "owner_id" (.int ownerId)
    | some none => pushStoreField b3 "owner_id" .null
    | none => b3
  if b4.updates.length = 0 then none
  else
    some ("UPDATE stores SET "
        ++ ", ".intercalate (b4.updates ++ ["updated_at = CURRENT_TIMESTAMP"])
        ++ " WHERE id = $" ++ Nat.repr (b4.paramCount + 1)
        ++ " RETURNING id, name, email, address, owner_id, created_at, updated_at",
      b4.values ++ [.text id])

/-! ## Invariant and sample data -/

/-- At most one rating row for each `(user_id, store_id)` pair. -/
def UniquePerPair (rs : List Rating) : Prop :=
  rs.Pairwise (fun a b => ¬ (a.user_id = b.user_id ∧ a.store_id = b.store_id))

instance (rs : List Rating) : Decidable (UniquePerPair rs) := by
  unfold UniquePerPair; infer_instance

/-- Tables reachable from an empty ratings table by running the submit and
delete handlers one after the other. -/
inductive Reachable : Db → Prop where
  | init (db : Db) (h : db.ratings = []) : Reachable db
  | submit (db : Db) (now : Nat) (userId storeId rating : Int) :
      Reachable db → Reachable (submitRating db now userId storeId rating).2
  | delete (db : Db) (reqUser : User) (id : Int) :
      Reachable db → Reachable (deleteRating db reqUser id).2

/-- Modelled from the spec: the primary key of the store table, whose
declaration is not among the sources. A store is identified by its id, so no
two rows of the table share one. -/
def StoreIdsDistinct (db : Db) : Prop := (db.stores.map (fun s => s.id)).Nodup

instance (db : Db) : Decidable (StoreIdsDistinct db) := by
  unfold StoreIdsDistinct; infer_instance

/-- A small database: three users (one of each role), two stores, no rating. -/
def sampleDb (sc : Schema) : Db :=
  { users := [⟨1, "Asha", "asha@example.org", "user", 1⟩,
              ⟨2, "Ravi", "ravi@example.org", "store_owner", 2⟩,
              ⟨3, "Root", "root@example.org", "admin", 3⟩]
    stores := [⟨1, "Corner Shop", "corner@example.org", "1 Main St", some 2, 10⟩,
               ⟨2, "Book Nook", "books@example.org", "2 Side St", none, 11⟩]
    ratings := []
    ratingSeq := 1
    schema := sc
    integerIds := true
    plan := ⟨[], [], []⟩ }

/-- The sample database after five users have rated store 1 with the scores
5, 5, 4, 3, 1. -/
def statsDb : Db :=
  { sampleDb ⟨true, true⟩ with
    ratings := [⟨1, 1, 1, 5, 100, 100⟩, ⟨2, 4, 1, 5, 101, 101⟩, ⟨3, 5, 1, 4, 102, 102⟩,
                ⟨4, 6, 1, 3, 103, 103⟩, ⟨5, 7, 1, 1, 104, 104⟩]
    ratingSeq := 6 }

/-- A database with ties: the store table returns store 2 before store 1, both
created at the same time and both rated 5, 5, 5 by the users 4, 5 and 6; the
users 1 and 4 were created at the same time; all ratings were created at the
same time. In each grouped query the database hands out the group of store 1
before that of store 2. -/
def tieDb : Db :=
  { users := [⟨1, "Asha", "asha@example.org", "user", 7⟩,
              ⟨4, "Bela", "bela@example.org", "user", 7⟩,
              ⟨5, "Chen", "chen@example.org", "user", 8⟩,
              ⟨6, "Dara", "dara@example.org", "user", 9⟩]
    stores := [⟨2, "Book Nook", "books@example.org", "2 Side St", none, 11⟩,
               ⟨1, "Corner Shop", "corner@example.org", "1 Main St", none, 11⟩]
    ratings := [⟨1, 4, 2, 5, 100, 100⟩, ⟨2, 5, 2, 5, 100, 100⟩, ⟨3, 6, 2, 5, 100, 100⟩,
                ⟨4, 4, 1, 5, 100, 100⟩, ⟨5, 5, 1, 5, 100, 100⟩, ⟨6, 6, 1, 5, 100, 100⟩]
    ratingSeq := 7
    schema := ⟨true, true⟩
    integerIds := true
    plan := ⟨[1, 2], [1, 2], [1, 2]⟩ }

/-- The same rows as `tieDb`, the store table returning store 1 first. -/
def tieDbSwapped : Db :=
  { tieDb with
    stores := [⟨1, "Corner Shop", "corner@example.org", "1 Main St", none, 11⟩,
               ⟨2, "Book Nook", "books@example.org", "2 Side St", none, 11⟩] }

/-- Two stores of equal average 4.5: store 1 with the scores 5, 4 and store 2
with the scores 5, 4, 5, 4. -/
def rankDb : Db :=
  { sampleDb ⟨true, true⟩ with
    ratings := [⟨1, 1, 1, 5, 100, 100⟩, ⟨2, 4, 1, 4, 101, 101⟩, ⟨3, 1, 2, 5, 102, 102⟩,
                ⟨4, 4, 2, 4, 103, 103⟩, ⟨5, 5, 2, 5, 104, 104⟩, ⟨6, 6, 2, 4, 105, 105⟩]
    ratingSeq := 7 }

/-- Two stores with five ratings each by the users 4 to 8, none by user 1:
store 2 with the scores 1 and store 1 with the scores 5, in the database of
`tieDb`. -/
def popularDb : Db :=
  { tieDb with
    ratings := [⟨1, 4, 2, 1, 100, 100⟩, ⟨2, 5, 2, 1, 101, 101⟩, ⟨3, 6, 2, 1, 102, 102⟩,
                ⟨4, 7, 2, 1, 103, 103⟩, ⟨5, 8, 2, 1, 104, 104⟩, ⟨6, 4, 1, 5, 105, 105⟩,
                ⟨7, 5, 1, 5, 106, 106⟩, ⟨8, 6, 1, 5, 107, 107⟩, ⟨9, 7, 1, 5, 108, 108⟩,
                ⟨10, 8, 1, 5, 109, 109⟩]
    ratingSeq := 11 }

/-- Six stores with three ratings each by the users 4, 5 and 6, none by user 1:
the stores 1 to 5 with the scores 5, 5, 5 and store 6 with the scores 4, 4, 5.
The database hands out the groups of `topStoresQuery` in the order 4, 3, 1, 5,
2, 6 and those of the other grouped queries in table order. -/
def crowdedDb : Db :=
  { sampleDb ⟨true, true⟩ with
    stores := [⟨1, "Store 1", "s1@example.org", "1 Main St", none, 10⟩,
               ⟨2, "Store 2", "s2@example.org", "2 Main St", none, 11⟩,
               ⟨3, "Store 3", "s3@example.org", "3 Main St", none, 12⟩,
               ⟨4, "Store 4", "s4@example.org", "4 Main St", none, 13⟩,
               ⟨5, "Store 5", "s5@example.org", "5 Main St", none, 14⟩,
               ⟨6, "Store 6", "s6@example.org", "6 Main St", none, 15⟩]
    ratings := [⟨1, 4, 1, 5, 100, 100⟩, ⟨2, 5, 1, 5, 100, 100⟩, ⟨3, 6, 1, 5, 100, 100⟩,
                ⟨4, 4, 2, 5, 100, 100⟩, ⟨5, 5, 2, 5, 100, 100⟩, ⟨6, 6, 2, 5, 100, 100⟩,
                ⟨7, 4, 3, 5, 100, 100⟩, ⟨8, 5, 3, 5, 100, 100⟩, ⟨9, 6, 3, 5, 100, 100⟩,
                ⟨10, 4, 4, 5, 100, 100⟩, ⟨11, 5, 4, 5, 100, 100⟩, ⟨12, 6, 4, 5, 100, 100⟩,
                ⟨13, 4, 5, 5, 100, 100⟩, ⟨14, 5, 5, 5, 100, 100⟩, ⟨15, 6, 5, 5, 100, 100⟩,
                ⟨16, 4, 6, 4, 100, 100⟩, ⟨17, 5, 6, 4, 100, 100⟩, ⟨18, 6, 6, 5, 100, 100⟩]
    ratingSeq := 19
    plan := ⟨[4, 3, 1, 5, 2, 6], [], []⟩ }

/-- Ravi (user 2) owns the stores 1 (one rating, score 5), 3 (two ratings,
scores 1 and 1) and 4 (no rating); store 2 has no owner and one rating. -/
def ownerDb : Db :=
  { sampleDb ⟨true, true⟩ with
    stores := [⟨1, "Corner Shop", "corner@example.org", "1 Main St", some 2, 10⟩,
               ⟨2, "Book Nook", "books@example.org", "2 Side St", none, 11⟩,
               ⟨3, "Tea House", "tea@example.org", "3 Hill Rd", some 2, 12⟩,
               ⟨4, "Empty Lot", "lot@example.org", "4 Back Ln", some 2, 13⟩]
    ratings := [⟨1, 1, 1, 5, 100, 100⟩, ⟨2, 1, 2, 4, 101, 101⟩, ⟨3, 1, 3, 1, 102, 102⟩,
                ⟨4, 3, 3, 1, 103, 103⟩]
    ratingSeq := 5 }

/-- A table that breaks the uniqueness invariant: user 1 has two ratings on
store 1, with the scores 5 and 3. -/
def dupDb : Db :=
  { sampleDb ⟨false, true⟩ with
    ratings := [⟨1, 1, 1, 5, 100, 100⟩, ⟨2, 1, 1, 3, 101, 101⟩]
    ratingSeq := 3 }

/-- The same with the score 4 on both rows. -/
def dupSameDb : Db :=
  { sampleDb ⟨false, true⟩ with
    ratings := [⟨1, 1, 1, 4, 100, 100⟩, ⟨2, 1, 1, 4, 101, 101⟩]
    ratingSeq := 3 }

/-! ## Unfolding the submit handler -/

theorem selectStore_eq_nil_iff (db : Db) (storeId : Int) :
    selectStore db storeId = [] ↔ ∀ st ∈ db.stores, st.id ≠ storeId := by
  simp [selectStore, List.filter_eq_nil_iff]

theorem selectExisting_eq_nil_iff (db : Db) (userId storeId : Int) :
    selectExisting db userId storeId = [] ↔
      ∀ r ∈ db.ratings, ¬ (r.user_id = userId ∧ r.store_id = storeId) := by
  simp [selectExisting, matchesUserStore, List.filter_eq_nil_iff]

theorem ratingAllowed_of_range (sc : Schema) (v : Int) (h : 1 ≤ v ∧ v ≤ 5) :
    ratingAllowed sc v = true := by
  simp [ratingAllowed, h]

theorem storeCheckThrows_of_found (db : Db) (storeId : Int)
    (hs : selectStore db storeId ≠ []) : storeCheckThrows db storeId = false := by
  unfold storeCheckThrows
  cases h : selectStore db storeId with
  | nil => exact absurd h hs
  | cons _ _ => simp

theorem storeCheckThrows_of_fits (db : Db) (storeId : Int)
    (h : db.integerIds = false ∨ inIntegerRange storeId = true) :
    storeCheckThrows db storeId = false := by
  unfold storeCheckThrows
  rcases h with h | h <;> simp [h]

theorem submitRating_store_throws (db : Db) (now : Nat) (userId storeId rating : Int)
    (ht : storeCheckThrows db storeId = true) :
    submitRating db now userId storeId rating = (internalError, db) := by
  simp [submitRating, ht]

theorem submitRating_no_store (db : Db) (now : Nat) (userId storeId rating : Int)
    (ht : storeCheckThrows db storeId = false) (hs : selectStore db storeId = []) :
    submitRating db now userId storeId rating = (⟨404, .error "Store not found"⟩, db) := by
  simp [submitRating, ht, hs]

/-- Without a store row for the id the handler answers 404 or 500 and hands back
the database it was given. -/
theorem submitRating_no_store_cases (db : Db) (now : Nat) (userId storeId rating : Int)
    (hs : selectStore db storeId = []) :
    submitRating db now userId storeId rating = (⟨404, .error "Store not found"⟩, db) ∨
    submitRating db now userId storeId rating = (internalError, db) := by
  cases ht : storeCheckThrows db storeId
  · exact Or.inl (submitRating_no_store db now userId storeId rating ht hs)
  · exact Or.inr (submitRating_store_throws db now userId storeId rating ht)

theorem submitRating_update (db : Db) (now : Nat) (userId storeId rating : Int)
    (hs : selectStore db storeId ≠ []) (he : selectExisting db userId storeId ≠ [])
    (hok : ratingAllowed db.schema rating = true) :
    submitRating db now userId storeId rating =
      (⟨200, .rated "Rating updated successfully"
          ((selectExisting db userId storeId).map (setScore rating now)).head?⟩,
       { db with ratings := updateRows userId storeId rating now db.ratings }) := by
  have hs' : (selectStore db storeId).length ≠ 0 := by simpa [List.length_eq_zero] using hs
  have ht := storeCheckThrows_of_found db storeId hs
  have he' : 0 < (selectExisting db userId storeId).length := List.length_pos.mpr he
  simp [submitRating, ht, hs', he', updateRating, hok]

theorem submitRating_update_rejected (db : Db) (now : Nat) (userId storeId rating : Int)
    (hs : selectStore db storeId ≠ []) (he : selectExisting db userId storeId ≠ [])
    (hok : ratingAllowed db.schema rating = false) :
    submitRating db now userId storeId rating = (internalError, db) := by
  have hs' : (selectStore db storeId).length ≠ 0 := by simpa [List.length_eq_zero] using hs
  have ht := storeCheckThrows_of_found db storeId hs
  have he' : 0 < (selectExisting db userId storeId).length := List.length_pos.mpr he
  simp [submitRating, ht, hs', he', updateRating, hok]

theorem submitRating_insert (db : Db) (now : Nat) (userId storeId rating : Int)
    (hs : selectStore db storeId ≠ []) (he : selectExisting db userId storeId = [])
    (hok : ratingAllowed db.schema rating = true) :
    submitRating db now userId storeId rating =
      (⟨201, .rated "Rating submitted successfully"
          (some (newRatingRow db.ratingSeq now userId storeId rating))⟩,
       { db with
         ratings := db.ratings ++ [newRatingRow db.ratingSeq now userId storeId rating]
         ratingSeq := db.ratingSeq + 1 }) := by
  have hs' : (selectStore db storeId).length ≠ 0 := by simpa [List.length_eq_zero] using hs
  have ht := storeCheckThrows_of_found db storeId hs
  simp [submitRating, ht, hs', he, insertRating, hok]

theorem submitRating_insert_rejected (db : Db) (now : Nat) (userId storeId rating : Int)
    (hs : selectStore db storeId ≠ []) (he : selectExisting db userId storeId = [])
    (hok : ratingAllowed db.schema rating = false) :
    submitRating db now userId storeId rating =
      (internalError, { db with ratingSeq := db.ratingSeq + 1 }) := by
  have hs' : (selectStore db storeId).length ≠ 0 := by simpa [List.length_eq_zero] using hs
  have ht := storeCheckThrows_of_found db storeId hs
  simp [submitRating, ht, hs', he, insertRating, hok]

/-! ## The gates in front of the submit handler -/

theorem authorizeRoles_user (u : User) :
    authorizeRoles ["user"] (some u) =
      if u.role = "user" then .ok ()
      else .error ⟨403, .error "Access denied. Insufficient permissions."⟩ := by
  simp [authorizeRoles]

theorem authenticateToken_error_status (jwtVerify : String → Option Int) (db : Db)
    (authHeader : Option String) (res : Response)
    (h : authenticateToken jwtVerify db authHeader = .error res) :
    res.status = 401 ∨ res.status = 403 := by
  unfold authenticateToken at h
  simp only at h
  split at h
  · cases h; simp
  · split at h
    · cases h; simp
    · split at h
      · cases h; simp
      · split at h
        · cases h; simp
        · cases h

theorem handleValidationErrors_error_status (errors : List String) (res : Response)
    (h : handleValidationErrors errors = .error res) : res = ⟨400, .validation errors⟩ := by
  unfold handleValidationErrors at h
  split at h
  · cases h
  · cases h; rfl

theorem ratingValidationRules_eq_nil_iff (body : RatingBody) :
    ratingValidationRules body = [] ↔ (1 ≤ body.rating ∧ body.rating ≤ 5) ∧ 1 ≤ body.storeId := by
  unfold ratingValidationRules
  by_cases h1 : 1 ≤ body.rating ∧ body.rating ≤ 5 <;> by_cases h2 : 1 ≤ body.storeId <;>
    simp [h1, h2]

/-- Once authentication and the role gate have passed, the route is the
validation followed by the handler. -/
theorem postRating_of_user (jwtVerify : String → Option Int) (db : Db) (now : Nat)
    (req : SubmitRequest) (u : User)
    (hauth : authenticateToken jwtVerify db req.authorization = .ok u)
    (hrole : u.role = "user") :
    postRating jwtVerify db now req =
      if ratingValidationRules req.body = [] then
        submitRating db now u.id req.body.storeId req.body.rating
      else (⟨400, .validation (ratingValidationRules req.body)⟩, db) := by
  simp only [postRating, hauth, authorizeRoles_user, hrole, if_true, handleValidationErrors]
  by_cases h : ratingValidationRules req.body = []
  · simp [h]
  · simp [h]

/-- The route answers without running the handler, or runs it for a rater of
role `user` on a validated body. -/
theorem postRating_cases (jwtVerify : String → Option Int) (db : Db) (now : Nat)
    (req : SubmitRequest) :
    (∃ res, postRating jwtVerify db now req = (res, db) ∧
        (res.status = 400 ∨ res.status = 401 ∨ res.status = 403)) ∨
    (∃ u, authenticateToken jwtVerify db req.authorization = .ok u ∧ u.role = "user" ∧
        ratingValidationRules req.body = [] ∧
        postRating jwtVerify db now req =
          submitRating db now u.id req.body.storeId req.body.rating) := by
  cases hauth : authenticateToken jwtVerify db req.authorization with
  | error res =>
    left
    refine ⟨res, by simp [postRating, hauth], ?_⟩
    rcases authenticateToken_error_status _ _ _ _ hauth with h | h
    · exact Or.inr (Or.inl h)
    · exact Or.inr (Or.inr h)
  | ok u =>
    by_cases hrole : u.role = "user"
    · by_cases hv : ratingValidationRules req.body = []
      · right
        exact ⟨u, rfl, hrole, hv, by rw [postRating_of_user _ _ _ _ u hauth hrole, if_pos hv]⟩
      · left
        exact ⟨_, by rw [postRating_of_user _ _ _ _ u hauth hrole, if_neg hv], Or.inl rfl⟩
    · left
      refine ⟨⟨403, .error "Access denied. Insufficient permissions."⟩, ?_, Or.inr (Or.inr rfl)⟩
      simp [postRating, hauth, authorizeRoles_user, hrole]

/-- A row of the table after the handler that was not in the table before
carries the submitted score. -/
theorem submitRating_new_rows (db : Db) (now : Nat) (userId storeId rating : Int) (r : Rating)
    (hr : r ∈ (submitRating db now userId storeId rating).2.ratings) (hnew : r ∉ db.ratings) :
    r.rating = rating := by
  by_cases hs : selectStore db storeId = []
  · rcases submitRating_no_store_cases db now userId storeId rating hs with h | h <;>
      rw [h] at hr <;> exact absurd hr hnew
  · by_cases he : selectExisting db userId storeId = [] <;>
      cases hok : ratingAllowed db.schema rating
    · rw [submitRating_insert_rejected _ _ _ _ _ hs he hok] at hr
      exact absurd hr hnew
    · rw [submitRating_insert _ _ _ _ _ hs he hok] at hr
      simp only [List.mem_append, List.mem_singleton] at hr
      rcases hr with hr | hr
      · exact absurd hr hnew
      · rw [hr]; rfl
    · rw [submitRating_update_rejected _ _ _ _ _ hs he hok] at hr
      exact absurd hr hnew
    · rw [submitRating_update _ _ _ _ _ hs he hok] at hr
      simp only [updateRows, List.mem_map] at hr
      obtain ⟨x, hx, hxr⟩ := hr
      by_cases hm : matchesUserStore userId storeId x = true
      · rw [if_pos hm] at hxr
        rw [← hxr]; rfl
      · rw [if_neg hm] at hxr
        rw [← hxr] at hnew
        exact absurd hx hnew

/-! ## Submitting a rating: error paths -/

/-- C4, as the claim states it, fails for a store id beyond the type of the id
column: 2147483648 is the id of no store and passes the validation of the
route, the store check throws on it, and the handler and the route answer 500,
not 404. -/
theorem submit_store_id_overflow_counterexample :
    (∀ st ∈ (sampleDb ⟨true, true⟩).stores, st.id ≠ 2147483648) ∧
    ratingValidationRules ⟨2147483648, 4⟩ = [] ∧
    submitRating (sampleDb ⟨true, true⟩) 100 1 2147483648 4
      = (⟨500, .error "Internal server error"⟩, sampleDb ⟨true, true⟩) ∧
    postRating (fun _ => some 1) (sampleDb ⟨true, true⟩) 100
        ⟨some "Bearer t1", ⟨2147483648, 4⟩⟩
      = (⟨500, .error "Internal server error"⟩, sampleDb ⟨true, true⟩) := by
  decide

/-- C4 (amended): when no row of the store table has the requested id, the submit
handler hands back the database (so the rating table) it was given, for every
rater and every score, and answers 404 with the error `Store not found` when
the id is a value of the id column (the column is not of the type `INTEGER`,
or the id is within the 32 bits of the type), and 500 when it is not, the store
check having thrown. -/
theorem submit_missing_store_not_found (db : Db) (now : Nat) (userId storeId rating : Int)
    (h : ∀ st ∈ db.stores, st.id ≠ storeId) :
    (submitRating db now userId storeId rating).2 = db ∧
    (db.integerIds = false ∨ inIntegerRange storeId = true →
      submitRating db now userId storeId rating = (⟨404, .error "Store not found"⟩, db)) ∧
    (db.integerIds = true ∧ inIntegerRange storeId = false →
      submitRating db now userId storeId rating = (internalError, db)) := by
  have hs := (selectStore_eq_nil_iff db storeId).mpr h
  refine ⟨?_, ?_, ?_⟩
  · rcases submitRating_no_store_cases db now userId storeId rating hs with h' | h' <;> rw [h']
  · intro hfit
    exact submitRating_no_store db now userId storeId rating
      (storeCheckThrows_of_fits db storeId hfit) hs
  · rintro ⟨h1, h2⟩
    apply submitRating_store_throws
    simp [storeCheckThrows, h1, h2, hs]

theorem submit_missing_store_not_found_witness :
    (∀ st ∈ (sampleDb ⟨true, true⟩).stores, st.id ≠ 7) ∧
    submitRating (sampleDb ⟨true, true⟩) 100 1 7 4
      = (⟨404, .error "Store not found"⟩, sampleDb ⟨true, true⟩) ∧
    submitRating (sampleDb ⟨true, true⟩) 100 1 (-3) 4
      = (⟨404, .error "Store not found"⟩, sampleDb ⟨true, true⟩) :=
  ⟨by decide,
   (submit_missing_store_not_found (sampleDb ⟨true, true⟩) 100 1 7 4 (by decide)).2.1
     (Or.inr (by decide)),
   (submit_missing_store_not_found (sampleDb ⟨true, true⟩) 100 1 (-3) 4 (by decide)).2.1
     (Or.inr (by decide))⟩

/-- C5, as the claim states it, fails: the handler body has no range check of
its own. Called on the score 7 for an existing store, it answers 201 and writes
a row with score 7 when the table declares no range check, and answers 500
(never 400) when the table declares one. -/
theorem submit_handler_out_of_range_counterexample :
    submitRating (sampleDb ⟨true, false⟩) 100 1 1 7
      = (⟨201, .rated "Rating submitted successfully" (some ⟨1, 1, 1, 7, 100, 100⟩)⟩,
         { sampleDb ⟨true, false⟩ with ratings := [⟨1, 1, 1, 7, 100, 100⟩], ratingSeq := 2 }) ∧
    (submitRating (sampleDb ⟨false, false⟩) 100 1 1 7).1.status = 201 ∧
    (submitRating (sampleDb ⟨true, true⟩) 100 1 1 7).1 = internalError ∧
    (submitRating (sampleDb ⟨false, true⟩) 100 1 1 7).1 = internalError := by
  decide

/-- C5 (amended): the submit route, that is the handler behind
`ratingValidationRules` and `handleValidationErrors`, rejects every integer
score below 1 or above 5 without touching the database: the answer is one of
400, 401, 403, and it is 400 `Validation failed` as soon as the caller is an
authenticated rater of role `user`. No call of the route adds or changes a
rating row so that its score lies outside 1..5. -/
theorem post_rating_score_guard (jwtVerify : String → Option Int) (db : Db) (now : Nat)
    (req : SubmitRequest) :
    ((req.body.rating < 1 ∨ 5 < req.body.rating) →
      (postRating jwtVerify db now req).2 = db ∧
      ((postRating jwtVerify db now req).1.status = 400 ∨
        (postRating jwtVerify db now req).1.status = 401 ∨
        (postRating jwtVerify db now req).1.status = 403) ∧
      ∀ u, authenticateToken jwtVerify db req.authorization = .ok u → u.role = "user" →
        (postRating jwtVerify db now req).1 = ⟨400, .validation (ratingValidationRules req.body)⟩) ∧
    (∀ r ∈ (postRating jwtVerify db now req).2.ratings, r ∉ db.ratings →
      1 ≤ r.rating ∧ r.rating ≤ 5) := by
  constructor
  · intro hr
    have hv : ratingValidationRules req.body ≠ [] := by
      rw [Ne, ratingValidationRules_eq_nil_iff]
      omega
    rcases postRating_cases jwtVerify db now req with ⟨res, h, hst⟩ | ⟨u, _, _, hv', _⟩
    · refine ⟨by rw [h], by rw [h]; exact hst, ?_⟩
      intro u hauth hrole
      rw [postRating_of_user _ _ _ _ u hauth hrole, if_neg hv]
    · exact absurd hv' hv
  · intro r hr hnew
    rcases postRating_cases jwtVerify db now req with ⟨res, h, _⟩ | ⟨u, _, _, hv, h⟩
    · rw [h] at hr
      exact absurd hr hnew
    · rw [h] at hr
      have := submitRating_new_rows db now u.id req.body.storeId req.body.rating r hr hnew
      rw [ratingValidationRules_eq_nil_iff] at hv
      rw [this]
      exact hv.1

theorem post_rating_score_guard_witness :
    (postRating (fun _ => some 1) (sampleDb ⟨true, false⟩) 100 ⟨some "Bearer t1", ⟨1, 7⟩⟩).2
      = sampleDb ⟨true, false⟩ ∧
    (postRating (fun _ => some 1) (sampleDb ⟨true, false⟩) 100 ⟨some "Bearer t1", ⟨1, 7⟩⟩).1
      = ⟨400, .validation ["Rating must be an integer between 1 and 5"]⟩ :=
  have h := (post_rating_score_guard (fun _ => some 1) (sampleDb ⟨true, false⟩) 100
    ⟨some "Bearer t1", ⟨1, 7⟩⟩).1 (Or.inr (by decide))
  ⟨h.1, h.2.2 ⟨1, "Asha", "asha@example.org", "user", 1⟩ (by rfl) (by decide)⟩

/-- C6: on the submit route an authenticated identity whose role is not `user`
is answered 403 before the handler runs and the database is unchanged; the role
gate answers 401 when no identity is attached to the request, and so does the
route when the request carries no authorization header; whenever the route
answers 200 or 201, or leaves a database other than the one it was given, the
authenticated identity has role `user`. -/
theorem post_rating_role_gate (jwtVerify : String → Option Int) (db : Db) (now : Nat)
    (req : SubmitRequest) :
    (∀ u, authenticateToken jwtVerify db req.authorization = .ok u → u.role ≠ "user" →
      postRating jwtVerify db now req
        = (⟨403, .error "Access denied. Insufficient permissions."⟩, db)) ∧
    authorizeRoles ["user"] none = .error ⟨401, .error "Authentication required"⟩ ∧
    (req.authorization = none →
      postRating jwtVerify db now req = (⟨401, .error "Access token required"⟩, db)) ∧
    (((postRating jwtVerify db now req).1.status = 200 ∨
        (postRating jwtVerify db now req).1.status = 201 ∨
        (postRating jwtVerify db now req).2 ≠ db) →
      ∃ u, authenticateToken jwtVerify db req.authorization = .ok u ∧ u.role = "user") := by
  refine ⟨?_, rfl, ?_, ?_⟩
  · intro u hauth hrole
    simp [postRating, hauth, authorizeRoles_user, hrole]
  · intro h
    simp [postRating, authenticateToken, h]
  · intro h
    rcases postRating_cases jwtVerify db now req with ⟨res, hres, hst⟩ | ⟨u, hauth, hrole, _, _⟩
    · rw [hres] at h
      simp only [ne_eq, not_true_eq_false, or_false] at h
      omega
    · exact ⟨u, hauth, hrole⟩

theorem post_rating_role_gate_witness :
    postRating (fun _ => some 3) (sampleDb ⟨true, true⟩) 100 ⟨some "Bearer t3", ⟨1, 4⟩⟩
      = (⟨403, .error "Access denied. Insufficient permissions."⟩, sampleDb ⟨true, true⟩) ∧
    postRating (fun _ => some 3) (sampleDb ⟨true, true⟩) 100 ⟨none, ⟨1, 4⟩⟩
      = (⟨401, .error "Access token required"⟩, sampleDb ⟨true, true⟩) :=
  have h := post_rating_role_gate (fun _ => some 3) (sampleDb ⟨true, true⟩) 100
  ⟨(h ⟨some "Bearer t3", ⟨1, 4⟩⟩).1 ⟨3, "Root", "root@example.org", "admin", 3⟩ (by rfl) (by decide),
   (h ⟨none, ⟨1, 4⟩⟩).2.2.1 rfl⟩

/-! ## The ratings table under the statements -/

theorem matchesUserStore_setScore (v : Int) (t : Nat) (r : Rating) (u' s' : Int) :
    matchesUserStore u' s' (setScore v t r) = matchesUserStore u' s' r := rfl

theorem matchesUserStore_update (u s v : Int) (t : Nat) (r : Rating) (u' s' : Int) :
    matchesUserStore u' s' (if matchesUserStore u s r then setScore v t r else r)
      = matchesUserStore u' s' r := by
  split <;> rfl

theorem filter_updateRows (u s v : Int) (t : Nat) (rs : List Rating) :
    (updateRows u s v t rs).filter (matchesUserStore u s)
      = (rs.filter (matchesUserStore u s)).map (setScore v t) := by
  induction rs with
  | nil => rfl
  | cons a rs ih =>
    unfold updateRows at ih ⊢
    by_cases hm : matchesUserStore u s a = true
    · simp [List.filter_cons, hm, matchesUserStore_setScore, ih]
    · simp [List.filter_cons, hm, ih]

theorem uniquePerPair_iff (rs : List Rating) :
    UniquePerPair rs ↔ ∀ u s, (rs.filter (matchesUserStore u s)).length ≤ 1 := by
  unfold UniquePerPair
  induction rs with
  | nil => simp
  | cons a rs ih =>
    rw [List.pairwise_cons, ih]
    constructor
    · rintro ⟨ha, hrs⟩ u s
      by_cases hm : matchesUserStore u s a = true
      · have hnil : rs.filter (matchesUserStore u s) = [] := by
          rw [List.filter_eq_nil_iff]
          intro b hb hmb
          simp only [matchesUserStore, decide_eq_true_eq] at hm hmb
          exact ha b hb ⟨hm.1.trans hmb.1.symm, hm.2.trans hmb.2.symm⟩
        simp [List.filter_cons, hm, hnil]
      · simpa [List.filter_cons, hm] using hrs u s
    · intro h
      constructor
      · intro b hb hab
        have h1 := h a.user_id a.store_id
        have hma : matchesUserStore a.user_id a.store_id a = true := by simp [matchesUserStore]
        have hmb : matchesUserStore a.user_id a.store_id b = true := by
          simp [matchesUserStore, hab.1, hab.2]
        have hpos : 0 < (rs.filter (matchesUserStore a.user_id a.store_id)).length :=
          List.length_pos.mpr (List.ne_nil_of_mem (List.mem_filter.mpr ⟨hb, hmb⟩))
        simp only [List.filter_cons, hma, if_true, List.length_cons] at h1
        omega
      · intro u s
        have h1 := h u s
        by_cases hm : matchesUserStore u s a = true
        · simp only [List.filter_cons, hm, if_true, List.length_cons] at h1
          omega
        · simpa [List.filter_cons, hm] using h1

theorem uniquePerPair_updateRows (u s v : Int) (t : Nat) (rs : List Rating)
    (h : UniquePerPair rs) : UniquePerPair (updateRows u s v t rs) := by
  unfold UniquePerPair updateRows at *
  rw [List.pairwise_map]
  refine h.imp ?_
  intro a b hab
  have ha : ∀ x : Rating, (if matchesUserStore u s x then setScore v t x else x).user_id
      = x.user_id ∧ (if matchesUserStore u s x then setScore v t x else x).store_id
      = x.store_id := by
    intro x; split <;> exact ⟨rfl, rfl⟩
  rw [(ha a).1, (ha a).2, (ha b).1, (ha b).2]
  exact hab

theorem uniquePerPair_insert (rs : List Rating) (row : Rating) (h : UniquePerPair rs)
    (hnone : rs.filter (matchesUserStore row.user_id row.store_id) = []) :
    UniquePerPair (rs ++ [row]) := by
  unfold UniquePerPair at *
  rw [List.pairwise_append]
  refine ⟨h, List.pairwise_singleton _ _, ?_⟩
  intro a ha b hb hab
  rw [List.mem_singleton] at hb
  subst hb
  rw [List.filter_eq_nil_iff] at hnone
  exact hnone a ha (by simp [matchesUserStore, hab.1, hab.2])

theorem uniquePerPair_filter (p : Rating → Bool) (rs : List Rating) (h : UniquePerPair rs) :
    UniquePerPair (rs.filter p) :=
  List.Pairwise.sublist (List.filter_sublist rs) h

theorem selectStore_ne_nil (db : Db) (storeId : Int)
    (hs : ∃ st ∈ db.stores, st.id = storeId) : selectStore db storeId ≠ [] := by
  rw [Ne, selectStore_eq_nil_iff]
  obtain ⟨st, hst, hid⟩ := hs
  exact fun h => h st hst hid

theorem selectExisting_insert (db : Db) (now : Nat) (u s v : Int) (q : Int)
    (he : selectExisting db u s = []) :
    selectExisting { db with ratings := db.ratings ++ [newRatingRow db.ratingSeq now u s v],
                             ratingSeq := q } u s
      = [newRatingRow db.ratingSeq now u s v] := by
  unfold selectExisting at he ⊢
  simp [List.filter_append, he, List.filter_cons, matchesUserStore, newRatingRow]

theorem selectExisting_update (db : Db) (now : Nat) (u s v : Int) :
    selectExisting { db with ratings := updateRows u s v now db.ratings } u s
      = (selectExisting db u s).map (setScore v now) :=
  filter_updateRows u s v now db.ratings

theorem selectExisting_mem (db : Db) (u s : Int) (r : Rating)
    (h : r ∈ selectExisting db u s) : r ∈ db.ratings ∧ r.user_id = u ∧ r.store_id = s := by
  simpa [selectExisting, matchesUserStore] using h

/-- Under the uniqueness invariant a rating of the pair is the only one selected
for the pair. -/
theorem selectExisting_eq_singleton (db : Db) (u s : Int) (r : Rating)
    (hinv : UniquePerPair db.ratings) (hr : r ∈ db.ratings)
    (hk : r.user_id = u ∧ r.store_id = s) : selectExisting db u s = [r] := by
  have hlen : (selectExisting db u s).length ≤ 1 := (uniquePerPair_iff db.ratings).mp hinv u s
  have hmem : r ∈ selectExisting db u s :=
    List.mem_filter.mpr ⟨hr, by simp [matchesUserStore, hk]⟩
  cases hsel : selectExisting db u s with
  | nil => rw [hsel] at hmem; cases hmem
  | cons x rest =>
    rw [hsel] at hlen hmem
    have hrest : rest = [] :=
      List.length_eq_zero.mp (by rw [List.length_cons] at hlen; omega)
    subst hrest
    rw [List.mem_singleton] at hmem
    rw [hmem]

/-! ## Submitting a rating: the answer -/

/-- C7: for a submit on an existing store that succeeds (answer 200 or 201), the
answer is 201 exactly when the table held no rating for the pair before the
call and 200 exactly when it held one; the rating in the answer is a row of the
table after the write, it is the first row of that table for the pair, it
carries the rater, the store and the submitted score, and under the uniqueness
invariant it is the only row for the pair. -/
theorem submit_created_or_updated (db : Db) (now : Nat) (userId storeId rating : Int)
    (hs : ∃ st ∈ db.stores, st.id = storeId)
    (hok : (submitRating db now userId storeId rating).1.status = 200 ∨
      (submitRating db now userId storeId rating).1.status = 201) :
    ((submitRating db now userId storeId rating).1.status = 201 ↔
      ∀ r ∈ db.ratings, ¬ (r.user_id = userId ∧ r.store_id = storeId)) ∧
    ((submitRating db now userId storeId rating).1.status = 200 ↔
      ∃ r ∈ db.ratings, r.user_id = userId ∧ r.store_id = storeId) ∧
    ∃ msg row, (submitRating db now userId storeId rating).1.body = .rated msg (some row) ∧
      row ∈ (submitRating db now userId storeId rating).2.ratings ∧
      row.user_id = userId ∧ row.store_id = storeId ∧ row.rating = rating ∧
      (selectExisting (submitRating db now userId storeId rating).2 userId storeId).head?
        = some row ∧
      (UniquePerPair db.ratings →
        selectExisting (submitRating db now userId storeId rating).2 userId storeId = [row]) := by
  have hs' := selectStore_ne_nil db storeId hs
  by_cases he : selectExisting db userId storeId = [] <;>
    cases hal : ratingAllowed db.schema rating
  · rw [submitRating_insert_rejected _ _ _ _ _ hs' he hal] at hok
    simp [internalError] at hok
  · have hnone := (selectExisting_eq_nil_iff db userId storeId).mp he
    rw [submitRating_insert _ _ _ _ _ hs' he hal]
    refine ⟨⟨fun _ => hnone, fun _ => rfl⟩, ⟨fun h => by simp at h, ?_⟩, _, _, rfl, ?_, rfl, rfl, rfl,
      ?_, fun _ => selectExisting_insert db now userId storeId rating _ he⟩
    · rintro ⟨r, hr, hk⟩
      exact absurd hk (hnone r hr)
    · simp
    · rw [selectExisting_insert db now userId storeId rating _ he]; rfl
  · rw [submitRating_update_rejected _ _ _ _ _ hs' he hal] at hok
    simp [internalError] at hok
  · have hsome : ∃ r ∈ db.ratings, r.user_id = userId ∧ r.store_id = storeId := by
      by_contra hcon
      push_neg at hcon
      exact he ((selectExisting_eq_nil_iff db userId storeId).mpr
        (fun r hr hk => hcon r hr hk.1 hk.2))
    rw [submitRating_update _ _ _ _ _ hs' he hal]
    obtain ⟨x, rest, hx⟩ := List.exists_cons_of_ne_nil he
    have hxm := selectExisting_mem db userId storeId x (by rw [hx]; exact List.mem_cons_self _ _)
    refine ⟨⟨fun h => by simp at h, ?_⟩, ⟨fun _ => hsome, fun _ => rfl⟩,
      "Rating updated successfully", setScore rating now x,
      by simp [hx], ?_, hxm.2.1, hxm.2.2, rfl, ?_, ?_⟩
    · intro h
      obtain ⟨r, hr, hk⟩ := hsome
      exact absurd hk (h r hr)
    · have : setScore rating now x ∈
          selectExisting { db with ratings := updateRows userId storeId rating now db.ratings }
            userId storeId := by
        rw [selectExisting_update, hx]; simp
      exact (selectExisting_mem _ _ _ _ this).1
    · rw [selectExisting_update, hx]; rfl
    · intro hu
      have hlen := (uniquePerPair_iff db.ratings).mp hu userId storeId
      have hrest : rest = [] := by
        have : (selectExisting db userId storeId).length ≤ 1 := hlen
        rw [hx, List.length_cons] at this
        exact List.length_eq_zero.mp (by omega)
      rw [selectExisting_update, hx, hrest]; rfl

theorem submit_created_or_updated_witness :
    (submitRating (sampleDb ⟨true, true⟩) 100 1 2 4).1.status = 201 ∧
    ∃ msg row, (submitRating (sampleDb ⟨true, true⟩) 100 1 2 4).1.body = .rated msg (some row) ∧
      row ∈ (submitRating (sampleDb ⟨true, true⟩) 100 1 2 4).2.ratings ∧
      row.user_id = 1 ∧ row.store_id = 2 ∧ row.rating = 4 ∧
      (selectExisting (submitRating (sampleDb ⟨true, true⟩) 100 1 2 4).2 1 2).head? = some row ∧
      (UniquePerPair (sampleDb ⟨true, true⟩).ratings →
        selectExisting (submitRating (sampleDb ⟨true, true⟩) 100 1 2 4).2 1 2 = [row]) :=
  have h := submit_created_or_updated (sampleDb ⟨true, true⟩) 100 1 2 4
    ⟨⟨2, "Book Nook", "books@example.org", "2 Side St", none, 11⟩, by decide, rfl⟩
    (Or.inr (by decide))
  ⟨h.1.mpr (by decide), h.2.2⟩

/-! ## Submitting twice, and the uniqueness invariant -/

theorem updateRows_of_no_match (u s v : Int) (t : Nat) (rs : List Rating)
    (h : ∀ r ∈ rs, ¬ (r.user_id = u ∧ r.store_id = s)) : updateRows u s v t rs = rs := by
  unfold updateRows
  conv_rhs => rw [← List.map_id rs]
  apply List.map_congr_left
  intro r hr
  have : matchesUserStore u s r = false := by simpa [matchesUserStore] using h r hr
  simp [this]

theorem updateRows_append (u s v : Int) (t : Nat) (rs qs : List Rating) :
    updateRows u s v t (rs ++ qs) = updateRows u s v t rs ++ updateRows u s v t qs := by
  simp [updateRows]

/-- C1: on a table satisfying the uniqueness invariant, for an existing store on
which the rater has no rating and two scores in 1..5, the first submit appends
one row (score a, both timestamps the time of the first submit) and the second
submit rewrites that row only: the table is then the old table followed by one
row for the pair, with the id and created timestamp of the first submit, score b
and updated timestamp the time of the second submit. That row is the only row of
the pair, and the invariant still holds. -/
theorem submit_twice (db : Db) (t1 t2 : Nat) (u s a b : Int)
    (hinv : UniquePerPair db.ratings)
    (hs : ∃ st ∈ db.stores, st.id = s)
    (hnone : ∀ r ∈ db.ratings, ¬ (r.user_id = u ∧ r.store_id = s))
    (ha : 1 ≤ a ∧ a ≤ 5) (hb : 1 ≤ b ∧ b ≤ 5) :
    (submitRating db t1 u s a).2.ratings
      = db.ratings ++ [⟨db.ratingSeq, u, s, a, t1, t1⟩] ∧
    (submitRating (submitRating db t1 u s a).2 t2 u s b).2.ratings
      = db.ratings ++ [⟨db.ratingSeq, u, s, b, t1, t2⟩] ∧
    selectExisting (submitRating (submitRating db t1 u s a).2 t2 u s b).2 u s
      = [⟨db.ratingSeq, u, s, b, t1, t2⟩] ∧
    UniquePerPair (submitRating (submitRating db t1 u s a).2 t2 u s b).2.ratings := by
  have hs' := selectStore_ne_nil db s hs
  have he := (selectExisting_eq_nil_iff db u s).mpr hnone
  have h1 := submitRating_insert db t1 u s a hs' he (ratingAllowed_of_range _ _ ha)
  rw [h1]
  have hs1 : selectStore { db with
      ratings := db.ratings ++ [newRatingRow db.ratingSeq t1 u s a]
      ratingSeq := db.ratingSeq + 1 } s ≠ [] := hs'
  have he1 := selectExisting_insert db t1 u s a (db.ratingSeq + 1) he
  have h2 := submitRating_update _ t2 u s b hs1 (by rw [he1]; simp)
    (ratingAllowed_of_range _ _ hb)
  rw [h2]
  have hrows : updateRows u s b t2 (db.ratings ++ [newRatingRow db.ratingSeq t1 u s a])
      = db.ratings ++ [⟨db.ratingSeq, u, s, b, t1, t2⟩] := by
    rw [updateRows_append, updateRows_of_no_match u s b t2 db.ratings hnone]
    simp [updateRows, matchesUserStore, newRatingRow, setScore]
  refine ⟨rfl, hrows, ?_, ?_⟩
  · rw [selectExisting_update, he1]; rfl
  · show UniquePerPair (updateRows u s b t2 (db.ratings ++ [newRatingRow db.ratingSeq t1 u s a]))
    rw [hrows]
    exact uniquePerPair_insert db.ratings _ hinv he

theorem submit_twice_witness :
    (submitRating (submitRating (sampleDb ⟨false, false⟩) 100 1 1 2).2 200 1 1 5).2.ratings
      = [⟨1, 1, 1, 5, 100, 200⟩] :=
  (submit_twice (sampleDb ⟨false, false⟩) 100 200 1 1 2 5 (by decide)
    ⟨⟨1, "Corner Shop", "corner@example.org", "1 Main St", some 2, 10⟩, by decide, rfl⟩
    (by decide) (by decide) (by decide)).2.1

theorem submitRating_preserves_unique (db : Db) (now : Nat) (u s v : Int)
    (h : UniquePerPair db.ratings) : UniquePerPair (submitRating db now u s v).2.ratings := by
  by_cases hs : selectStore db s = []
  · rcases submitRating_no_store_cases db now u s v hs with h' | h' <;> rw [h'] <;> exact h
  · by_cases he : selectExisting db u s = [] <;> cases hok : ratingAllowed db.schema v
    · rw [submitRating_insert_rejected _ _ _ _ _ hs he hok]; exact h
    · rw [submitRating_insert _ _ _ _ _ hs he hok]
      exact uniquePerPair_insert db.ratings _ h he
    · rw [submitRating_update_rejected _ _ _ _ _ hs he hok]; exact h
    · rw [submitRating_update _ _ _ _ _ hs he hok]
      exact uniquePerPair_updateRows u s v now db.ratings h

theorem deleteRating_ratings (db : Db) (reqUser : User) (id : Int) :
    (deleteRating db reqUser id).2 = db ∨
    (deleteRating db reqUser id).2 = deleteById db id := by
  unfold deleteRating
  split
  · exact Or.inl rfl
  · split
    · exact Or.inl rfl
    · exact Or.inr rfl

theorem deleteRating_preserves_unique (db : Db) (reqUser : User) (id : Int)
    (h : UniquePerPair db.ratings) : UniquePerPair (deleteRating db reqUser id).2.ratings := by
  rcases deleteRating_ratings db reqUser id with h' | h'
  · rw [h']; exact h
  · rw [h']; exact uniquePerPair_filter _ _ h

/-- C2: the submit handler (whichever branch it takes) and the delete handler
keep the uniqueness invariant, and every database reachable from an empty
rating table by running them one after the other has at most one rating row for
each pair of rater and store. -/
theorem rating_uniqueness_invariant :
    (∀ (db : Db) (now : Nat) (u s v : Int),
      UniquePerPair db.ratings → UniquePerPair (submitRating db now u s v).2.ratings) ∧
    (∀ (db : Db) (reqUser : User) (id : Int),
      UniquePerPair db.ratings → UniquePerPair (deleteRating db reqUser id).2.ratings) ∧
    (∀ db : Db, Reachable db →
      ∀ u s, (db.ratings.filter (fun r => decide (r.user_id = u ∧ r.store_id = s))).length ≤ 1) := by
  refine ⟨submitRating_preserves_unique, deleteRating_preserves_unique, ?_⟩
  intro db hreach
  have hu : UniquePerPair db.ratings := by
    induction hreach with
    | init db h => rw [h]; exact List.Pairwise.nil
    | submit db now u s v _ ih => exact submitRating_preserves_unique db now u s v ih
    | delete db reqUser id _ ih => exact deleteRating_preserves_unique db reqUser id ih
  exact (uniquePerPair_iff db.ratings).mp hu

theorem rating_uniqueness_invariant_witness :
    UniquePerPair (submitRating (submitRating (sampleDb ⟨false, false⟩) 100 1 1 2).2 200 1 1 5).2.ratings ∧
    ((submitRating (submitRating (sampleDb ⟨false, false⟩) 100 1 1 2).2 200 1 1 5).2.ratings.filter
      (fun r => decide (r.user_id = 1 ∧ r.store_id = 1))).length ≤ 1 :=
  ⟨rating_uniqueness_invariant.1 _ 200 1 1 5
      (rating_uniqueness_invariant.1 (sampleDb ⟨false, false⟩) 100 1 1 2 (by decide)),
   rating_uniqueness_invariant.2.2 _
      (Reachable.submit _ 200 1 1 5
        (Reachable.submit _ 100 1 1 2 (Reachable.init (sampleDb ⟨false, false⟩) rfl))) 1 1⟩

/-! ## Deleting a rating -/

theorem deleteRating_not_found (db : Db) (reqUser : User) (id : Int)
    (h : db.ratings.filter (fun x => decide (x.id = id)) = []) :
    deleteRating db reqUser id = (⟨404, .error "Rating not found"⟩, db) := by
  simp [deleteRating, h]

theorem deleteRating_found (db : Db) (reqUser : User) (id : Int) (r : Rating)
    (h : (db.ratings.filter (fun x => decide (x.id = id))).head? = some r) :
    deleteRating db reqUser id =
      if reqUser.role ≠ "admin" ∧ r.user_id ≠ reqUser.id then
        (⟨403, .error "You can only delete your own ratings"⟩, db)
      else (⟨200, .message "Rating deleted successfully"⟩, deleteById db id) := by
  unfold deleteRating
  cases hf : db.ratings.filter (fun x => decide (x.id = id)) with
  | nil => rw [hf] at h; cases h
  | cons x rest =>
    rw [hf] at h
    simp only [List.head?_cons, Option.some.injEq] at h
    subst h
    rfl

/-- C8: the delete handler answers 404 `Rating not found` when no rating has the
requested id, whatever the role of the requester. When a rating has that id, it
answers 403 if and only if the requester is not an admin and is not the rater
of that rating, and 200 otherwise. The answer is always one of the three, and
on 404 and on 403 the database handed back is the one received. -/
theorem delete_outcome (db : Db) (reqUser : User) (id : Int) :
    ((∀ r ∈ db.ratings, r.id ≠ id) →
      deleteRating db reqUser id = (⟨404, .error "Rating not found"⟩, db)) ∧
    (∀ r, (db.ratings.filter (fun x => decide (x.id = id))).head? = some r →
      ((deleteRating db reqUser id).1.status = 403 ↔
        (reqUser.role ≠ "admin" ∧ r.user_id ≠ reqUser.id)) ∧
      ((deleteRating db reqUser id).1.status = 200 ↔
        ¬ (reqUser.role ≠ "admin" ∧ r.user_id ≠ reqUser.id)) ∧
      (deleteRating db reqUser id).1.status ≠ 404) ∧
    ((deleteRating db reqUser id).1.status = 404 ∨
      (deleteRating db reqUser id).1.status = 403 ∨
      (deleteRating db reqUser id).1.status = 200) ∧
    ((deleteRating db reqUser id).1.status = 404 ∨ (deleteRating db reqUser id).1.status = 403 →
      (deleteRating db reqUser id).2 = db) := by
  have hfound : ∀ r, (db.ratings.filter (fun x => decide (x.id = id))).head? = some r →
      ((deleteRating db reqUser id).1.status = 403 ↔
        (reqUser.role ≠ "admin" ∧ r.user_id ≠ reqUser.id)) ∧
      ((deleteRating db reqUser id).1.status = 200 ↔
        ¬ (reqUser.role ≠ "admin" ∧ r.user_id ≠ reqUser.id)) ∧
      (deleteRating db reqUser id).1.status ≠ 404 ∧
      ((deleteRating db reqUser id).1.status = 403 → (deleteRating db reqUser id).2 = db) := by
    intro r hr
    rw [deleteRating_found db reqUser id r hr]
    by_cases hc : reqUser.role ≠ "admin" ∧ r.user_id ≠ reqUser.id
    · rw [if_pos hc]; simp [hc]
    · rw [if_neg hc]; simp [hc]
  refine ⟨?_, fun r hr => ⟨(hfound r hr).1, (hfound r hr).2.1, (hfound r hr).2.2.1⟩, ?_, ?_⟩
  · intro h
    apply deleteRating_not_found
    simpa [List.filter_eq_nil_iff] using h
  · cases hf : (db.ratings.filter (fun x => decide (x.id = id))).head? with
    | none =>
      rw [List.head?_eq_none_iff] at hf
      rw [deleteRating_not_found db reqUser id hf]
      exact Or.inl rfl
    | some r =>
      by_cases hc : reqUser.role ≠ "admin" ∧ r.user_id ≠ reqUser.id
      · exact Or.inr (Or.inl ((hfound r hf).1.mpr hc))
      · exact Or.inr (Or.inr ((hfound r hf).2.1.mpr hc))
  · intro hst
    cases hf : (db.ratings.filter (fun x => decide (x.id = id))).head? with
    | none =>
      rw [List.head?_eq_none_iff] at hf
      rw [deleteRating_not_found db reqUser id hf]
    | some r =>
      rcases hst with h | h
      · exact absurd h (hfound r hf).2.2.1
      · exact (hfound r hf).2.2.2 h

theorem delete_outcome_witness :
    deleteRating (submitRating (sampleDb ⟨true, true⟩) 100 1 1 4).2
        ⟨2, "Ravi", "ravi@example.org", "store_owner", 2⟩ 9
      = (⟨404, .error "Rating not found"⟩, (submitRating (sampleDb ⟨true, true⟩) 100 1 1 4).2) ∧
    (deleteRating (submitRating (sampleDb ⟨true, true⟩) 100 1 1 4).2
        ⟨2, "Ravi", "ravi@example.org", "store_owner", 2⟩ 1).1.status = 403 ∧
    (deleteRating (submitRating (sampleDb ⟨true, true⟩) 100 1 1 4).2
        ⟨2, "Ravi", "ravi@example.org", "store_owner", 2⟩ 1).2
      = (submitRating (sampleDb ⟨true, true⟩) 100 1 1 4).2 :=
  have h := delete_outcome (submitRating (sampleDb ⟨true, true⟩) 100 1 1 4).2
    ⟨2, "Ravi", "ravi@example.org", "store_owner", 2⟩
  have h403 := ((h 1).2.1 ⟨1, 1, 1, 4, 100, 100⟩ (by decide)).1.mpr (by decide)
  ⟨(h 9).1 (by decide), h403, (h 1).2.2.2 (Or.inr h403)⟩

/-- C9: when a rating has the requested id and the requester is an admin or the
rater of that rating, the delete handler answers 200, the table it leaves is the
old table without the rows of that id (so no row has that id, and every other
row is kept as it was, in the same order and the same number of times), and the
store and user tables are the ones received. -/
theorem delete_frame (db : Db) (reqUser : User) (id : Int) (r : Rating)
    (hr : (db.ratings.filter (fun x => decide (x.id = id))).head? = some r)
    (hauth : reqUser.role = "admin" ∨ r.user_id = reqUser.id) :
    (deleteRating db reqUser id).1 = ⟨200, .message "Rating deleted successfully"⟩ ∧
    (∀ x ∈ (deleteRating db reqUser id).2.ratings, x.id ≠ id) ∧
    (deleteRating db reqUser id).2.ratings = db.ratings.filter (fun x => decide (x.id ≠ id)) ∧
    (∀ x : Rating, x.id ≠ id →
      (deleteRating db reqUser id).2.ratings.count x = db.ratings.count x) ∧
    (deleteRating db reqUser id).2.stores = db.stores ∧
    (deleteRating db reqUser id).2.users = db.users := by
  have hc : ¬ (reqUser.role ≠ "admin" ∧ r.user_id ≠ reqUser.id) := by
    rintro ⟨h1, h2⟩
    rcases hauth with h | h
    · exact h1 h
    · exact h2 h
  rw [deleteRating_found db reqUser id r hr, if_neg hc]
  refine ⟨rfl, ?_, rfl, ?_, rfl, rfl⟩
  · intro x hx
    simpa [deleteById] using (List.mem_filter.mp hx).2
  · intro x hx
    exact List.count_filter (by simpa using hx)

theorem delete_frame_witness :
    (deleteRating (submitRating (submitRating (sampleDb ⟨true, true⟩) 100 1 1 4).2 110 1 2 3).2
        ⟨1, "Asha", "asha@example.org", "user", 1⟩ 1).2.ratings
      = [⟨2, 1, 2, 3, 110, 110⟩] :=
  ((delete_frame (submitRating (submitRating (sampleDb ⟨true, true⟩) 100 1 1 4).2 110 1 2 3).2
    ⟨1, "Asha", "asha@example.org", "user", 1⟩ 1 ⟨1, 1, 1, 4, 100, 100⟩ (by decide)
    (Or.inr rfl)).2.2.1).trans (by decide)

/-! ## Statistics of a store right after a submit -/

theorem storeScores_insert (db : Db) (now : Nat) (u s v : Int) (q : Int) :
    storeScores { db with ratings := db.ratings ++ [newRatingRow db.ratingSeq now u s v],
                          ratingSeq := q } s
      = storeScores db s ++ [v] := by
  simp [storeScores, List.filter_append, List.filter_cons, newRatingRow]

theorem storeScores_update_length (u s v : Int) (t : Nat) (rs : List Rating) :
    (((updateRows u s v t rs).filter (fun r => decide (r.store_id = s))).map
        (fun r => r.rating)).length
      = ((rs.filter (fun r => decide (r.store_id = s))).map (fun r => r.rating)).length := by
  induction rs with
  | nil => rfl
  | cons a rs ih =>
    have hst : (if matchesUserStore u s a then setScore v t a else a).store_id = a.store_id := by
      split <;> rfl
    simp only [updateRows, List.map_cons, List.filter_cons, hst, List.length_map] at ih ⊢
    by_cases h : a.store_id = s
    · simp [h, ih]
    · simp [h, ih]

theorem storeScores_update_sum (u s v : Int) (t : Nat) (rs : List Rating) :
    (((updateRows u s v t rs).filter (fun r => decide (r.store_id = s))).map
        (fun r => r.rating)).sum
      + ((rs.filter (matchesUserStore u s)).map (fun r => r.rating)).sum
      = ((rs.filter (fun r => decide (r.store_id = s))).map (fun r => r.rating)).sum
        + (rs.filter (matchesUserStore u s)).length * v := by
  induction rs with
  | nil => simp [updateRows]
  | cons a rs ih =>
    simp only [updateRows] at ih ⊢
    by_cases hm : matchesUserStore u s a = true
    · have hst : a.store_id = s := by
        simp only [matchesUserStore, decide_eq_true_eq] at hm
        exact hm.2
      have h1 : (setScore v t a).store_id = s := hst
      have h2 : (setScore v t a).rating = v := rfl
      simp only [List.map_cons, hm, if_true, List.filter_cons, h1, h2, hst, decide_True,
        List.sum_cons, List.length_cons, Nat.cast_add, Nat.cast_one]
      linarith
    · have hm' : matchesUserStore u s a = false := by simpa using hm
      simp only [List.map_cons, hm', List.filter_cons]
      by_cases h : a.store_id = s
      · simp only [h, decide_True, if_true, List.map_cons, List.sum_cons, Bool.false_eq_true,
          if_false]
        linarith
      · simp only [h, decide_False, Bool.false_eq_true, if_false]
        exact ih

theorem storeScores_update_mem (u s v : Int) (t : Nat) (rs : List Rating)
    (h : rs.filter (matchesUserStore u s) ≠ []) :
    v ∈ ((updateRows u s v t rs).filter (fun r => decide (r.store_id = s))).map
      (fun r => r.rating) := by
  obtain ⟨x, hx⟩ := List.exists_mem_of_ne_nil _ h
  have hx' := List.mem_filter.mp hx
  have hxm : matchesUserStore u s x = true := hx'.2
  have hst : x.store_id = s := by
    have := hx'.2
    simp only [matchesUserStore, decide_eq_true_eq] at this
    exact this.2
  rw [List.mem_map]
  refine ⟨setScore v t x, List.mem_filter.mpr ⟨?_, by simpa [setScore] using hst⟩, rfl⟩
  unfold updateRows
  rw [List.mem_map]
  exact ⟨x, hx'.1, by rw [if_pos hxm]⟩

theorem statsQuery_average (db : Db) (s : Int) (h : storeScores db s ≠ []) :
    (statsQuery db s).average_rating
      = some (((storeScores db s).sum : ℚ) / ((statsQuery db s).total_ratings : ℚ)) := by
  have : (storeScores db s).length ≠ 0 := by simpa [List.length_eq_zero] using h
  simp [statsQuery, sqlAvg, this]

/-- C10: for an existing store s and a score v in 1..5, the statistics query run
on the table left by submit(u, s, v) counts one rating more and sums v more than
before when u had no rating on s, and counts as many ratings and sums the old
sum minus the old score plus v when u had one (exactly one row for the pair, as
is the case for any rating of the pair under the uniqueness invariant); in both
cases v is among the scores the query aggregates and the average it gives is
their sum over their count. -/
theorem stats_after_submit (db : Db) (now : Nat) (u s v : Int)
    (hs : ∃ st ∈ db.stores, st.id = s) (hv : 1 ≤ v ∧ v ≤ 5) :
    ((∀ r ∈ db.ratings, ¬ (r.user_id = u ∧ r.store_id = s)) →
      (statsQuery (submitRating db now u s v).2 s).total_ratings
        = (statsQuery db s).total_ratings + 1 ∧
      (storeScores (submitRating db now u s v).2 s).sum = (storeScores db s).sum + v) ∧
    (∀ r, selectExisting db u s = [r] →
      (statsQuery (submitRating db now u s v).2 s).total_ratings
        = (statsQuery db s).total_ratings ∧
      (storeScores (submitRating db now u s v).2 s).sum
        = (storeScores db s).sum - r.rating + v) ∧
    (UniquePerPair db.ratings → ∀ r ∈ db.ratings, r.user_id = u ∧ r.store_id = s →
      (statsQuery (submitRating db now u s v).2 s).total_ratings
        = (statsQuery db s).total_ratings ∧
      (storeScores (submitRating db now u s v).2 s).sum
        = (storeScores db s).sum - r.rating + v) ∧
    v ∈ storeScores (submitRating db now u s v).2 s ∧
    (statsQuery (submitRating db now u s v).2 s).average_rating
      = some (((storeScores (submitRating db now u s v).2 s).sum : ℚ)
          / ((statsQuery (submitRating db now u s v).2 s).total_ratings : ℚ)) := by
  have hs' := selectStore_ne_nil db s hs
  have hal := ratingAllowed_of_range db.schema v hv
  have hmem : v ∈ storeScores (submitRating db now u s v).2 s := by
    by_cases he : selectExisting db u s = []
    · rw [submitRating_insert _ _ _ _ _ hs' he hal, storeScores_insert]
      simp
    · rw [submitRating_update _ _ _ _ _ hs' he hal]
      exact storeScores_update_mem u s v now db.ratings he
  have hone : ∀ r, selectExisting db u s = [r] →
      (statsQuery (submitRating db now u s v).2 s).total_ratings
        = (statsQuery db s).total_ratings ∧
      (storeScores (submitRating db now u s v).2 s).sum
        = (storeScores db s).sum - r.rating + v := by
    intro r hr
    have he : selectExisting db u s ≠ [] := by rw [hr]; simp
    rw [submitRating_update _ _ _ _ _ hs' he hal]
    constructor
    · exact storeScores_update_length u s v now db.ratings
    · have hsum := storeScores_update_sum u s v now db.ratings
      have hr' : db.ratings.filter (matchesUserStore u s) = [r] := hr
      rw [hr'] at hsum
      simp only [List.map_cons, List.map_nil, List.sum_cons, List.sum_nil, add_zero,
        List.length_singleton, Nat.cast_one, one_mul] at hsum
      show (((updateRows u s v now db.ratings).filter (fun r => decide (r.store_id = s))).map
        (fun r => r.rating)).sum = (storeScores db s).sum - r.rating + v
      unfold storeScores
      linarith
  refine ⟨?_, hone,
    fun hinv r hr hk => hone r (selectExisting_eq_singleton db u s r hinv hr hk), hmem,
    statsQuery_average _ _ (List.ne_nil_of_mem hmem)⟩
  intro hnone
  have he := (selectExisting_eq_nil_iff db u s).mpr hnone
  rw [submitRating_insert _ _ _ _ _ hs' he hal]
  simp only [statsQuery, storeScores_insert]
  simp

theorem stats_after_submit_witness :
    (statsQuery (submitRating (submitRating (sampleDb ⟨true, true⟩) 100 1 1 4).2 110 1 1 2).2
        1).total_ratings
      = (statsQuery (submitRating (sampleDb ⟨true, true⟩) 100 1 1 4).2 1).total_ratings ∧
    (storeScores (submitRating (submitRating (sampleDb ⟨true, true⟩) 100 1 1 4).2 110 1 1 2).2
        1).sum
      = (storeScores (submitRating (sampleDb ⟨true, true⟩) 100 1 1 4).2 1).sum - 4 + 2 :=
  (stats_after_submit (submitRating (sampleDb ⟨true, true⟩) 100 1 1 4).2 110 1 1 2
    ⟨⟨1, "Corner Shop", "corner@example.org", "1 Main St", some 2, 10⟩, by decide, rfl⟩
    (by decide)).2.1 ⟨1, 1, 1, 4, 100, 100⟩ (by decide)

/-! ## Concurrent submits -/

/-- Run alone, the three steps of a handler are the handler. -/
theorem submitStep_thrice (db : Db) (now : Nat) (u s v : Int) :
    (submitStep (submitStep (submitStep db now ⟨u, s, v, .start⟩).2 now
        (submitStep db now ⟨u, s, v, .start⟩).1).2 now
      (submitStep (submitStep db now ⟨u, s, v, .start⟩).2 now
        (submitStep db now ⟨u, s, v, .start⟩).1).1)
      = (⟨u, s, v, .done (submitRating db now u s v).1⟩, (submitRating db now u s v).2) := by
  cases ht : storeCheckThrows db s with
  | true => simp [submitStep, submitRating, ht]
  | false =>
    by_cases hs : (selectStore db s).length = 0
    · simp [submitStep, submitRating, ht, hs]
    · by_cases he : (selectExisting db u s).length > 0
      · simp only [submitStep, submitRating, ht, hs, he, if_false, if_true, decide_True,
          Bool.false_eq_true]
        cases hup : updateRating db now v u s with
        | mk rows db' => cases rows <;> rfl
      · simp only [submitStep, submitRating, ht, hs, he, if_false, decide_False,
          Bool.false_eq_true]
        cases hin : insertRating db now u s v with
        | mk rows db' => cases rows <;> rfl

/-- C3 fails on the code: the existence check and the write of a submit are two
separate queries. Run alone, the three queries of a handler give the answer and
the table of the handler. But with two requests of user 1 for store 1 (scores 3
and 5) on an empty rating table, scheduled so that both run their checks before
either writes, both handlers stand on the insert branch at the same time. When
the table declares no unique constraint the run ends with two rows for the
pair; when it declares one, the run ends with one row and the second request is
answered 500. -/
theorem concurrent_submit_race :
    (∀ (db : Db) (now : Nat) (u s v : Int),
      (runSchedule db [⟨u, s, v, .start⟩] [(0, now), (0, now), (0, now)])
        = ((submitRating db now u s v).2, [⟨u, s, v, .done (submitRating db now u s v).1⟩])) ∧
    (runSchedule (sampleDb ⟨false, true⟩) racingTasks (racingSchedule.take 4)).2
      = [⟨1, 1, 3, .existingChecked false⟩, ⟨1, 1, 5, .existingChecked false⟩] ∧
    (runSchedule (sampleDb ⟨true, true⟩) racingTasks (racingSchedule.take 4)).2
      = [⟨1, 1, 3, .existingChecked false⟩, ⟨1, 1, 5, .existingChecked false⟩] ∧
    (runSchedule (sampleDb ⟨false, true⟩) racingTasks racingSchedule).1.ratings
      = [⟨1, 1, 1, 3, 104, 104⟩, ⟨2, 1, 1, 5, 105, 105⟩] ∧
    ¬ UniquePerPair (runSchedule (sampleDb ⟨false, true⟩) racingTasks racingSchedule).1.ratings ∧
    (runSchedule (sampleDb ⟨true, true⟩) racingTasks racingSchedule).1.ratings
      = [⟨1, 1, 1, 3, 104, 104⟩] ∧
    (runSchedule (sampleDb ⟨true, true⟩) racingTasks racingSchedule).2
      = [⟨1, 1, 3, .done ⟨201, .rated "Rating submitted successfully"
            (some ⟨1, 1, 1, 3, 104, 104⟩)⟩⟩,
         ⟨1, 1, 5, .done internalError⟩] := by
  refine ⟨?_, by decide⟩
  intro db now u s v
  have h := submitStep_thrice db now u s v
  simp only [runSchedule, stepAt, List.get?_cons_zero, List.set_cons_zero]
  rw [h]

/-! ## Statistics of a store -/

theorem toFixed2_of_nonneg (x : ℚ) (hx : 0 ≤ x) :
    toFixed2 x = renderHundredths (⌊x * 100 + 1 / 2⌋).toNat := by
  unfold toFixed2
  rw [if_neg (not_lt.mpr hx), abs_of_nonneg hx]
  rfl

/-- The integer chosen by `toFixed2` is within half a hundredth of the number. -/
theorem nearest_hundredth (x : ℚ) (hx : 0 ≤ x) :
    |(((⌊x * 100 + 1 / 2⌋).toNat : ℕ) : ℚ) / 100 - x| ≤ 1 / 200 := by
  have h0 : (0 : ℤ) ≤ ⌊x * 100 + 1 / 2⌋ := Int.floor_nonneg.mpr (by positivity)
  have hcast : (((⌊x * 100 + 1 / 2⌋).toNat : ℕ) : ℚ) = ((⌊x * 100 + 1 / 2⌋ : ℤ) : ℚ) := by
    have := Int.toNat_of_nonneg h0
    exact_mod_cast this
  rw [hcast, abs_le]
  have h1 := Int.floor_le (x * 100 + 1 / 2)
  have h2 := Int.lt_floor_add_one (x * 100 + 1 / 2)
  constructor <;> linarith

theorem scores_sum_bounds (xs : List Int) (h : ∀ x ∈ xs, 1 ≤ x ∧ x ≤ 5) :
    (xs.length : Int) ≤ xs.sum ∧ xs.sum ≤ 5 * (xs.length : Int) := by
  induction xs with
  | nil => simp
  | cons a xs ih =>
    have ha := h a (List.mem_cons_self _ _)
    have := ih (fun x hx => h x (List.mem_cons_of_mem _ hx))
    simp only [List.length_cons, List.sum_cons, Nat.cast_add, Nat.cast_one]
    omega

theorem mean_bounds (xs : List Int) (hne : xs ≠ []) (h : ∀ x ∈ xs, 1 ≤ x ∧ x ≤ 5) :
    (1 : ℚ) ≤ (xs.sum : ℚ) / (xs.length : ℚ) ∧ (xs.sum : ℚ) / (xs.length : ℚ) ≤ 5 := by
  have hpos : (0 : ℚ) < (xs.length : ℚ) := by
    exact_mod_cast List.length_pos.mpr hne
  have hb := scores_sum_bounds xs h
  have h1 : ((xs.length : Int) : ℚ) ≤ ((xs.sum : Int) : ℚ) := Int.cast_le.mpr hb.1
  have h2 : ((xs.sum : Int) : ℚ) ≤ ((5 * (xs.length : Int) : Int) : ℚ) := Int.cast_le.mpr hb.2
  rw [Int.cast_natCast] at h1
  rw [Int.cast_mul, Int.cast_natCast, Int.cast_ofNat] at h2
  rw [le_div_iff₀ hpos, div_le_iff₀ hpos]
  constructor <;> linarith

theorem storeStats_of_scores (parseFloat : ℚ → ℚ) (db : Db) (storeId : Int)
    (hne : storeScores db storeId ≠ []) :
    storeStats parseFloat db storeId =
      { totalRatings := (storeScores db storeId).length
        averageRating := toFixed2 (parseFloat
          (((storeScores db storeId).sum : ℚ) / ((storeScores db storeId).length : ℚ)))
        distribution :=
          [(5, (storeScores db storeId).count 5), (4, (storeScores db storeId).count 4),
           (3, (storeScores db storeId).count 3), (2, (storeScores db storeId).count 2),
           (1, (storeScores db storeId).count 1)] } := by
  have hlen : (storeScores db storeId).length ≠ 0 := by
    simpa [List.length_eq_zero] using hne
  simp [storeStats, statsQuery, sqlAvg, hlen]

/-- C11: for a store whose ratings form a non-empty list of scores in 1..5, the
statistics give the length of the list as `totalRatings`; as `averageRating`
the `toFixed(2)` text of the parsed mean, which is a number written with
exactly two decimals and (for a `parseFloat` accurate to a relative `10^-15`)
within half a hundredth, up to `10^-14`, of the exact mean; and as
`distribution` the five keys 5, 4, 3, 2, 1 with the number of ratings of each
score. On the ratings 5, 5, 4, 3, 1 they are count 5, average `3.60` and
distribution 5:2, 4:1, 3:1, 2:0, 1:1. -/
theorem store_stats_nonempty (parseFloat : ℚ → ℚ) (hpf : ParsesAccurately parseFloat)
    (db : Db) (storeId : Int) (hne : storeScores db storeId ≠ [])
    (hrange : ∀ x ∈ storeScores db storeId, 1 ≤ x ∧ x ≤ 5) :
    (storeStats parseFloat db storeId).totalRatings = (storeScores db storeId).length ∧
    (storeStats parseFloat db storeId).averageRating
      = toFixed2 (parseFloat
          (((storeScores db storeId).sum : ℚ) / ((storeScores db storeId).length : ℚ))) ∧
    (∃ n : ℕ, (storeStats parseFloat db storeId).averageRating = renderHundredths n ∧
      |(n : ℚ) / 100
          - ((storeScores db storeId).sum : ℚ) / ((storeScores db storeId).length : ℚ)|
        ≤ 1 / 200 + 1 / 10 ^ 14) ∧
    (storeStats parseFloat db storeId).distribution
      = [(5, (storeScores db storeId).count 5), (4, (storeScores db storeId).count 4),
         (3, (storeScores db storeId).count 3), (2, (storeScores db storeId).count 2),
         (1, (storeScores db storeId).count 1)] ∧
    (storeScores db storeId = [5, 5, 4, 3, 1] →
      storeStats parseFloat db storeId
        = ⟨5, "3.60", [(5, 2), (4, 1), (3, 1), (2, 0), (1, 1)]⟩) := by
  have hst := storeStats_of_scores parseFloat db storeId hne
  have hm := mean_bounds _ hne hrange
  generalize hq :
    ((storeScores db storeId).sum : ℚ) / ((storeScores db storeId).length : ℚ) = q at hst hm ⊢
  have herr := hpf q
  rw [abs_of_nonneg (by linarith [hm.1] : (0 : ℚ) ≤ q), abs_le] at herr
  have hx : 0 ≤ parseFloat q := by
    have : q / 10 ^ 15 ≤ q := by
      rw [div_le_iff₀ (by norm_num)]
      nlinarith [hm.1]
    linarith [herr.1]
  refine ⟨by rw [hst], by rw [hst], ⟨_, by rw [hst, toFixed2_of_nonneg _ hx], ?_⟩, by rw [hst], ?_⟩
  · have hn := nearest_hundredth (parseFloat q) hx
    rw [abs_le] at hn ⊢
    have hsmall : q / 10 ^ 15 ≤ 1 / 10 ^ 14 := by
      rw [div_le_iff₀ (by norm_num)]
      norm_num
      linarith [hm.2]
    constructor <;> linarith [herr.1, herr.2, hn.1, hn.2]
  · intro h5
    have hq5 : q = 18 / 5 := by
      rw [← hq, h5]; norm_num
    rw [hst, toFixed2_of_nonneg _ hx]
    have hfloor : ⌊parseFloat q * 100 + 1 / 2⌋ = 360 := by
      rw [Int.floor_eq_iff]
      have h1 := herr.1
      have h2 := herr.2
      rw [hq5] at h1 h2 ⊢
      norm_num at h1 h2 ⊢
      constructor <;> linarith
    rw [hfloor, h5]
    decide

theorem store_stats_nonempty_witness :
    storeStats id statsDb 1 = ⟨5, "3.60", [(5, 2), (4, 1), (3, 1), (2, 0), (1, 1)]⟩ :=
  (store_stats_nonempty id (fun q => by simp; positivity) statsDb 1 (by decide) (by decide)).2.2.2.2
    (by decide)

/-- C12: for a store without ratings the statistics are `totalRatings` 0,
`averageRating` the text `0.00`, and the five buckets 5, 4, 3, 2, 1 all 0,
whatever `parseFloat` does: the average of no row is `NULL`, and the answer is
built without any division. -/
theorem store_stats_empty (parseFloat : ℚ → ℚ) (db : Db) (storeId : Int)
    (hempty : ∀ r ∈ db.ratings, r.store_id ≠ storeId) :
    storeStats parseFloat db storeId = ⟨0, "0.00", [(5, 0), (4, 0), (3, 0), (2, 0), (1, 0)]⟩ ∧
    (statsQuery db storeId).average_rating = none := by
  have h : storeScores db storeId = [] := by
    simp only [storeScores, List.map_eq_nil_iff, List.filter_eq_nil_iff, decide_eq_true_eq]
    exact hempty
  simp [storeStats, statsQuery, sqlAvg, h]

theorem store_stats_empty_witness :
    storeStats (fun q => q + 1) statsDb 2
      = ⟨0, "0.00", [(5, 0), (4, 0), (3, 0), (2, 0), (1, 0)]⟩ :=
  (store_stats_empty (fun q => q + 1) statsDb 2 (by decide)).1

/-! ## Sorting (`ORDER BY ... LIMIT`) -/

theorem filter_orderedInsert {α : Type} (r : α → α → Prop) [DecidableRel r] (p : α → Bool)
    (hp : ∀ x y, p x = true → p y = true → r x y) (b : α) (s : List α) :
    (s.orderedInsert r b).filter p = if p b then b :: s.filter p else s.filter p := by
  rw [List.orderedInsert_eq_take_drop]
  have hsplit : s.filter p
      = (s.takeWhile (fun x => decide (¬ r b x))).filter p
        ++ (s.dropWhile (fun x => decide (¬ r b x))).filter p := by
    rw [← List.filter_append, List.takeWhile_append_dropWhile]
  by_cases hb : p b = true
  · have hnil : (s.takeWhile (fun x => decide (¬ r b x))).filter p = [] := by
      rw [List.filter_eq_nil_iff]
      intro x hx hpx
      have := List.mem_takeWhile_imp hx
      simp only [decide_not, Bool.not_eq_eq_eq_not, Bool.not_true,
        decide_eq_false_iff_not] at this
      exact this (hp b x hb hpx)
    rw [if_pos hb, List.filter_append, hnil, List.nil_append, List.filter_cons, if_pos hb,
      hsplit, hnil, List.nil_append]
  · rw [if_neg hb, List.filter_append, List.filter_cons, if_neg hb, hsplit]

/-- The sort is stable: the rows of one tie class keep the order they had. -/
theorem filter_insertionSort {α : Type} (r : α → α → Prop) [DecidableRel r] (p : α → Bool)
    (hp : ∀ x y, p x = true → p y = true → r x y) (l : List α) :
    (l.insertionSort r).filter p = l.filter p := by
  induction l with
  | nil => rfl
  | cons b l ih =>
    rw [List.insertionSort_cons_eq_take_drop, ← List.orderedInsert_eq_take_drop,
      filter_orderedInsert r p hp, ih, List.filter_cons]

theorem sorted_take_insertionSort {α : Type} (r : α → α → Prop) [DecidableRel r]
    [IsTotal α r] [IsTrans α r] (l : List α) (n : Nat) :
    ((l.insertionSort r).take n).Sorted r :=
  List.Pairwise.sublist (List.take_sublist n _) (List.sorted_insertionSort r l)

/-- A row left out by the `LIMIT` does not rank before a row that was kept. -/
theorem rel_of_omitted {α : Type} (r : α → α → Prop) [DecidableRel r]
    [IsTotal α r] [IsTrans α r] (l : List α) (n : Nat) (c : α) (hc : c ∈ l)
    (hnot : c ∉ (l.insertionSort r).take n) (g : α) (hg : g ∈ (l.insertionSort r).take n) :
    r g c := by
  have hc' : c ∈ l.insertionSort r := (List.perm_insertionSort r l).mem_iff.mpr hc
  rw [← List.take_append_drop n (l.insertionSort r)] at hc'
  rcases List.mem_append.mp hc' with h | h
  · exact absurd h hnot
  · exact (List.sorted_insertionSort r l).rel_of_mem_take_of_mem_drop hg h

/-- In a sorted list, a row that the other may not precede comes first. -/
theorem index_lt_of_not_rel {α : Type} (r : α → α → Prop) [IsTotal α r] (l : List α)
    (hs : l.Sorted r) (i j : Fin l.length) (h : ¬ r (l.get j) (l.get i)) : i < j := by
  by_contra hij
  rcases lt_or_eq_of_le (not_lt.mp hij) with hlt | heq
  · exact h (hs.rel_get_of_lt hlt)
  · subst heq
    rcases total_of r (l.get j) (l.get j) with h' | h' <;> exact h h'

theorem length_take_insertionSort {α : Type} (r : α → α → Prop) [DecidableRel r]
    (l : List α) (n : Nat) : ((l.insertionSort r).take n).length = min n l.length := by
  rw [List.length_take, List.length_insertionSort]

theorem mem_of_mem_take_insertionSort {α : Type} (r : α → α → Prop) [DecidableRel r]
    (l : List α) (n : Nat) (x : α) (h : x ∈ (l.insertionSort r).take n) : x ∈ l :=
  (List.perm_insertionSort r l).mem_iff.mp (List.mem_of_mem_take h)

theorem perm_planSort (order : List Int) (gs : List (RatingGroup (Int × String × String))) :
    (planSort order gs).Perm gs :=
  List.perm_insertionSort _ _

theorem mem_planSort (order : List Int) (gs : List (RatingGroup (Int × String × String)))
    (g : RatingGroup (Int × String × String)) : g ∈ planSort order gs ↔ g ∈ gs :=
  (perm_planSort order gs).mem_iff

theorem length_planSort (order : List Int) (gs : List (RatingGroup (Int × String × String))) :
    (planSort order gs).length = gs.length :=
  (perm_planSort order gs).length_eq

/-! ## Grouping -/

theorem mem_groupKeys {κ : Type} [DecidableEq κ] (x : κ) (ks : List κ) :
    x ∈ groupKeys ks ↔ x ∈ ks := by
  induction ks with
  | nil => simp [groupKeys]
  | cons k ks ih =>
    simp only [groupKeys, List.mem_cons, List.mem_filter, ih, decide_eq_true_eq]
    by_cases h : x = k
    · simp [h]
    · simp [h]

theorem nodup_groupKeys {κ : Type} [DecidableEq κ] (ks : List κ) : (groupKeys ks).Nodup := by
  induction ks with
  | nil => exact List.nodup_nil
  | cons k ks ih =>
    simp only [groupKeys, List.nodup_cons, List.mem_filter, decide_eq_true_eq]
    exact ⟨fun h => h.2 rfl, ih.filter _⟩

theorem groupKeys_append_const {κ : Type} [DecidableEq κ] (k : κ) (R T : List κ)
    (hR : R ≠ []) (hk : ∀ x ∈ R, x = k) (hT : k ∉ T) :
    groupKeys (R ++ T) = k :: groupKeys T := by
  have hfix : (groupKeys T).filter (fun k' => decide (k' ≠ k)) = groupKeys T := by
    rw [List.filter_eq_self]
    intro a ha
    have : a ∈ T := (mem_groupKeys a T).mp ha
    rw [decide_eq_true_eq]
    rintro rfl
    exact hT this
  induction R with
  | nil => exact absurd rfl hR
  | cons x R ih =>
    have hx : x = k := hk x (List.mem_cons_self _ _)
    subst hx
    by_cases hR' : R = []
    · subst hR'
      show x :: (groupKeys T).filter (fun k' => decide (k' ≠ x)) = x :: groupKeys T
      rw [hfix]
    · have := ih hR' (fun y hy => hk y (List.mem_cons_of_mem _ hy))
      show x :: (groupKeys (R ++ T)).filter (fun k' => decide (k' ≠ x)) = x :: groupKeys T
      rw [this, List.filter_cons, if_neg (by simp), hfix]

theorem mem_groupRows {ρ κ : Type} [DecidableEq κ] (key : ρ → κ) (val : ρ → Option Int)
    (rows : List ρ) (g : RatingGroup κ) :
    g ∈ groupRows key val rows ↔
      (∃ r ∈ rows, key r = g.key) ∧
        g.scores = (rows.filter (fun r => decide (key r = g.key))).filterMap val := by
  unfold groupRows
  rw [List.mem_map]
  constructor
  · rintro ⟨k, hk, rfl⟩
    have := (mem_groupKeys k _).mp hk
    rw [List.mem_map] at this
    exact ⟨this, rfl⟩
  · rintro ⟨⟨r, hr, hkey⟩, hsc⟩
    refine ⟨g.key, (mem_groupKeys _ _).mpr (List.mem_map.mpr ⟨r, hr, hkey⟩), ?_⟩
    cases g
    simp only at hsc ⊢
    rw [hsc]

theorem groupRows_append {ρ κ : Type} [DecidableEq κ] (key : ρ → κ) (val : ρ → Option Int)
    (k : κ) (R T : List ρ) (hR : R ≠ []) (hk : ∀ r ∈ R, key r = k) (hT : ∀ r ∈ T, key r ≠ k) :
    groupRows key val (R ++ T) = ⟨k, R.filterMap val⟩ :: groupRows key val T := by
  unfold groupRows
  have hkeys : groupKeys ((R ++ T).map key) = k :: groupKeys (T.map key) := by
    rw [List.map_append]
    apply groupKeys_append_const
    · simpa using hR
    · intro x hx
      obtain ⟨r, hr, rfl⟩ := List.mem_map.mp hx
      exact hk r hr
    · intro h
      obtain ⟨r, hr, hrk⟩ := List.mem_map.mp h
      exact hT r hr hrk
  rw [hkeys, List.map_cons]
  congr 1
  · have h1 : R.filter (fun r => decide (key r = k)) = R := by
      rw [List.filter_eq_self]
      intro r hr
      simpa using hk r hr
    have h2 : T.filter (fun r => decide (key r = k)) = [] := by
      rw [List.filter_eq_nil_iff]
      intro r hr
      simpa using hT r hr
    rw [List.filter_append, h1, h2, List.append_nil]
  · apply List.map_congr_left
    intro k' hk'
    have hk'T : k' ∈ T.map key := (mem_groupKeys k' _).mp hk'
    have hne : k' ≠ k := by
      rintro rfl
      obtain ⟨r, hr, hrk⟩ := List.mem_map.mp hk'T
      exact hT r hr hrk
    have h1 : R.filter (fun r => decide (key r = k')) = [] := by
      rw [List.filter_eq_nil_iff]
      intro r hr
      have := hk r hr
      simpa [this] using fun h : k = k' => hne h.symm
    rw [List.filter_append, h1, List.nil_append]

theorem groupRows_map {σ ρ κ : Type} [DecidableEq κ] (f : σ → ρ) (key : ρ → κ)
    (val : ρ → Option Int) (rows : List σ) :
    groupRows key val (rows.map f) = groupRows (fun x => key (f x)) (fun x => val (f x)) rows := by
  unfold groupRows
  rw [List.map_map]
  apply List.map_congr_left
  intro k _
  congr 1
  rw [List.filter_map, List.filterMap_map]
  rfl

/-! ## Joins -/

theorem leftJoin_single_nil {α β : Type} (x : α) (ys : List β) (c : α → β → Bool)
    (h : ys.filter (c x) = []) : leftJoin [x] ys c = [(x, none)] := by
  simp [leftJoin, h]

theorem leftJoin_single_ne {α β : Type} (x : α) (ys : List β) (c : α → β → Bool)
    (h : ys.filter (c x) ≠ []) :
    leftJoin [x] ys c = (ys.filter (c x)).map (fun y => (x, some y)) := by
  unfold leftJoin
  simp only [List.flatMap_cons, List.flatMap_nil, List.append_nil]
  cases hf : ys.filter (c x) with
  | nil => exact absurd hf h
  | cons y rest => rfl

theorem leftJoin_cons {α β : Type} (x : α) (xs : List α) (ys : List β) (c : α → β → Bool) :
    leftJoin (x :: xs) ys c = leftJoin [x] ys c ++ leftJoin xs ys c := by
  simp [leftJoin, List.flatMap_cons]

theorem leftJoin_single_ne_nil {α β : Type} (x : α) (ys : List β) (c : α → β → Bool) :
    leftJoin [x] ys c ≠ [] := by
  by_cases hf : ys.filter (c x) = []
  · rw [leftJoin_single_nil x ys c hf]; simp
  · rw [leftJoin_single_ne x ys c hf]; simpa using hf

theorem leftJoin_single_fst {α β : Type} (x : α) (ys : List β) (c : α → β → Bool)
    (row : α × Option β) (h : row ∈ leftJoin [x] ys c) : row.1 = x := by
  by_cases hf : ys.filter (c x) = []
  · rw [leftJoin_single_nil x ys c hf, List.mem_singleton] at h
    rw [h]
  · rw [leftJoin_single_ne x ys c hf] at h
    obtain ⟨y, _, rfl⟩ := List.mem_map.mp h
    rfl

theorem leftJoin_single_vals {α β : Type} (x : α) (ys : List β) (c : α → β → Bool)
    (val : β → Int) :
    (leftJoin [x] ys c).filterMap (fun row => row.2.map val) = (ys.filter (c x)).map val := by
  by_cases hf : ys.filter (c x) = []
  · rw [leftJoin_single_nil x ys c hf, hf]; rfl
  · rw [leftJoin_single_ne x ys c hf, List.filterMap_map]
    simp only [Function.comp_def, Option.map_some']
    exact congrFun (List.filterMap_eq_map val) _

theorem leftJoin_fst_mem {α β : Type} (xs : List α) (ys : List β) (c : α → β → Bool)
    (row : α × Option β) (h : row ∈ leftJoin xs ys c) : row.1 ∈ xs := by
  induction xs with
  | nil => simp [leftJoin] at h
  | cons x xs ih =>
    rw [leftJoin_cons] at h
    rcases List.mem_append.mp h with h | h
    · rw [leftJoin_single_fst x ys c row h]
      exact List.mem_cons_self _ _
    · exact List.mem_cons_of_mem _ (ih h)

theorem mem_leftJoin_some {α β : Type} (xs : List α) (ys : List β) (c : α → β → Bool)
    (x : α) (y : β) :
    (x, some y) ∈ leftJoin xs ys c ↔ x ∈ xs ∧ y ∈ ys ∧ c x y = true := by
  induction xs with
  | nil => simp [leftJoin]
  | cons a xs ih =>
    rw [leftJoin_cons, List.mem_append, ih]
    by_cases hf : ys.filter (c a) = []
    · rw [leftJoin_single_nil a ys c hf]
      have hno := List.filter_eq_nil_iff.mp hf
      constructor
      · rintro (h | h)
        · simp at h
        · exact ⟨List.mem_cons_of_mem _ h.1, h.2⟩
      · rintro ⟨hx, hy, hc⟩
        rcases List.mem_cons.mp hx with rfl | hx
        · exact absurd hc (hno y hy)
        · exact Or.inr ⟨hx, hy, hc⟩
    · rw [leftJoin_single_ne a ys c hf]
      constructor
      · rintro (h | h)
        · obtain ⟨y', hy', heq⟩ := List.mem_map.mp h
          simp only [Prod.mk.injEq, Option.some.injEq] at heq
          obtain ⟨rfl, rfl⟩ := heq
          exact ⟨List.mem_cons_self _ _, (List.mem_filter.mp hy').1, (List.mem_filter.mp hy').2⟩
        · exact ⟨List.mem_cons_of_mem _ h.1, h.2⟩
      · rintro ⟨hx, hy, hc⟩
        rcases List.mem_cons.mp hx with rfl | hx
        · exact Or.inl (List.mem_map.mpr ⟨y, List.mem_filter.mpr ⟨hy, hc⟩, rfl⟩)
        · exact Or.inr ⟨hx, hy, hc⟩

theorem mem_leftJoin_none {α β : Type} (xs : List α) (ys : List β) (c : α → β → Bool)
    (x : α) :
    (x, none) ∈ leftJoin xs ys c ↔ x ∈ xs ∧ ∀ y ∈ ys, ¬ c x y = true := by
  induction xs with
  | nil => simp [leftJoin]
  | cons a xs ih =>
    rw [leftJoin_cons, List.mem_append, ih]
    by_cases hf : ys.filter (c a) = []
    · rw [leftJoin_single_nil a ys c hf]
      have hno := List.filter_eq_nil_iff.mp hf
      constructor
      · rintro (h | h)
        · simp only [List.mem_singleton, Prod.mk.injEq, and_true] at h
          subst h
          exact ⟨List.mem_cons_self _ _, hno⟩
        · exact ⟨List.mem_cons_of_mem _ h.1, h.2⟩
      · rintro ⟨hx, hall⟩
        rcases List.mem_cons.mp hx with rfl | hx
        · exact Or.inl (by simp)
        · exact Or.inr ⟨hx, hall⟩
    · rw [leftJoin_single_ne a ys c hf]
      constructor
      · rintro (h | h)
        · obtain ⟨y', _, heq⟩ := List.mem_map.mp h
          simp at heq
        · exact ⟨List.mem_cons_of_mem _ h.1, h.2⟩
      · rintro ⟨hx, hall⟩
        rcases List.mem_cons.mp hx with rfl | hx
        · exfalso
          obtain ⟨y, hy⟩ := List.exists_mem_of_ne_nil _ hf
          exact hall y (List.mem_filter.mp hy).1 (List.mem_filter.mp hy).2
        · exact Or.inr ⟨hx, hall⟩

/-- With distinct grouping keys on the left table, grouping its left join gives
one group for each left row, in table order, holding the values of the right
rows it matches. -/
theorem groupRows_leftJoin {α β κ : Type} [DecidableEq κ] (xs : List α) (ys : List β)
    (c : α → β → Bool) (key : α → κ) (val : β → Int) (hnd : (xs.map key).Nodup) :
    groupRows (fun row => key row.1) (fun row => row.2.map val) (leftJoin xs ys c)
      = xs.map (fun x => ⟨key x, (ys.filter (c x)).map val⟩) := by
  induction xs with
  | nil => rfl
  | cons x xs ih =>
    rw [List.map_cons, List.nodup_cons] at hnd
    rw [leftJoin_cons, groupRows_append _ _ (key x) _ _ (leftJoin_single_ne_nil x ys c)
      (fun row hrow => by rw [leftJoin_single_fst x ys c row hrow])
      (fun row hrow heq => hnd.1 (heq ▸ List.mem_map_of_mem key (leftJoin_fst_mem xs ys c row hrow))),
      ih hnd.2, leftJoin_single_vals, List.map_cons]

theorem filter_none_leftJoin {ρ β : Type} (rows : List ρ) (zs : List β) (c : ρ → β → Bool) :
    (leftJoin rows zs c).filter (fun row => row.2.isNone)
      = (rows.filter (fun row => (zs.filter (c row)).isEmpty)).map (fun row => (row, none)) := by
  induction rows with
  | nil => rfl
  | cons x rows ih =>
    rw [leftJoin_cons, List.filter_append, ih, List.filter_cons]
    by_cases hf : zs.filter (c x) = []
    · rw [leftJoin_single_nil x zs c hf, hf]
      rfl
    · rw [leftJoin_single_ne x zs c hf]
      have h1 : ((zs.filter (c x)).map (fun y => (x, some y))).filter
          (fun row => row.2.isNone) = [] := by
        rw [List.filter_eq_nil_iff]
        intro row hrow
        obtain ⟨y, _, rfl⟩ := List.mem_map.mp hrow
        simp
      have h2 : (zs.filter (c x)).isEmpty = false := by
        cases hz : zs.filter (c x) with
        | nil => exact absurd hz hf
        | cons _ _ => rfl
      rw [h1, h2]
      rfl

theorem filter_leftJoin_fst {α β : Type} (xs : List α) (ys : List β) (c : α → β → Bool)
    (p : α → Bool) :
    (leftJoin xs ys c).filter (fun row => p row.1) = leftJoin (xs.filter p) ys c := by
  induction xs with
  | nil => rfl
  | cons x xs ih =>
    rw [leftJoin_cons, List.filter_append, ih, List.filter_cons]
    by_cases hp : p x = true
    · have : (leftJoin [x] ys c).filter (fun row => p row.1) = leftJoin [x] ys c := by
        rw [List.filter_eq_self]
        intro row hrow
        rw [leftJoin_single_fst x ys c row hrow]
        exact hp
      rw [this, if_pos hp]
      exact (leftJoin_cons x _ ys c).symm
    · have : (leftJoin [x] ys c).filter (fun row => p row.1) = [] := by
        rw [List.filter_eq_nil_iff]
        intro row hrow
        rw [leftJoin_single_fst x ys c row hrow]
        exact hp
      rw [this, if_neg hp, List.nil_append]

/-! ## The dashboard groups, store by store -/

theorem storeScores_eq_filter (db : Db) (sid : Int) :
    (db.ratings.filter (fun r => decide (sid = r.store_id))).map (fun r => r.rating)
      = storeScores db sid := by
  unfold storeScores
  congr 1
  apply List.filter_congr
  intro r _
  simp [eq_comm]

theorem nodup_keys_of_ids (ss : List Store) (key : Store → Int × String × String)
    (hkey : ∀ s, (key s).1 = s.id) (h : (ss.map (fun s => s.id)).Nodup) :
    (ss.map key).Nodup := by
  have : (ss.map key).map Prod.fst = ss.map (fun s => s.id) := by
    rw [List.map_map]
    apply List.map_congr_left
    intro s _
    exact hkey s
  exact List.Nodup.of_map Prod.fst (this ▸ h)

/-- Under the primary key of the store table, the groups of `topStoresQuery`
are the stores in table order, each with the scores of its ratings. -/
theorem topStoresGroups_eq (db : Db) (hpk : StoreIdsDistinct db) :
    topStoresGroups db
      = db.stores.map (fun s => ⟨(s.id, s.name, s.email), storeScores db s.id⟩) := by
  unfold topStoresGroups storesWithRatings
  rw [groupRows_leftJoin db.stores db.ratings _ (fun s => (s.id, s.name, s.email))
    (fun r => r.rating) (nodup_keys_of_ids _ _ (fun _ => rfl) hpk)]
  apply List.map_congr_left
  intro s _
  rw [storeScores_eq_filter]

/-- The stores on which the user has no rating. -/
theorem notRatedRows_eq (db : Db) (userId : Int) :
    notRatedRows db userId
      = (leftJoin (db.stores.filter (fun s => (db.ratings.filter
            (fun ur => decide (s.id = ur.store_id ∧ ur.user_id = userId))).isEmpty))
          db.ratings (fun s r => decide (s.id = r.store_id))).map (fun row => (row, none)) := by
  unfold notRatedRows storesWithRatings
  rw [filter_none_leftJoin, filter_leftJoin_fst db.stores db.ratings _
    (fun s => (db.ratings.filter
      (fun ur => decide (s.id = ur.store_id ∧ ur.user_id = userId))).isEmpty)]

/-- Under the primary key of the store table, the groups of the recommended and
unrated queries are the stores the user has not rated, in table order, each
with the scores of its ratings. -/
theorem notRatedGroups_eq (db : Db) (userId : Int) (hpk : StoreIdsDistinct db) :
    notRatedGroups db userId
      = (db.stores.filter (fun s => (db.ratings.filter
            (fun ur => decide (s.id = ur.store_id ∧ ur.user_id = userId))).isEmpty)).map
          (fun s => ⟨(s.id, s.name, s.address), storeScores db s.id⟩) := by
  unfold notRatedGroups
  rw [notRatedRows_eq, groupRows_map]
  have hnd : ((db.stores.filter (fun s => (db.ratings.filter
      (fun ur => decide (s.id = ur.store_id ∧ ur.user_id = userId))).isEmpty)).map
        (fun s => s.id)).Nodup :=
    List.Nodup.sublist ((List.filter_sublist _).map _) hpk
  rw [groupRows_leftJoin _ db.ratings _ (fun s => (s.id, s.name, s.address))
    (fun r => r.rating) (nodup_keys_of_ids _ _ (fun _ => rfl) hnd)]
  apply List.map_congr_left
  intro s _
  rw [storeScores_eq_filter]

/-! ## Averages as fractions of integers -/

theorem scoreDen_pos (xs : List Int) : 0 < scoreDen xs := by
  unfold scoreDen
  split
  · exact Int.one_pos
  · rename_i h; exact_mod_cast Nat.pos_of_ne_zero h

theorem average_rating_eq {κ : Type} (g : RatingGroup κ) :
    g.average_rating = (g.scores.sum : ℚ) / (scoreDen g.scores : ℚ) := by
  unfold RatingGroup.average_rating sqlAvg scoreDen
  by_cases h : g.scores.length = 0
  · have : g.scores = [] := List.length_eq_zero.mp h
    simp [this]
  · simp [h]

theorem average_rating_eq_mean {κ : Type} (g : RatingGroup κ) :
    g.average_rating = (g.scores.sum : ℚ) / (g.scores.length : ℚ) := by
  unfold RatingGroup.average_rating sqlAvg
  by_cases h : g.scores.length = 0
  · have : g.scores = [] := List.length_eq_zero.mp h
    simp [this]
  · simp [h]

theorem average_rating_lt_iff {κ : Type} (a b : RatingGroup κ) :
    a.average_rating < b.average_rating ↔
      a.scores.sum * scoreDen b.scores < b.scores.sum * scoreDen a.scores := by
  rw [average_rating_eq, average_rating_eq]
  have ha : (0 : ℚ) < (scoreDen a.scores : ℚ) := by exact_mod_cast scoreDen_pos a.scores
  have hb : (0 : ℚ) < (scoreDen b.scores : ℚ) := by exact_mod_cast scoreDen_pos b.scores
  rw [div_lt_div_iff₀ ha hb]
  exact_mod_cast Iff.rfl

theorem average_rating_eq_iff {κ : Type} (a b : RatingGroup κ) :
    a.average_rating = b.average_rating ↔
      a.scores.sum * scoreDen b.scores = b.scores.sum * scoreDen a.scores := by
  rw [average_rating_eq, average_rating_eq]
  have ha : (scoreDen a.scores : ℚ) ≠ 0 := by exact_mod_cast (scoreDen_pos a.scores).ne'
  have hb : (scoreDen b.scores : ℚ) ≠ 0 := by exact_mod_cast (scoreDen_pos b.scores).ne'
  rw [div_eq_div_iff ha hb]
  exact_mod_cast Iff.rfl

theorem avgAtLeast_iff_mean (xs : List Int) (k : Int) :
    avgAtLeast xs k ↔ xs ≠ [] ∧ (k : ℚ) ≤ (xs.sum : ℚ) / (xs.length : ℚ) := by
  unfold avgAtLeast sqlAvg
  by_cases h : xs.length = 0
  · have : xs = [] := List.length_eq_zero.mp h
    simp [this]
  · have : xs ≠ [] := fun hn => h (by rw [hn]; rfl)
    simp [h, this]

/-! ## Top stores -/

theorem mem_topStoresCandidates (db : Db) (g : RatingGroup (Int × String × String)) :
    g ∈ topStoresCandidates db ↔ g ∈ topStoresGroups db ∧ 0 < g.total_ratings := by
  simp [topStoresCandidates, List.mem_filter]

/-- A group of the top stores query with a rating comes from a store row and a
rating row of that store. -/
theorem topStoresGroups_rated (db : Db) (g : RatingGroup (Int × String × String))
    (hg : g ∈ topStoresGroups db) (hpos : 0 < g.total_ratings) :
    ∃ s ∈ db.stores, g.key = (s.id, s.name, s.email) ∧ ∃ r ∈ db.ratings, r.store_id = s.id := by
  obtain ⟨_, hsc⟩ := (mem_groupRows _ _ _ g).mp hg
  have hne : g.scores ≠ [] := by
    intro h
    simp [RatingGroup.total_ratings, h] at hpos
  obtain ⟨v, hv⟩ := List.exists_mem_of_ne_nil _ hne
  rw [hsc, List.mem_filterMap] at hv
  obtain ⟨⟨s, orow⟩, hrow, hval⟩ := hv
  obtain ⟨hrowJ, hkey⟩ := List.mem_filter.mp hrow
  cases orow with
  | none => simp at hval
  | some r =>
    have := (mem_leftJoin_some db.stores db.ratings _ s r).mp hrowJ
    refine ⟨s, this.1, ?_, r, this.2.1, ?_⟩
    · have hk : (s.id, s.name, s.email) = g.key := by simpa using hkey
      exact hk.symm
    · have hk : s.id = r.store_id := by simpa using this.2.2
      exact hk.symm

theorem topStoresCandidates_of_rated (db : Db) (s : Store) (hs : s ∈ db.stores)
    (hr : ∃ r ∈ db.ratings, r.store_id = s.id) :
    ∃ g ∈ topStoresCandidates db, g.key = (s.id, s.name, s.email) := by
  obtain ⟨r, hr, hrs⟩ := hr
  have hrow : (s, some r) ∈ storesWithRatings db :=
    (mem_leftJoin_some db.stores db.ratings _ s r).mpr ⟨hs, hr, by simp [hrs]⟩
  refine ⟨⟨(s.id, s.name, s.email),
    ((storesWithRatings db).filter
      (fun row => decide ((row.1.id, row.1.name, row.1.email) = (s.id, s.name, s.email)))).filterMap
      (fun row => row.2.map (fun r => r.rating))⟩, ?_, rfl⟩
  rw [mem_topStoresCandidates]
  constructor
  · exact (mem_groupRows _ _ _ _).mpr ⟨⟨(s, some r), hrow, rfl⟩, rfl⟩
  · have hmem : r.rating ∈ ((storesWithRatings db).filter
        (fun row => decide ((row.1.id, row.1.name, row.1.email) = (s.id, s.name, s.email)))).filterMap
        (fun row => row.2.map (fun r => r.rating)) :=
      List.mem_filterMap.mpr ⟨(s, some r), List.mem_filter.mpr ⟨hrow, by simp⟩, rfl⟩
    exact List.length_pos_of_mem hmem

theorem topStoresCandidates_eq (db : Db) (hpk : StoreIdsDistinct db) :
    topStoresCandidates db
      = (db.stores.filter (fun s => decide (0 < (storeScores db s.id).length))).map
          (fun s => ⟨(s.id, s.name, s.email), storeScores db s.id⟩) := by
  unfold topStoresCandidates
  rw [topStoresGroups_eq db hpk, List.filter_map]
  rfl

/-- C14: every store listed among the top stores has at least one rating (its
group counts at least one, and a rating row of that store exists); every store
with a rating is a candidate; the list has at most five entries, namely the
smaller of five and the number of candidates, which under the primary key of
the store table is the number of stores with at least one rating. -/
theorem top_stores_rated (db : Db) :
    (∀ g ∈ topStoresQuery db, 1 ≤ g.total_ratings ∧
      ∃ s ∈ db.stores, g.key = (s.id, s.name, s.email) ∧ ∃ r ∈ db.ratings, r.store_id = s.id) ∧
    (∀ s ∈ db.stores, (∃ r ∈ db.ratings, r.store_id = s.id) →
      ∃ g ∈ topStoresCandidates db, g.key = (s.id, s.name, s.email)) ∧
    (topStoresQuery db).length ≤ 5 ∧
    (topStoresQuery db).length = min 5 (topStoresCandidates db).length ∧
    (StoreIdsDistinct db →
      topStoresCandidates db
        = (db.stores.filter (fun s => decide (0 < (storeScores db s.id).length))).map
            (fun s => ⟨(s.id, s.name, s.email), storeScores db s.id⟩) ∧
      (topStoresQuery db).length
        = min 5 (db.stores.filter (fun s => decide (0 < (storeScores db s.id).length))).length) := by
  have hlen : (topStoresQuery db).length = min 5 (topStoresCandidates db).length :=
    (length_take_insertionSort rankedBefore _ 5).trans (by rw [length_planSort])
  refine ⟨?_, topStoresCandidates_of_rated db, ?_, hlen, ?_⟩
  · intro g hg
    have hc := (mem_planSort _ _ g).mp (mem_of_mem_take_insertionSort rankedBefore _ 5 g hg)
    rw [mem_topStoresCandidates] at hc
    exact ⟨hc.2, topStoresGroups_rated db g hc.1 hc.2⟩
  · rw [hlen]; exact Nat.min_le_left _ _
  · intro hpk
    refine ⟨topStoresCandidates_eq db hpk, ?_⟩
    rw [hlen, topStoresCandidates_eq db hpk, List.length_map]

theorem top_stores_rated_witness :
    (topStoresQuery rankDb).length = 2 ∧
    ∃ g ∈ topStoresCandidates rankDb, g.key = (2, "Book Nook", "books@example.org") :=
  have h := top_stores_rated rankDb
  ⟨(h.2.2.2.2 (by decide)).2.trans (by decide),
   h.2.1 ⟨2, "Book Nook", "books@example.org", "2 Side St", none, 11⟩ (by decide)
    ⟨⟨3, 1, 2, 5, 102, 102⟩, by decide, rfl⟩⟩

/-- In a list sorted by average descending, then count descending, a group of
greater average comes before, and so does a group of equal average and greater
count. -/
theorem ranked_sorted_order {κ : Type} (L : List (RatingGroup κ))
    (hs : L.Sorted rankedBefore) :
    (∀ i j : Fin L.length,
      (L.get i).average_rating > (L.get j).average_rating → i < j) ∧
    (∀ i j : Fin L.length,
      (L.get i).average_rating = (L.get j).average_rating →
      (L.get i).total_ratings > (L.get j).total_ratings → i < j) := by
  constructor
  · intro i j h
    apply index_lt_of_not_rel rankedBefore _ hs
    unfold rankedBefore
    rintro (h' | ⟨h', _⟩)
    · exact lt_asymm h h'
    · rw [h'] at h; exact lt_irrefl _ h
  · intro i j h1 h2
    apply index_lt_of_not_rel rankedBefore _ hs
    unfold rankedBefore
    rintro (h' | ⟨_, h'⟩)
    · rw [h1] at h'; exact lt_irrefl _ h'
    · exact absurd h2 (not_lt.mpr h')

theorem not_outranked_of_rankedBefore {κ : Type} (g c : RatingGroup κ)
    (h : rankedBefore g c) :
    ¬ (c.average_rating > g.average_rating) ∧
    ¬ (c.average_rating = g.average_rating ∧ c.total_ratings > g.total_ratings) := by
  unfold rankedBefore at h
  constructor
  · intro hgt
    rcases h with h | ⟨h, _⟩
    · exact lt_asymm h hgt
    · rw [h] at hgt; exact lt_irrefl _ hgt
  · rintro ⟨heq, hgt⟩
    rcases h with h | ⟨_, h⟩
    · rw [heq] at h; exact lt_irrefl _ h
    · exact absurd hgt (not_lt.mpr h)

/-- The first five groups by average descending, then count descending: a group
of greater average comes before, of equal average and greater count comes
before, and a group left out outranks no listed one. -/
theorem ranked_first_five {κ : Type} (l : List (RatingGroup κ)) :
    (∀ i j : Fin ((l.insertionSort rankedBefore).take 5).length,
      (((l.insertionSort rankedBefore).take 5).get i).average_rating
        > (((l.insertionSort rankedBefore).take 5).get j).average_rating → i < j) ∧
    (∀ i j : Fin ((l.insertionSort rankedBefore).take 5).length,
      (((l.insertionSort rankedBefore).take 5).get i).average_rating
        = (((l.insertionSort rankedBefore).take 5).get j).average_rating →
      (((l.insertionSort rankedBefore).take 5).get i).total_ratings
        > (((l.insertionSort rankedBefore).take 5).get j).total_ratings → i < j) ∧
    (∀ c ∈ l, c ∉ (l.insertionSort rankedBefore).take 5 →
      ∀ g ∈ (l.insertionSort rankedBefore).take 5,
        ¬ (c.average_rating > g.average_rating) ∧
        ¬ (c.average_rating = g.average_rating ∧ c.total_ratings > g.total_ratings)) := by
  have h := ranked_sorted_order _ (sorted_take_insertionSort rankedBefore l 5)
  exact ⟨h.1, h.2, fun c hc hnot g hg =>
    not_outranked_of_rankedBefore g c (rel_of_omitted rankedBefore l 5 c hc hnot g hg)⟩

/-- The sort by average and count keeps the order of the groups that tie on
both. -/
theorem ranked_ties_stable {κ : Type} (l : List (RatingGroup κ)) (a : RatingGroup κ) :
    (l.insertionSort rankedBefore).filter
        (fun g => decide (g.average_rating = a.average_rating ∧
          g.total_ratings = a.total_ratings))
      = l.filter (fun g => decide (g.average_rating = a.average_rating ∧
          g.total_ratings = a.total_ratings)) := by
  apply filter_insertionSort
  intro x y hx hy
  simp only [decide_eq_true_eq] at hx hy
  exact Or.inr ⟨hx.1.trans hy.1.symm, le_of_eq (hy.2.trans hx.2.symm)⟩

/-- C15: among the listed top stores, a store of greater (exact) average than
another is listed before it, and of two stores of equal average the one with
more ratings is listed before the other; no candidate left out of the list has
a greater average than a listed store, nor an equal average with more
ratings. -/
theorem top_stores_order (db : Db) :
    (∀ i j : Fin (topStoresQuery db).length,
      ((topStoresQuery db).get i).average_rating > ((topStoresQuery db).get j).average_rating →
        i < j) ∧
    (∀ i j : Fin (topStoresQuery db).length,
      ((topStoresQuery db).get i).average_rating = ((topStoresQuery db).get j).average_rating →
      ((topStoresQuery db).get i).total_ratings > ((topStoresQuery db).get j).total_ratings →
        i < j) ∧
    (∀ c ∈ topStoresCandidates db, c ∉ topStoresQuery db → ∀ g ∈ topStoresQuery db,
      ¬ (c.average_rating > g.average_rating) ∧
      ¬ (c.average_rating = g.average_rating ∧ c.total_ratings > g.total_ratings)) :=
  have h := ranked_first_five (planSort db.plan.topStores (topStoresCandidates db))
  ⟨h.1, h.2.1, fun c hc => h.2.2 c ((mem_planSort _ _ c).mpr hc)⟩

theorem top_stores_order_witness :
    topStoresQuery rankDb
      = [⟨(2, "Book Nook", "books@example.org"), [5, 4, 5, 4]⟩,
         ⟨(1, "Corner Shop", "corner@example.org"), [5, 4]⟩] ∧
    (⟨0, by decide⟩ : Fin (topStoresQuery rankDb).length) < ⟨1, by decide⟩ :=
  ⟨by decide,
   (top_stores_order rankDb).2.1 ⟨0, by decide⟩ ⟨1, by decide⟩
    ((average_rating_eq_iff _ _).mpr (by decide)) (by decide)⟩

/-- C16, as the claim states it, fails: the query orders by average and count
only, and stores that tie on both come in the order in which the database
hands out their groups. In `crowdedDb` the stores 1 to 5 tie on average 5 and
count 3, the database hands out the groups in the order 4, 3, 1, 5, 2, 6, and
the list is 4, 3, 1, 5, 2: store 4 before store 3, and both before store 1. -/
theorem top_stores_tie_counterexample :
    (topStoresQuery crowdedDb).map (fun g => g.key.1) = [4, 3, 1, 5, 2] ∧
    (topStoresQuery crowdedDb).map (fun g => g.scores)
      = [[5, 5, 5], [5, 5, 5], [5, 5, 5], [5, 5, 5], [5, 5, 5]] ∧
    crowdedDb.stores.map (fun s => s.id) = [1, 2, 3, 4, 5, 6] := by
  decide

/-- C16 (amended): the top stores are the first five candidates in the order of
average descending, then count descending, and the query has no further sort
key: the candidates that tie with a given one on average and on count come in
the order in which the database hands out their groups (`plan.topStores`),
which need not be the order of the store ids. -/
theorem top_stores_ties (db : Db) :
    topStoresQuery db
      = ((planSort db.plan.topStores (topStoresCandidates db)).insertionSort
          rankedBefore).take 5 ∧
    ((planSort db.plan.topStores (topStoresCandidates db)).insertionSort
      rankedBefore).Sorted rankedBefore ∧
    (∀ a : RatingGroup (Int × String × String),
      ((planSort db.plan.topStores (topStoresCandidates db)).insertionSort rankedBefore).filter
          (fun g => decide (g.average_rating = a.average_rating ∧
            g.total_ratings = a.total_ratings))
        = (planSort db.plan.topStores (topStoresCandidates db)).filter
          (fun g => decide (g.average_rating = a.average_rating ∧
            g.total_ratings = a.total_ratings))) ∧
    (planSort db.plan.topStores (topStoresCandidates db)).Perm (topStoresCandidates db) ∧
    (planSort db.plan.topStores (topStoresCandidates db)).Sorted
      (fun a b => planRank db.plan.topStores a.key.1 ≤ planRank db.plan.topStores b.key.1) ∧
    (StoreIdsDistinct db →
      topStoresCandidates db
        = (db.stores.filter (fun s => decide (0 < (storeScores db s.id).length))).map
            (fun s => ⟨(s.id, s.name, s.email), storeScores db s.id⟩)) := by
  haveI : IsTotal (RatingGroup (Int × String × String))
      (fun a b => planRank db.plan.topStores a.key.1 ≤ planRank db.plan.topStores b.key.1) :=
    ⟨fun a b => le_total _ _⟩
  haveI : IsTrans (RatingGroup (Int × String × String))
      (fun a b => planRank db.plan.topStores a.key.1 ≤ planRank db.plan.topStores b.key.1) :=
    ⟨fun a b c h1 h2 => le_trans h1 h2⟩
  exact ⟨rfl, List.sorted_insertionSort _ _, ranked_ties_stable _, perm_planSort _ _,
    List.sorted_insertionSort _ _, topStoresCandidates_eq db⟩

theorem top_stores_ties_witness :
    topStoresCandidates crowdedDb
      = [⟨(1, "Store 1", "s1@example.org"), [5, 5, 5]⟩,
         ⟨(2, "Store 2", "s2@example.org"), [5, 5, 5]⟩,
         ⟨(3, "Store 3", "s3@example.org"), [5, 5, 5]⟩,
         ⟨(4, "Store 4", "s4@example.org"), [5, 5, 5]⟩,
         ⟨(5, "Store 5", "s5@example.org"), [5, 5, 5]⟩,
         ⟨(6, "Store 6", "s6@example.org"), [4, 4, 5]⟩] ∧
    (planSort crowdedDb.plan.topStores (topStoresCandidates crowdedDb)).map (fun g => g.key.1)
      = [4, 3, 1, 5, 2, 6] ∧
    (topStoresQuery tieDb).map (fun g => g.key.1) = [1, 2] ∧
    (topStoresQuery tieDbSwapped).map (fun g => g.key.1) = [1, 2] :=
  ⟨((top_stores_ties crowdedDb).2.2.2.2.2 (by decide)).trans (by decide), by decide,
   by decide, by decide⟩

/-! ## Recent entities -/

/-- The first five rows by a timestamp descending: as many as there are rows up
to five, sorted, never older than a row left out, rows of one timestamp in
table order. -/
theorem recent_rows {α : Type} (f : α → Nat) (l : List α) :
    ((l.insertionSort (fun a b => f a ≥ f b)).take 5).length = min 5 l.length ∧
    ((l.insertionSort (fun a b => f a ≥ f b)).take 5).Sorted (fun a b => f a ≥ f b) ∧
    (∀ x ∈ (l.insertionSort (fun a b => f a ≥ f b)).take 5, x ∈ l) ∧
    (∀ u ∈ l, u ∉ (l.insertionSort (fun a b => f a ≥ f b)).take 5 →
      ∀ x ∈ (l.insertionSort (fun a b => f a ≥ f b)).take 5, f x ≥ f u) ∧
    (∀ t : Nat, (l.insertionSort (fun a b => f a ≥ f b)).filter (fun x => decide (f x = t))
      = l.filter (fun x => decide (f x = t))) := by
  haveI : IsTotal α (fun a b => f a ≥ f b) := ⟨fun a b => le_total (f b) (f a)⟩
  haveI : IsTrans α (fun a b => f a ≥ f b) := ⟨fun a b c h1 h2 => le_trans h2 h1⟩
  refine ⟨length_take_insertionSort _ l 5, sorted_take_insertionSort _ l 5,
    mem_of_mem_take_insertionSort _ l 5, ?_, ?_⟩
  · intro u hu hnot x hx
    exact rel_of_omitted (fun a b => f a ≥ f b) l 5 u hu hnot x hx
  · intro t
    apply filter_insertionSort
    intro x y hx hy
    simp only [decide_eq_true_eq] at hx hy
    exact le_of_eq (hy.trans hx.symm)

theorem innerJoin_of_unique {α β : Type} (xs : List α) (ys : List β) (c : α → β → Bool)
    (h : ∀ x ∈ xs, (ys.filter (c x)).length = 1) : (innerJoin xs ys c).map Prod.fst = xs := by
  induction xs with
  | nil => rfl
  | cons x xs ih =>
    have hx := h x (List.mem_cons_self _ _)
    obtain ⟨y, hy⟩ := List.length_eq_one.mp hx
    have := ih (fun z hz => h z (List.mem_cons_of_mem _ hz))
    unfold innerJoin at this ⊢
    simp only [List.flatMap_cons, List.map_append, hy, List.map_cons, List.map_nil, this,
      List.singleton_append]

/-- C17, as the claim states it, fails: the queries order by the created
timestamp only. Of the users 1 and 4, created at the same time, user 1 is
listed first; of the stores 1 and 2, created at the same time, store 1 is
listed first; of six ratings created at the same time the five listed are the
ratings 1 to 5, in that order, and the newest id is left out. -/
theorem recent_tie_counterexample :
    (recentUsersQuery tieDb).map (fun u => (u.id, u.created_at)) = [(6, 9), (5, 8), (1, 7), (4, 7)] ∧
    (recentStoresQuery tieDbSwapped).map (fun s => (s.id, s.created_at)) = [(1, 11), (2, 11)] ∧
    (recentRatingsQuery tieDb).map (fun row => (row.1.1.id, row.1.1.created_at))
      = [(1, 100), (2, 100), (3, 100), (4, 100), (5, 100)] := by
  decide

/-- C17 (amended): for each kind (users, stores, ratings joined with their user
and store) the recent list is the first five rows by created timestamp
descending: all of them when fewer than five exist, sorted by created
timestamp descending, and no row left out is newer than a listed one. Rows
with equal created timestamps are listed in the order the table returns them;
the id plays no part. When every rating has exactly one user row and one store
row, the joined rows are the ratings, one row each, in table order. -/
theorem recent_entities (db : Db) :
    ((recentUsersQuery db).length = min 5 db.users.length ∧
      (recentUsersQuery db).Sorted (fun a b => a.created_at ≥ b.created_at) ∧
      (∀ x ∈ recentUsersQuery db, x ∈ db.users) ∧
      (∀ u ∈ db.users, u ∉ recentUsersQuery db →
        ∀ x ∈ recentUsersQuery db, x.created_at ≥ u.created_at) ∧
      (∀ t : Nat,
        (db.users.insertionSort (fun a b => a.created_at ≥ b.created_at)).filter
            (fun x => decide (x.created_at = t))
          = db.users.filter (fun x => decide (x.created_at = t)))) ∧
    ((recentStoresQuery db).length = min 5 db.stores.length ∧
      (recentStoresQuery db).Sorted (fun a b => a.created_at ≥ b.created_at) ∧
      (∀ x ∈ recentStoresQuery db, x ∈ db.stores) ∧
      (∀ u ∈ db.stores, u ∉ recentStoresQuery db →
        ∀ x ∈ recentStoresQuery db, x.created_at ≥ u.created_at) ∧
      (∀ t : Nat,
        (db.stores.insertionSort (fun a b => a.created_at ≥ b.created_at)).filter
            (fun x => decide (x.created_at = t))
          = db.stores.filter (fun x => decide (x.created_at = t)))) ∧
    ((recentRatingsQuery db).length = min 5 (ratingsWithUserAndStore db).length ∧
      (recentRatingsQuery db).Sorted (fun a b => a.1.1.created_at ≥ b.1.1.created_at) ∧
      (∀ x ∈ recentRatingsQuery db, x ∈ ratingsWithUserAndStore db) ∧
      (∀ u ∈ ratingsWithUserAndStore db, u ∉ recentRatingsQuery db →
        ∀ x ∈ recentRatingsQuery db, x.1.1.created_at ≥ u.1.1.created_at) ∧
      (∀ t : Nat,
        ((ratingsWithUserAndStore db).insertionSort
            (fun a b => a.1.1.created_at ≥ b.1.1.created_at)).filter
            (fun x => decide (x.1.1.created_at = t))
          = (ratingsWithUserAndStore db).filter (fun x => decide (x.1.1.created_at = t)))) ∧
    ((∀ r ∈ db.ratings, (db.users.filter (fun u => decide (r.user_id = u.id))).length = 1) →
      (∀ r ∈ db.ratings, (db.stores.filter (fun s => decide (r.store_id = s.id))).length = 1) →
      (ratingsWithUserAndStore db).map (fun row => row.1.1) = db.ratings) := by
  refine ⟨recent_rows (fun u : User => u.created_at) db.users,
    recent_rows (fun s : Store => s.created_at) db.stores,
    recent_rows (fun row : (Rating × User) × Store => row.1.1.created_at)
      (ratingsWithUserAndStore db), ?_⟩
  intro hu hs
  have h1 := innerJoin_of_unique db.ratings db.users (fun r u => decide (r.user_id = u.id)) hu
  have h2 := innerJoin_of_unique
    (innerJoin db.ratings db.users (fun r u => decide (r.user_id = u.id))) db.stores
    (fun ru s => decide (ru.1.store_id = s.id)) (by
      intro ru hru
      have : ru.1 ∈ db.ratings := by
        rw [← h1]
        exact List.mem_map_of_mem Prod.fst hru
      exact hs ru.1 this)
  unfold ratingsWithUserAndStore
  have : (fun row : (Rating × User) × Store => row.1.1) = Prod.fst ∘ Prod.fst := rfl
  rw [this, ← List.map_map, h2, h1]

theorem recent_entities_witness :
    (recentRatingsQuery tieDb).length = 5 ∧
    (ratingsWithUserAndStore tieDb).map (fun row => row.1.1) = tieDb.ratings :=
  have h := recent_entities tieDb
  ⟨h.2.2.1.1.trans (by decide), h.2.2.2 (by decide) (by decide)⟩

/-! ## Recommended and unrated stores -/

theorem notRated_isEmpty_iff (db : Db) (userId sid : Int) :
    (db.ratings.filter (fun ur => decide (sid = ur.store_id ∧ ur.user_id = userId))).isEmpty
        = true ↔
      ∀ r ∈ db.ratings, ¬ (r.user_id = userId ∧ r.store_id = sid) := by
  rw [List.isEmpty_iff, List.filter_eq_nil_iff]
  constructor
  · intro h r hr hk
    exact h r hr (by simp [hk.1, hk.2])
  · intro h r hr
    simp only [decide_eq_true_eq]
    rintro ⟨h1, h2⟩
    exact h r hr ⟨h2, h1.symm⟩

theorem recommended_having_iff {κ : Type} (g : RatingGroup κ) :
    (decide (g.total_ratings ≥ 3) && decide (avgAtLeast g.scores 4)) = true ↔
      3 ≤ g.scores.length ∧ (4 : ℚ) ≤ (g.scores.sum : ℚ) / (g.scores.length : ℚ) := by
  simp only [Bool.and_eq_true, decide_eq_true_eq, RatingGroup.total_ratings, ge_iff_le,
    avgAtLeast_iff_mean]
  constructor
  · rintro ⟨h1, _, h2⟩
    exact ⟨h1, by exact_mod_cast h2⟩
  · rintro ⟨h1, h2⟩
    refine ⟨h1, ?_, by exact_mod_cast h2⟩
    intro hn
    rw [hn] at h1
    simp at h1

theorem mem_recommendedCandidates (db : Db) (userId : Int) (hpk : StoreIdsDistinct db)
    (g : RatingGroup (Int × String × String)) :
    g ∈ recommendedCandidates db userId ↔
      ∃ s ∈ db.stores, g = ⟨(s.id, s.name, s.address), storeScores db s.id⟩ ∧
        (∀ r ∈ db.ratings, ¬ (r.user_id = userId ∧ r.store_id = s.id)) ∧
        3 ≤ (storeScores db s.id).length ∧
        (4 : ℚ) ≤ ((storeScores db s.id).sum : ℚ) / ((storeScores db s.id).length : ℚ) := by
  unfold recommendedCandidates
  rw [List.mem_filter, notRatedGroups_eq db userId hpk, List.mem_map, recommended_having_iff]
  constructor
  · rintro ⟨⟨s, hs, rfl⟩, hh⟩
    rw [List.mem_filter, notRated_isEmpty_iff] at hs
    exact ⟨s, hs.1, rfl, hs.2, hh⟩
  · rintro ⟨s, hs, rfl, hnr, hh⟩
    exact ⟨⟨s, List.mem_filter.mpr ⟨hs, (notRated_isEmpty_iff db userId s.id).mpr hnr⟩, rfl⟩, hh⟩

/-- C18: under the primary key of the store table, the candidates of the
recommended query (its rows before `LIMIT`) are exactly the stores on which
the user has no rating, that have at least three ratings and whose exact mean is
at least 4; each store gives at most one candidate, and the count and the
average of a candidate are the number and the exact mean of the ratings of its
store. No assumption on the rating table is needed. -/
theorem recommended_candidates (db : Db) (userId : Int) (hpk : StoreIdsDistinct db) :
    (∀ s ∈ db.stores,
      (∃ g ∈ recommendedCandidates db userId, g.key = (s.id, s.name, s.address)) ↔
        ((∀ r ∈ db.ratings, ¬ (r.user_id = userId ∧ r.store_id = s.id)) ∧
          3 ≤ (storeScores db s.id).length ∧
          (4 : ℚ) ≤ ((storeScores db s.id).sum : ℚ) / ((storeScores db s.id).length : ℚ))) ∧
    (∀ g ∈ recommendedCandidates db userId,
      (∃ s ∈ db.stores, g.key = (s.id, s.name, s.address)) ∧
      g.scores = storeScores db g.key.1 ∧
      g.total_ratings = (storeScores db g.key.1).length ∧
      g.average_rating
        = ((storeScores db g.key.1).sum : ℚ) / ((storeScores db g.key.1).length : ℚ)) ∧
    ((recommendedCandidates db userId).map (fun g => g.key.1)).Nodup := by
  refine ⟨?_, ?_, ?_⟩
  · intro s hs
    constructor
    · rintro ⟨g, hg, hkey⟩
      obtain ⟨s', _, rfl, h1, h2, h3⟩ := (mem_recommendedCandidates db userId hpk g).mp hg
      have hid : s'.id = s.id := congrArg Prod.fst hkey
      rw [hid] at h1 h2 h3
      exact ⟨h1, h2, h3⟩
    · rintro ⟨h1, h2, h3⟩
      exact ⟨⟨(s.id, s.name, s.address), storeScores db s.id⟩,
        (mem_recommendedCandidates db userId hpk _).mpr ⟨s, hs, rfl, h1, h2, h3⟩, rfl⟩
  · intro g hg
    obtain ⟨s, hs, rfl, _, _, _⟩ := (mem_recommendedCandidates db userId hpk g).mp hg
    exact ⟨⟨s, hs, rfl⟩, rfl, rfl, average_rating_eq_mean _⟩
  · unfold recommendedCandidates
    rw [notRatedGroups_eq db userId hpk]
    have hsub : List.Sublist ((((db.stores.filter (fun s => (db.ratings.filter
        (fun ur => decide (s.id = ur.store_id ∧ ur.user_id = userId))).isEmpty)).map
          (fun s => (⟨(s.id, s.name, s.address), storeScores db s.id⟩ :
            RatingGroup (Int × String × String)))).filter
        (fun g => decide (g.total_ratings ≥ 3) && decide (avgAtLeast g.scores 4))).map
          (fun g => g.key.1)) (db.stores.map (fun s => s.id)) := by
      refine ((List.filter_sublist _).map _).trans ?_
      rw [List.map_map]
      exact (List.filter_sublist _).map _
    exact List.Nodup.sublist hsub hpk

theorem recommended_candidates_witness :
    (∃ g ∈ recommendedCandidates tieDb 1, g.key = (2, "Book Nook", "2 Side St")) ∧
    ((recommendedCandidates tieDb 1).map (fun g => g.key.1)).Nodup :=
  have h := recommended_candidates tieDb 1 (by decide)
  ⟨(h.1 ⟨2, "Book Nook", "books@example.org", "2 Side St", none, 11⟩ (by decide)).mpr
    ⟨by decide, by decide, by
      have : storeScores tieDb 2 = [5, 5, 5] := by decide
      rw [this]; norm_num⟩,
   h.2.2⟩

theorem notRatedGroups_excludes (db : Db) (userId sid : Int)
    (hr : ∃ r ∈ db.ratings, r.user_id = userId ∧ r.store_id = sid)
    (g : RatingGroup (Int × String × String)) (hg : g ∈ notRatedGroups db userId) :
    g.key.1 ≠ sid := by
  intro hsid
  obtain ⟨⟨row, hrow, hkey⟩, _⟩ := (mem_groupRows _ _ _ g).mp hg
  obtain ⟨hJ, hnone⟩ := List.mem_filter.mp hrow
  obtain ⟨srow, ur⟩ := row
  cases ur with
  | some _ => simp at hnone
  | none =>
    have hall := ((mem_leftJoin_none _ _ _ srow).mp hJ).2
    obtain ⟨r, hrm, hu, hs⟩ := hr
    have hid : srow.1.id = sid := by
      have : srow.1.id = g.key.1 := congrArg Prod.fst hkey
      rw [this, hsid]
    exact hall r hrm (by simp [hid, hu, hs])

/-- After a successful submit the table holds a rating of the rater on the
store. -/
theorem submitRating_success_mem (db : Db) (now : Nat) (u s v : Int)
    (hok : (submitRating db now u s v).1.status = 200 ∨
      (submitRating db now u s v).1.status = 201) :
    ∃ r ∈ (submitRating db now u s v).2.ratings, r.user_id = u ∧ r.store_id = s := by
  by_cases hs : selectStore db s = []
  · rcases submitRating_no_store_cases db now u s v hs with h | h <;> rw [h] at hok <;>
      simp [internalError] at hok
  · by_cases he : selectExisting db u s = [] <;> cases hal : ratingAllowed db.schema v
    · rw [submitRating_insert_rejected _ _ _ _ _ hs he hal] at hok
      simp [internalError] at hok
    · rw [submitRating_insert _ _ _ _ _ hs he hal]
      exact ⟨newRatingRow db.ratingSeq now u s v, by simp, rfl, rfl⟩
    · rw [submitRating_update_rejected _ _ _ _ _ hs he hal] at hok
      simp [internalError] at hok
    · rw [submitRating_update _ _ _ _ _ hs he hal]
      obtain ⟨x, rest, hx⟩ := List.exists_cons_of_ne_nil he
      have hxm := selectExisting_mem db u s x (by rw [hx]; exact List.mem_cons_self _ _)
      have : setScore v now x ∈
          selectExisting { db with ratings := updateRows u s v now db.ratings } u s := by
        rw [selectExisting_update, hx]; simp
      exact ⟨setScore v now x, (selectExisting_mem _ _ _ _ this).1, hxm.2.1, hxm.2.2⟩

/-- C19: when the table holds a rating of the user on a store, no row of the
recommended list and no row of the unrated list of that user carries the id of
that store, whatever the ratings of the store; so it is for the table left by
a successful submit of the user on that store. -/
theorem rated_store_excluded (db : Db) (userId sid : Int) :
    ((∃ r ∈ db.ratings, r.user_id = userId ∧ r.store_id = sid) →
      (∀ g ∈ recommendedStoresQuery db userId, g.key.1 ≠ sid) ∧
      (∀ g ∈ unratedStoresQuery db userId, g.key.1 ≠ sid)) ∧
    (∀ (now : Nat) (v : Int),
      ((submitRating db now userId sid v).1.status = 200 ∨
        (submitRating db now userId sid v).1.status = 201) →
      (∀ g ∈ recommendedStoresQuery (submitRating db now userId sid v).2 userId, g.key.1 ≠ sid) ∧
      (∀ g ∈ unratedStoresQuery (submitRating db now userId sid v).2 userId, g.key.1 ≠ sid)) := by
  have key : ∀ d : Db, (∃ r ∈ d.ratings, r.user_id = userId ∧ r.store_id = sid) →
      (∀ g ∈ recommendedStoresQuery d userId, g.key.1 ≠ sid) ∧
      (∀ g ∈ unratedStoresQuery d userId, g.key.1 ≠ sid) := by
    intro d hr
    constructor
    · intro g hg
      have := (mem_planSort _ _ g).mp (mem_of_mem_take_insertionSort rankedBefore _ 5 g hg)
      exact notRatedGroups_excludes d userId sid hr g (List.mem_filter.mp this).1
    · intro g hg
      have := (mem_planSort _ _ g).mp (mem_of_mem_take_insertionSort _ _ 5 g hg)
      exact notRatedGroups_excludes d userId sid hr g (List.mem_filter.mp this).1
  exact ⟨key db, fun now v hok => key _ (submitRating_success_mem db now userId sid v hok)⟩

theorem rated_store_excluded_witness :
    (∀ g ∈ recommendedStoresQuery tieDb 4, g.key.1 ≠ 2) ∧
    (∀ g ∈ recommendedStoresQuery (submitRating tieDb 200 1 2 3).2 1, g.key.1 ≠ 2) :=
  ⟨((rated_store_excluded tieDb 4 2).1 ⟨⟨1, 4, 2, 5, 100, 100⟩, by decide, rfl, rfl⟩).1,
   ((rated_store_excluded tieDb 1 2).2 200 3 (Or.inr (by decide))).1⟩

/-- The recommended list is the first five candidates by average descending,
then count descending: at most five entries, a candidate of greater average
listed before, of equal average and greater count listed before, no candidate
left out outranking a listed one. The query has no further sort key:
candidates that tie on average and count come in the order in which the
database hands out their groups. -/
theorem recommendedStoresQuery_order (db : Db) (userId : Int) :
    (recommendedStoresQuery db userId).length ≤ 5 ∧
    (recommendedStoresQuery db userId).length = min 5 (recommendedCandidates db userId).length ∧
    (∀ i j : Fin (recommendedStoresQuery db userId).length,
      ((recommendedStoresQuery db userId).get i).average_rating
        > ((recommendedStoresQuery db userId).get j).average_rating → i < j) ∧
    (∀ i j : Fin (recommendedStoresQuery db userId).length,
      ((recommendedStoresQuery db userId).get i).average_rating
        = ((recommendedStoresQuery db userId).get j).average_rating →
      ((recommendedStoresQuery db userId).get i).total_ratings
        > ((recommendedStoresQuery db userId).get j).total_ratings → i < j) ∧
    (∀ c ∈ recommendedCandidates db userId, c ∉ recommendedStoresQuery db userId →
      ∀ g ∈ recommendedStoresQuery db userId,
        ¬ (c.average_rating > g.average_rating) ∧
        ¬ (c.average_rating = g.average_rating ∧ c.total_ratings > g.total_ratings)) ∧
    (∀ a : RatingGroup (Int × String × String),
      ((planSort db.plan.recommended (recommendedCandidates db userId)).insertionSort rankedBefore).filter
          (fun g => decide (g.average_rating = a.average_rating ∧
            g.total_ratings = a.total_ratings))
        = (planSort db.plan.recommended (recommendedCandidates db userId)).filter
          (fun g => decide (g.average_rating = a.average_rating ∧
            g.total_ratings = a.total_ratings))) := by
  have hlen : (recommendedStoresQuery db userId).length
      = min 5 (recommendedCandidates db userId).length :=
    (length_take_insertionSort rankedBefore _ 5).trans (by rw [length_planSort])
  have h := ranked_first_five (planSort db.plan.recommended (recommendedCandidates db userId))
  exact ⟨by rw [hlen]; exact Nat.min_le_left _ _, hlen, h.1, h.2.1,
    fun c hc => h.2.2 c ((mem_planSort _ _ c).mpr hc), ranked_ties_stable _⟩

/-! ## Rating distribution -/

theorem mem_ratingDistributionOf (scores : List Int) (e : Int × Nat) :
    e ∈ ratingDistributionOf scores ↔ e.1 ∈ scores ∧ e.2 = scores.count e.1 := by
  unfold ratingDistributionOf
  rw [(List.perm_insertionSort _ _).mem_iff, List.mem_map]
  constructor
  · rintro ⟨k, hk, rfl⟩
    exact ⟨(mem_groupKeys k scores).mp hk, rfl⟩
  · rintro ⟨h1, h2⟩
    exact ⟨e.1, (mem_groupKeys _ _).mpr h1, by rw [← h2]⟩

theorem ratingDistributionOf_sorted (scores : List Int) :
    ((ratingDistributionOf scores).map Prod.fst).Sorted (· > ·) := by
  haveI : IsTotal (Int × Nat) (fun a b => a.1 ≥ b.1) := ⟨fun a b => le_total b.1 a.1⟩
  haveI : IsTrans (Int × Nat) (fun a b => a.1 ≥ b.1) := ⟨fun a b c h1 h2 => le_trans h2 h1⟩
  have hs : (ratingDistributionOf scores).Sorted (fun a b => a.1 ≥ b.1) :=
    List.sorted_insertionSort _ _
  have hge : ((ratingDistributionOf scores).map Prod.fst).Sorted (· ≥ ·) := by
    unfold List.Sorted at hs ⊢
    rw [List.pairwise_map]
    exact hs
  have hnd : ((ratingDistributionOf scores).map Prod.fst).Nodup := by
    have hp : ((ratingDistributionOf scores).map Prod.fst).Perm (groupKeys scores) := by
      unfold ratingDistributionOf
      refine ((List.perm_insertionSort _ _).map Prod.fst).trans ?_
      rw [List.map_map]
      have : (Prod.fst ∘ fun k => (k, List.count k scores)) = id := rfl
      rw [this, List.map_id]
    exact hp.nodup_iff.mpr (nodup_groupKeys scores)
  exact hge.gt_of_ge hnd

/-- C13, as the claim states it, fails: a score that does not occur in scope
has no entry. With no rating at all the distribution is empty, and with the
scores 5, 5, 4, 3, 1 it has four entries, none for the score 2. -/
theorem rating_distribution_counterexample :
    adminRatingDistribution (sampleDb ⟨true, true⟩) = [] ∧
    userRatingDistribution statsDb 9 = [] ∧
    ownerRatingDistribution statsDb 3 = [] ∧
    adminRatingDistribution statsDb = [(5, 2), (4, 1), (3, 1), (1, 1)] ∧
    ownerRatingDistribution statsDb 2 = [(5, 2), (4, 1), (3, 1), (1, 1)] := by
  decide

/-- C13 (amended): for every rating set in scope (all ratings, the ratings of the
stores of one owner, the ratings of one user) the distribution has one entry
for each score that occurs in scope and none for a score that does not (so
none at all for the empty set); the entries come by strictly descending score,
the count of each is the number of ratings in scope with that score, at least
1, and with scores in 1..5 there are at most five entries. -/
theorem rating_distribution_levels (db : Db) (ownerId userId : Int) (scores : List Int)
    (hscope : scores = db.ratings.map (fun r => r.rating) ∨
      scores = (((innerJoin db.ratings db.stores (fun r s => decide (r.store_id = s.id))).filter
        (fun rs => decide (rs.2.owner_id = some ownerId))).map (fun rs => rs.1.rating)) ∨
      scores = (db.ratings.filter (fun r => decide (r.user_id = userId))).map
        (fun r => r.rating)) :
    (ratingDistributionOf scores = adminRatingDistribution db ∨
      ratingDistributionOf scores = ownerRatingDistribution db ownerId ∨
      ratingDistributionOf scores = userRatingDistribution db userId) ∧
    (∀ k c, (k, c) ∈ ratingDistributionOf scores ↔ (k ∈ scores ∧ c = scores.count k)) ∧
    (∀ e ∈ ratingDistributionOf scores, 1 ≤ e.2) ∧
    ((ratingDistributionOf scores).map Prod.fst).Sorted (· > ·) ∧
    (scores = [] → ratingDistributionOf scores = []) ∧
    ((∀ x ∈ scores, 1 ≤ x ∧ x ≤ 5) → (ratingDistributionOf scores).length ≤ 5) := by
  refine ⟨?_, fun k c => mem_ratingDistributionOf scores (k, c), ?_,
    ratingDistributionOf_sorted scores, ?_, ?_⟩
  · rcases hscope with h | h | h
    · exact Or.inl (by rw [h]; rfl)
    · exact Or.inr (Or.inl (by rw [h]; rfl))
    · exact Or.inr (Or.inr (by rw [h]; rfl))
  · intro e he
    obtain ⟨h1, h2⟩ := (mem_ratingDistributionOf scores e).mp he
    rw [h2]
    exact List.count_pos_iff.mpr h1
  · intro h
    rw [h]; rfl
  · intro hr
    have hnd := (ratingDistributionOf_sorted scores).nodup
    have hsub : (ratingDistributionOf scores).map Prod.fst ⊆ [5, 4, 3, 2, 1] := by
      intro k hk
      obtain ⟨e, he, rfl⟩ := List.mem_map.mp hk
      have := hr e.1 ((mem_ratingDistributionOf scores e).mp he).1
      simp only [List.mem_cons, List.mem_singleton, List.not_mem_nil, or_false]
      omega
    have := (hnd.subperm hsub).length_le
    simpa using this

theorem rating_distribution_levels_witness :
    (∀ k c, (k, c) ∈ ratingDistributionOf [5, 5, 4, 3, 1] ↔
      (k ∈ [5, 5, 4, 3, 1] ∧ c = List.count k [5, 5, 4, 3, 1])) ∧
    (ratingDistributionOf [5, 5, 4, 3, 1]).length ≤ 5 :=
  have h := rating_distribution_levels statsDb 2 1 [5, 5, 4, 3, 1] (Or.inl (by decide))
  ⟨h.2.1, h.2.2.2.2.2 (by decide)⟩

/-! ## Stores that need a rating -/

theorem mem_unratedCandidates (db : Db) (userId : Int) (hpk : StoreIdsDistinct db)
    (g : RatingGroup (Int × String × String)) :
    g ∈ unratedCandidates db userId ↔
      ∃ s ∈ db.stores, g = ⟨(s.id, s.name, s.address), storeScores db s.id⟩ ∧
        (∀ r ∈ db.ratings, ¬ (r.user_id = userId ∧ r.store_id = s.id)) ∧
        5 ≤ (storeScores db s.id).length := by
  unfold unratedCandidates
  rw [List.mem_filter, notRatedGroups_eq db userId hpk, List.mem_map]
  constructor
  · rintro ⟨⟨s, hs, rfl⟩, hh⟩
    rw [List.mem_filter, notRated_isEmpty_iff] at hs
    exact ⟨s, hs.1, rfl, hs.2, by simpa [RatingGroup.total_ratings] using hh⟩
  · rintro ⟨s, hs, rfl, hnr, hh⟩
    exact ⟨⟨s, List.mem_filter.mpr ⟨hs, (notRated_isEmpty_iff db userId s.id).mpr hnr⟩, rfl⟩,
      by simpa [RatingGroup.total_ratings] using hh⟩

/-- Under the primary key of the store table a store has a candidate among the
stores that need a rating exactly when the user has no rating on it and it has
at least five ratings, whatever its average. -/
theorem unratedCandidates_iff (db : Db) (userId : Int) (hpk : StoreIdsDistinct db)
    (s : Store) (hs : s ∈ db.stores) :
    (∃ g ∈ unratedCandidates db userId, g.key = (s.id, s.name, s.address)) ↔
      ((∀ r ∈ db.ratings, ¬ (r.user_id = userId ∧ r.store_id = s.id)) ∧
        5 ≤ (storeScores db s.id).length) := by
  constructor
  · rintro ⟨g, hg, hkey⟩
    obtain ⟨s', _, rfl, h1, h2⟩ := (mem_unratedCandidates db userId hpk g).mp hg
    have hid : s'.id = s.id := congrArg Prod.fst hkey
    rw [hid] at h1 h2
    exact ⟨h1, h2⟩
  · rintro ⟨h1, h2⟩
    exact ⟨⟨(s.id, s.name, s.address), storeScores db s.id⟩,
      (mem_unratedCandidates db userId hpk _).mpr ⟨s, hs, rfl, h1, h2⟩, rfl⟩

/-- The list of stores that need a rating is the first five of its candidates by
rating count descending: as many as there are candidates up to five, sorted,
no candidate left out having more ratings than a listed one. The query has no
further sort key: candidates with the same count come in the order in which
the database hands out their groups. -/
theorem unratedStoresQuery_order (db : Db) (userId : Int) :
    (unratedStoresQuery db userId).length = min 5 (unratedCandidates db userId).length ∧
    (unratedStoresQuery db userId).Sorted (fun a b => a.total_ratings ≥ b.total_ratings) ∧
    (∀ x ∈ unratedStoresQuery db userId, x ∈ unratedCandidates db userId) ∧
    (∀ c ∈ unratedCandidates db userId, c ∉ unratedStoresQuery db userId →
      ∀ x ∈ unratedStoresQuery db userId, x.total_ratings ≥ c.total_ratings) ∧
    (∀ t : Nat,
      ((planSort db.plan.unrated (unratedCandidates db userId)).insertionSort
          (fun a b => a.total_ratings ≥ b.total_ratings)).filter
          (fun x => decide (x.total_ratings = t))
        = (planSort db.plan.unrated (unratedCandidates db userId)).filter
            (fun x => decide (x.total_ratings = t))) := by
  have h := recent_rows (fun g : RatingGroup (Int × String × String) => g.total_ratings)
    (planSort db.plan.unrated (unratedCandidates db userId))
  refine ⟨h.1.trans (by rw [length_planSort]), h.2.1,
    fun x hx => (mem_planSort _ _ x).mp (h.2.2.1 x hx),
    fun c hc => h.2.2.2.1 c ((mem_planSort _ _ c).mpr hc), h.2.2.2.2⟩

/-- C22, as the claim states it, fails: a store that passes the thresholds is a
candidate, but the list keeps five rows only. Store 6 (three ratings, mean
13/3, not rated by user 1) is a candidate of the recommended query and is not
in the list, which holds the stores 1 to 5. -/
theorem threshold_limit_counterexample :
    (recommendedStoresQuery crowdedDb 1).map (fun g => g.key.1) = [1, 2, 3, 4, 5] ∧
    (⟨(6, "Store 6", "6 Main St"), [4, 4, 5]⟩ : RatingGroup (Int × String × String))
      ∈ recommendedCandidates crowdedDb 1 ∧
    (∀ r ∈ crowdedDb.ratings, ¬ (r.user_id = 1 ∧ r.store_id = 6)) ∧
    storeScores crowdedDb 6 = [4, 4, 5] := by
  decide

theorem mem_take_of_length_le {α : Type} (r : α → α → Prop) [DecidableRel r] (l : List α)
    (h : l.length ≤ 5) (x : α) (hx : x ∈ l) : x ∈ (l.insertionSort r).take 5 := by
  rw [List.take_of_length_le (by rw [List.length_insertionSort]; exact h)]
  exact (List.perm_insertionSort r l).mem_iff.mpr hx

/-- C22 (amended): under the primary key of the store table, for a store the
user has not rated: with at least three and fewer than five ratings and a mean
of at least 4 it is a candidate of the recommended query (and is in its list
whenever there are at most five candidates) and is not in the list of stores
that need a rating; with at least five ratings and a mean below 4 it is a
candidate of the stores that need a rating (and is in that list whenever there
are at most five candidates) and is not in the recommended list. -/
theorem threshold_split (db : Db) (userId : Int) (s : Store) (hpk : StoreIdsDistinct db)
    (hs : s ∈ db.stores)
    (hnr : ∀ r ∈ db.ratings, ¬ (r.user_id = userId ∧ r.store_id = s.id)) :
    ((3 ≤ (storeScores db s.id).length ∧ (storeScores db s.id).length < 5 ∧
        (4 : ℚ) ≤ ((storeScores db s.id).sum : ℚ) / ((storeScores db s.id).length : ℚ)) →
      (∃ g ∈ recommendedCandidates db userId, g.key = (s.id, s.name, s.address)) ∧
      ((recommendedCandidates db userId).length ≤ 5 →
        ∃ g ∈ recommendedStoresQuery db userId, g.key = (s.id, s.name, s.address)) ∧
      (∀ g ∈ unratedStoresQuery db userId, g.key.1 ≠ s.id)) ∧
    ((5 ≤ (storeScores db s.id).length ∧
        ((storeScores db s.id).sum : ℚ) / ((storeScores db s.id).length : ℚ) < 4) →
      (∃ g ∈ unratedCandidates db userId, g.key = (s.id, s.name, s.address)) ∧
      ((unratedCandidates db userId).length ≤ 5 →
        ∃ g ∈ unratedStoresQuery db userId, g.key = (s.id, s.name, s.address)) ∧
      (∀ g ∈ recommendedStoresQuery db userId, g.key.1 ≠ s.id)) := by
  constructor
  · rintro ⟨h3, h5, h4⟩
    have hc : (⟨(s.id, s.name, s.address), storeScores db s.id⟩ :
        RatingGroup (Int × String × String)) ∈ recommendedCandidates db userId :=
      (mem_recommendedCandidates db userId hpk _).mpr ⟨s, hs, rfl, hnr, h3, h4⟩
    refine ⟨⟨_, hc, rfl⟩, fun hlen => ⟨⟨(s.id, s.name, s.address), storeScores db s.id⟩,
      mem_take_of_length_le rankedBefore (planSort db.plan.recommended (recommendedCandidates db userId))
        (by rw [length_planSort]; exact hlen) _ ((mem_planSort _ _ _).mpr hc), rfl⟩, ?_⟩
    intro g hg hid
    have hgc := (mem_planSort _ _ g).mp (mem_of_mem_take_insertionSort _ _ 5 g hg)
    obtain ⟨s', _, rfl, _, h5'⟩ := (mem_unratedCandidates db userId hpk g).mp hgc
    have : s'.id = s.id := hid
    rw [this] at h5'
    omega
  · rintro ⟨h5, h4⟩
    have hc : (⟨(s.id, s.name, s.address), storeScores db s.id⟩ :
        RatingGroup (Int × String × String)) ∈ unratedCandidates db userId :=
      (mem_unratedCandidates db userId hpk _).mpr ⟨s, hs, rfl, hnr, h5⟩
    refine ⟨⟨_, hc, rfl⟩, fun hlen => ⟨⟨(s.id, s.name, s.address), storeScores db s.id⟩,
      mem_take_of_length_le
        (fun a b : RatingGroup (Int × String × String) => a.total_ratings ≥ b.total_ratings)
        (planSort db.plan.unrated (unratedCandidates db userId))
        (by rw [length_planSort]; exact hlen) _ ((mem_planSort _ _ _).mpr hc), rfl⟩, ?_⟩
    intro g hg hid
    have hgc := (mem_planSort _ _ g).mp
      (mem_of_mem_take_insertionSort rankedBefore _ 5 g hg)
    obtain ⟨s', _, rfl, _, _, h4'⟩ := (mem_recommendedCandidates db userId hpk g).mp hgc
    have : s'.id = s.id := hid
    rw [this] at h4'
    exact absurd h4 (not_lt.mpr h4')

theorem threshold_split_witness :
    (∃ g ∈ unratedCandidates popularDb 1, g.key = (2, "Book Nook", "2 Side St")) ∧
    (∃ g ∈ unratedStoresQuery popularDb 1, g.key = (2, "Book Nook", "2 Side St")) ∧
    (∀ g ∈ recommendedStoresQuery popularDb 1, g.key.1 ≠ 2) :=
  (threshold_split popularDb 1 ⟨2, "Book Nook", "books@example.org", "2 Side St", none, 11⟩
    (by decide) (by decide) (by decide)).2
    ⟨by decide, by
      have : storeScores popularDb 2 = [1, 1, 1, 1, 1] := by decide
      rw [this]; norm_num⟩
    |>.imp_right (fun h => ⟨h.1 (by decide), h.2⟩)

/-! ## Joins and groups of the store listings -/

theorem exists_mem_leftJoin {α β : Type} (xs : List α) (ys : List β) (c : α → β → Bool)
    (x : α) (hx : x ∈ xs) : ∃ o, (x, o) ∈ leftJoin xs ys c := by
  by_cases h : ∀ y ∈ ys, ¬ c x y = true
  · exact ⟨none, (mem_leftJoin_none xs ys c x).mpr ⟨hx, h⟩⟩
  · push_neg at h
    obtain ⟨y, hy, hc⟩ := h
    exact ⟨some y, (mem_leftJoin_some xs ys c x y).mpr ⟨hx, hy, hc⟩⟩

theorem leftJoin_vals {α β : Type} (xs : List α) (ys : List β) (c : α → β → Bool)
    (val : β → Int) :
    (leftJoin xs ys c).filterMap (fun row => row.2.map val)
      = xs.flatMap (fun x => (ys.filter (c x)).map val) := by
  induction xs with
  | nil => rfl
  | cons x xs ih =>
    rw [leftJoin_cons, List.filterMap_append, ih, leftJoin_single_vals]
    rfl

theorem leftJoin_of_le_one {α β : Type} (xs : List α) (ys : List β) (c : α → β → Bool)
    (h : ∀ x ∈ xs, (ys.filter (c x)).length ≤ 1) :
    leftJoin xs ys c = xs.map (fun x => (x, (ys.filter (c x)).head?)) := by
  induction xs with
  | nil => rfl
  | cons x xs ih =>
    rw [leftJoin_cons, ih (fun a ha => h a (List.mem_cons_of_mem _ ha)), List.map_cons]
    have hx := h x (List.mem_cons_self _ _)
    cases hf : ys.filter (c x) with
    | nil =>
      rw [leftJoin_single_nil x ys c hf]
      rfl
    | cons y rest =>
      rw [hf] at hx
      have hrest : rest = [] := by
        cases rest with
        | nil => rfl
        | cons _ _ => simp at hx
      subst hrest
      rw [leftJoin_single_ne x ys c (by rw [hf]; simp), hf]
      rfl

theorem groupKeys_of_nodup {κ : Type} [DecidableEq κ] (ks : List κ) (h : ks.Nodup) :
    groupKeys ks = ks := by
  induction ks with
  | nil => rfl
  | cons k ks ih =>
    rw [List.nodup_cons] at h
    show k :: (groupKeys ks).filter (fun k' => decide (k' ≠ k)) = k :: ks
    rw [ih h.2, List.filter_eq_self.mpr]
    intro a ha
    rw [decide_eq_true_eq]
    rintro rfl
    exact h.1 ha

theorem groupKeys_append_same {κ : Type} [DecidableEq κ] (k : κ) (R T : List κ)
    (hR : R ≠ []) (hk : ∀ x ∈ R, x = k) : groupKeys (R ++ T) = groupKeys (k :: T) := by
  induction R with
  | nil => exact absurd rfl hR
  | cons x R ih =>
    have hx : x = k := hk x (List.mem_cons_self _ _)
    subst hx
    by_cases hR' : R = []
    · subst hR'
      rfl
    · have := ih hR' (fun y hy => hk y (List.mem_cons_of_mem _ hy))
      show x :: (groupKeys (R ++ T)).filter (fun k' => decide (k' ≠ x))
        = x :: (groupKeys T).filter (fun k' => decide (k' ≠ x))
      rw [this]
      show x :: (x :: (groupKeys T).filter (fun k' => decide (k' ≠ x))).filter
          (fun k' => decide (k' ≠ x)) = _
      rw [List.filter_cons, if_neg (by simp), List.filter_filter]
      congr 1
      apply List.filter_congr
      intro a _
      simp

theorem groupKeys_leftJoin_fst {α β κ : Type} [DecidableEq κ] (xs : List α) (ys : List β)
    (c : α → β → Bool) (f : α → κ) :
    groupKeys ((leftJoin xs ys c).map (fun row => f row.1)) = groupKeys (xs.map f) := by
  induction xs with
  | nil => rfl
  | cons x xs ih =>
    rw [leftJoin_cons, List.map_append, groupKeys_append_same (f x) _ _
      (by simpa using leftJoin_single_ne_nil x ys c)
      (fun k hk => by
        obtain ⟨row, hrow, rfl⟩ := List.mem_map.mp hk
        rw [leftJoin_single_fst x ys c row hrow])]
    show f x :: (groupKeys ((leftJoin xs ys c).map (fun row => f row.1))).filter _ = _
    rw [ih]
    rfl

theorem nodup_columns_of_ids (ss : List Store) (h : (ss.map (fun s => s.id)).Nodup) :
    (ss.map Store.columns).Nodup := by
  have : (ss.map Store.columns).map StoreColumns.id = ss.map (fun s => s.id) := by
    rw [List.map_map]
    rfl
  exact List.Nodup.of_map StoreColumns.id (this ▸ h)

theorem sum_flatMap_length {α β : Type} (xs : List α) (f : α → List β) :
    (xs.flatMap f).length = (xs.map (fun x => (f x).length)).sum := by
  induction xs with
  | nil => rfl
  | cons x xs ih =>
    show (f x ++ xs.flatMap f).length = _
    rw [List.length_append, ih]
    rfl

theorem sum_flatMap_sum {α : Type} (xs : List α) (f : α → List Int) :
    (xs.flatMap f).sum = (xs.map (fun x => (f x).sum)).sum := by
  induction xs with
  | nil => rfl
  | cons x xs ih =>
    show (f x ++ xs.flatMap f).sum = _
    rw [List.sum_append, ih]
    rfl

/-! ## The store owner dashboard -/

theorem ownerRows_eq (db : Db) (ownerId : Int) :
    ownerRows db ownerId
      = leftJoin (db.stores.filter (fun s => decide (s.owner_id = some ownerId))) db.ratings
          (fun s r => decide (s.id = r.store_id)) := by
  unfold ownerRows storesWithRatings
  exact filter_leftJoin_fst db.stores db.ratings _ (fun s => decide (s.owner_id = some ownerId))

theorem owned_ids_nodup (db : Db) (p : Store → Bool) (hpk : StoreIdsDistinct db) :
    ((db.stores.filter p).map (fun s => s.id)).Nodup :=
  List.Nodup.sublist ((List.filter_sublist _).map _) hpk

/-- Under the primary key of the store table, the groups of `storesQuery` are
the stores of the owner in table order, each with the scores of its ratings. -/
theorem ownerStoresGroups_eq (db : Db) (ownerId : Int) (hpk : StoreIdsDistinct db) :
    ownerStoresGroups db ownerId
      = (db.stores.filter (fun s => decide (s.owner_id = some ownerId))).map
          (fun s => ⟨s.columns, storeScores db s.id⟩) := by
  unfold ownerStoresGroups
  rw [ownerRows_eq, groupRows_leftJoin _ db.ratings _ Store.columns (fun r => r.rating)
    (nodup_columns_of_ids _ (owned_ids_nodup db _ hpk))]
  apply List.map_congr_left
  intro s _
  rw [storeScores_eq_filter]

theorem ownerScores_eq (db : Db) (ownerId : Int) :
    (ownerRows db ownerId).filterMap (fun row => row.2.map (fun r => r.rating))
      = (db.stores.filter (fun s => decide (s.owner_id = some ownerId))).flatMap
          (fun s => storeScores db s.id) := by
  rw [ownerRows_eq, leftJoin_vals]
  congr 1
  funext s
  exact storeScores_eq_filter db s.id

theorem count_mul_average {κ : Type} (g : RatingGroup κ) :
    (g.total_ratings : ℚ) * g.average_rating = (g.scores.sum : ℚ) := by
  unfold RatingGroup.total_ratings RatingGroup.average_rating sqlAvg
  by_cases h : g.scores.length = 0
  · rw [if_pos h]
    have : g.scores = [] := List.length_eq_zero.mp h
    simp [this]
  · rw [if_neg h]
    have : (g.scores.length : ℚ) ≠ 0 := by exact_mod_cast h
    simp only [Option.getD_some]
    field_simp

/-- C25: in the store owner dashboard, under the primary key of the store table,
`total_ratings_received` is the sum of `total_ratings` over the rows of the
per-store list, `total_stores` is the number of stores of the owner (a store
without rating counts, with `total_ratings` 0), and the overall average is 0
when there is no rating and else the count-weighted mean of the per-store
averages, the sum of count times average over the sum of the counts. -/
theorem owner_dashboard_totals (nameLe : String → String → Bool) (db : Db) (ownerId : Int)
    (hpk : StoreIdsDistinct db) :
    (overallStatsQuery db ownerId).total_ratings_received
      = ((ownerStoresQuery nameLe db ownerId).map (fun g => g.total_ratings)).sum ∧
    (overallStatsQuery db ownerId).total_stores
      = (db.stores.filter (fun s => decide (s.owner_id = some ownerId))).length ∧
    (ownerStoresQuery nameLe db ownerId).length
      = (db.stores.filter (fun s => decide (s.owner_id = some ownerId))).length ∧
    (∀ s ∈ db.stores, s.owner_id = some ownerId →
      (⟨s.columns, storeScores db s.id⟩ : RatingGroup StoreColumns)
        ∈ ownerStoresQuery nameLe db ownerId) ∧
    ((overallStatsQuery db ownerId).total_ratings_received = 0 →
      (overallStatsQuery db ownerId).overall_average_rating = 0) ∧
    (0 < (overallStatsQuery db ownerId).total_ratings_received →
      (overallStatsQuery db ownerId).overall_average_rating
        = ((ownerStoresQuery nameLe db ownerId).map
            (fun g => (g.total_ratings : ℚ) * g.average_rating)).sum
          / ((((ownerStoresQuery nameLe db ownerId).map
            (fun g => g.total_ratings)).sum : Nat) : ℚ)) := by
  have hperm : (ownerStoresQuery nameLe db ownerId).Perm
      ((db.stores.filter (fun s => decide (s.owner_id = some ownerId))).map
        (fun s => (⟨s.columns, storeScores db s.id⟩ : RatingGroup StoreColumns))) := by
    unfold ownerStoresQuery
    rw [← ownerStoresGroups_eq db ownerId hpk]
    exact List.perm_insertionSort _ _
  have hcount : ((ownerStoresQuery nameLe db ownerId).map (fun g => g.total_ratings)).sum
      = ((db.stores.filter (fun s => decide (s.owner_id = some ownerId))).flatMap
          (fun s => storeScores db s.id)).length := by
    rw [(hperm.map _).sum_eq, List.map_map, sum_flatMap_length]
    rfl
  have hsum : ((ownerStoresQuery nameLe db ownerId).map
        (fun g => (g.total_ratings : ℚ) * g.average_rating)).sum
      = ((((db.stores.filter (fun s => decide (s.owner_id = some ownerId))).flatMap
          (fun s => storeScores db s.id)).sum : Int) : ℚ) := by
    rw [(hperm.map _).sum_eq, List.map_map, sum_flatMap_sum]
    have : ∀ L : List Store,
        (L.map ((fun g : RatingGroup StoreColumns => (g.total_ratings : ℚ) * g.average_rating) ∘
          (fun s => (⟨s.columns, storeScores db s.id⟩ : RatingGroup StoreColumns)))).sum
        = (((L.map (fun s => (storeScores db s.id).sum)).sum : Int) : ℚ) := by
      intro L
      induction L with
      | nil => simp
      | cons a L ih =>
        rw [List.map_cons, List.sum_cons, ih, List.map_cons, List.sum_cons, Int.cast_add]
        congr 1
        exact count_mul_average _
    exact this _
  have hrecv : (overallStatsQuery db ownerId).total_ratings_received
      = ((db.stores.filter (fun s => decide (s.owner_id = some ownerId))).flatMap
          (fun s => storeScores db s.id)).length := by
    show ((ownerRows db ownerId).filterMap (fun row => row.2.map (fun r => r.rating))).length = _
    rw [ownerScores_eq]
  have havg : (overallStatsQuery db ownerId).overall_average_rating
      = (sqlAvg ((db.stores.filter (fun s => decide (s.owner_id = some ownerId))).flatMap
          (fun s => storeScores db s.id))).getD 0 := by
    show (sqlAvg ((ownerRows db ownerId).filterMap
      (fun row => row.2.map (fun r => r.rating)))).getD 0 = _
    rw [ownerScores_eq]
  refine ⟨hrecv.trans hcount.symm, ?_, ?_, ?_, ?_, ?_⟩
  · show (groupKeys ((ownerRows db ownerId).map (fun row => row.1.id))).length = _
    rw [ownerRows_eq, groupKeys_leftJoin_fst _ db.ratings _ (fun s : Store => s.id),
      groupKeys_of_nodup _ (owned_ids_nodup db _ hpk), List.length_map]
  · rw [hperm.length_eq, List.length_map]
  · intro s hs ho
    exact hperm.mem_iff.mpr (List.mem_map.mpr
      ⟨s, List.mem_filter.mpr ⟨hs, by simpa using ho⟩, rfl⟩)
  · intro h0
    rw [havg]
    rw [hrecv] at h0
    unfold sqlAvg
    rw [if_pos h0]
    rfl
  · intro hpos
    rw [havg, hsum, hcount]
    rw [hrecv] at hpos
    unfold sqlAvg
    rw [if_neg (by omega)]
    rfl

theorem owner_dashboard_totals_witness :
    (overallStatsQuery ownerDb 2).total_ratings_received = 3 ∧
    (overallStatsQuery ownerDb 2).total_stores = 3 ∧
    (ownerStoresQuery (fun a b => decide (a.data ≤ b.data)) ownerDb 2).map (fun g => g.scores)
      = [[5], [], [1, 1]] ∧
    (overallStatsQuery ownerDb 2).overall_average_rating = 7 / 3 :=
  have h := owner_dashboard_totals (fun a b => decide (a.data ≤ b.data)) ownerDb 2 (by decide)
  have hq : ownerStoresQuery (fun a b => decide (a.data ≤ b.data)) ownerDb 2
      = [⟨⟨1, "Corner Shop", "corner@example.org", "1 Main St", 10⟩, [5]⟩,
         ⟨⟨4, "Empty Lot", "lot@example.org", "4 Back Ln", 13⟩, []⟩,
         ⟨⟨3, "Tea House", "tea@example.org", "3 Hill Rd", 12⟩, [1, 1]⟩] := by decide
  ⟨h.1.trans (by decide), h.2.1.trans (by decide), by rw [hq]; rfl,
   (h.2.2.2.2.2 (by rw [h.1]; decide)).trans (by
      rw [hq]
      simp only [List.map_cons, List.map_nil, List.sum_cons, List.sum_nil,
        RatingGroup.total_ratings, RatingGroup.average_rating, sqlAvg, List.length_cons,
        List.length_nil]
      norm_num)⟩

/-! ## Raters of the stores of an owner -/

theorem ratingUsersRows_eq (db : Db) (ownerId : Int) :
    ratingUsersRows db ownerId
      = leftJoin (ownerRows db ownerId) db.users
          (fun row u => match row.2 with
            | some r => decide (r.user_id = u.id)
            | none => false) := by
  unfold ratingUsersRows ownerRows
  exact filter_leftJoin_fst (storesWithRatings db) db.users _
    (fun row => decide (row.1.owner_id = some ownerId))

theorem ratingUsersKeys_eq (db : Db) (ownerId : Int) (hpk : StoreIdsDistinct db) :
    groupKeys ((ratingUsersRows db ownerId).map (fun row => (row.1.1.id, row.1.1.name)))
      = (db.stores.filter (fun s => decide (s.owner_id = some ownerId))).map
          (fun s => (s.id, s.name)) := by
  rw [ratingUsersRows_eq,
    groupKeys_leftJoin_fst (ownerRows db ownerId) db.users _
      (fun sr : Store × Option Rating => (sr.1.id, sr.1.name)),
    ownerRows_eq,
    groupKeys_leftJoin_fst _ db.ratings _ (fun s : Store => (s.id, s.name))]
  apply groupKeys_of_nodup
  have : ((db.stores.filter (fun s => decide (s.owner_id = some ownerId))).map
      (fun s => (s.id, s.name))).map Prod.fst
      = (db.stores.filter (fun s => decide (s.owner_id = some ownerId))).map (fun s => s.id) := by
    rw [List.map_map]
    rfl
  exact List.Nodup.of_map Prod.fst (this ▸ owned_ids_nodup db _ hpk)

/-- The values of `r.user_id` in a group of `ratingUsersQuery` are the raters of
the store of the group. -/
theorem mem_ratingUsers_scores (db : Db) (ownerId : Int) (g : RatingGroup (Int × String))
    (hg : g ∈ ratingUsersGroups db ownerId) (u : Int) :
    u ∈ g.scores ↔ ∃ r ∈ db.ratings, r.store_id = g.key.1 ∧ r.user_id = u := by
  unfold ratingUsersGroups at hg
  obtain ⟨⟨row0, hrow0, hkey0⟩, hsc⟩ := (mem_groupRows _ _ _ g).mp hg
  rw [hsc, List.mem_filterMap]
  rw [ratingUsersRows_eq] at hrow0 ⊢
  constructor
  · rintro ⟨row, hrow, hval⟩
    rw [List.mem_filter, decide_eq_true_eq] at hrow
    obtain ⟨hmem, hkey⟩ := hrow
    have h1 := leftJoin_fst_mem _ _ _ row hmem
    obtain ⟨⟨s, o⟩, ou⟩ := row
    cases o with
    | none => simp at hval
    | some r =>
      simp only [Option.map_some', Option.some.injEq] at hval
      rw [ownerRows_eq] at h1
      have h2 := (mem_leftJoin_some _ _ _ s r).mp h1
      refine ⟨r, h2.2.1, ?_, hval⟩
      have hid : s.id = g.key.1 := congrArg Prod.fst hkey
      have := h2.2.2
      rw [decide_eq_true_eq] at this
      rw [← this, hid]
  · rintro ⟨r, hr, hsid, hu⟩
    have h1 := leftJoin_fst_mem _ _ _ row0 hrow0
    have hid : row0.1.1.id = g.key.1 := congrArg Prod.fst hkey0
    have hmem : (row0.1.1, some r) ∈ ownerRows db ownerId := by
      rw [ownerRows_eq] at h1 ⊢
      have h0 := leftJoin_fst_mem _ _ _ row0.1 h1
      exact (mem_leftJoin_some _ _ _ _ r).mpr ⟨h0, hr, by rw [decide_eq_true_eq, hid, hsid]⟩
    obtain ⟨o, ho⟩ := exists_mem_leftJoin (ownerRows db ownerId) db.users
      (fun row u => match row.2 with
        | some r => decide (r.user_id = u.id)
        | none => false) (row0.1.1, some r) hmem
    refine ⟨((row0.1.1, some r), o), List.mem_filter.mpr ⟨ho, ?_⟩, by simp [hu]⟩
    rw [decide_eq_true_eq]
    exact hkey0

theorem raters_nodup (rs : List Rating) (h : UniquePerPair rs) (sid : Int) :
    ((rs.filter (fun r => decide (r.store_id = sid))).map (fun r => r.user_id)).Nodup := by
  have h1 : (rs.filter (fun r => decide (r.store_id = sid))).Pairwise
      (fun a b => ¬ (a.user_id = b.user_id ∧ a.store_id = b.store_id)) :=
    List.Pairwise.sublist (List.filter_sublist _) h
  unfold List.Nodup
  rw [List.pairwise_map]
  refine List.Pairwise.imp_of_mem ?_ h1
  intro a b ha hb hab heq
  have ha2 := (List.mem_filter.mp ha).2
  have hb2 := (List.mem_filter.mp hb).2
  rw [decide_eq_true_eq] at ha2 hb2
  exact hab ⟨heq, ha2.trans hb2.symm⟩

theorem uniqueRaters_eq (db : Db) (ownerId : Int) (g : RatingGroup (Int × String))
    (hu : UniquePerPair db.ratings) (hg : g ∈ ratingUsersGroups db ownerId) :
    uniqueRaters g = (storeScores db g.key.1).length := by
  unfold uniqueRaters storeScores
  have e : (db.ratings.filter (fun r => decide (r.store_id = g.key.1))).length
      = ((db.ratings.filter (fun r => decide (r.store_id = g.key.1))).map
          (fun r => r.user_id)).length := (List.length_map _ _).symm
  rw [List.length_map, e]
  apply List.Perm.length_eq
  rw [List.perm_ext_iff_of_nodup (nodup_groupKeys _) (raters_nodup db.ratings hu g.key.1)]
  intro u
  rw [mem_groupKeys, mem_ratingUsers_scores db ownerId g hg u, List.mem_map]
  constructor
  · rintro ⟨r, hr, hs, hu⟩
    exact ⟨r, List.mem_filter.mpr ⟨hr, by simpa using hs⟩, hu⟩
  · rintro ⟨r, hr, hu⟩
    rw [List.mem_filter, decide_eq_true_eq] at hr
    exact ⟨r, hr.1, hr.2, hu⟩

/-- C27: under the uniqueness invariant and the primary key of the store table,
`ratingUsersQuery` has one row for each store of the owner, the
`unique_raters` of the row of a store is the number of ratings of the store,
which is the `total_ratings` of the store in the per-store list (0 for a store
without rating), and the `unique_raters` of all rows sum to
`total_ratings_received`. -/
theorem unique_raters_are_counts (db : Db) (ownerId : Int) (hpk : StoreIdsDistinct db)
    (hu : UniquePerPair db.ratings) :
    (ratingUsersGroups db ownerId).map (fun g => g.key)
      = (db.stores.filter (fun s => decide (s.owner_id = some ownerId))).map
          (fun s => (s.id, s.name)) ∧
    (∀ s ∈ db.stores, s.owner_id = some ownerId →
      ∃ g ∈ ratingUsersGroups db ownerId, ∃ g' ∈ ownerStoresGroups db ownerId,
        g.key = (s.id, s.name) ∧ g'.key = s.columns ∧
        uniqueRaters g = g'.total_ratings ∧
        g'.total_ratings = (storeScores db s.id).length) ∧
    (∀ g ∈ ratingUsersGroups db ownerId, ∀ g' ∈ ownerStoresGroups db ownerId,
      g.key.1 = g'.key.id → uniqueRaters g = g'.total_ratings) ∧
    ((ratingUsersGroups db ownerId).map uniqueRaters).sum
      = (overallStatsQuery db ownerId).total_ratings_received := by
  have hG : ratingUsersGroups db ownerId
      = (db.stores.filter (fun s => decide (s.owner_id = some ownerId))).map
          (fun s => (⟨(s.id, s.name),
            ((ratingUsersRows db ownerId).filter
              (fun row => decide ((row.1.1.id, row.1.1.name) = (s.id, s.name)))).filterMap
              (fun row => row.1.2.map (fun r => r.user_id))⟩ : RatingGroup (Int × String))) := by
    unfold ratingUsersGroups groupRows
    rw [ratingUsersKeys_eq db ownerId hpk, List.map_map]
    rfl
  have hkeys : (ratingUsersGroups db ownerId).map (fun g => g.key)
      = (db.stores.filter (fun s => decide (s.owner_id = some ownerId))).map
          (fun s => (s.id, s.name)) := by
    rw [hG, List.map_map]
    rfl
  have hown := ownerStoresGroups_eq db ownerId hpk
  have hcnt : ∀ g' ∈ ownerStoresGroups db ownerId,
      g'.total_ratings = (storeScores db g'.key.id).length := by
    intro g' hg'
    rw [hown] at hg'
    obtain ⟨s, _, rfl⟩ := List.mem_map.mp hg'
    rfl
  refine ⟨hkeys, ?_, ?_, ?_⟩
  · intro s hs ho
    have hso : s ∈ db.stores.filter (fun s => decide (s.owner_id = some ownerId)) :=
      List.mem_filter.mpr ⟨hs, by simpa using ho⟩
    have hk : (s.id, s.name) ∈ (ratingUsersGroups db ownerId).map (fun g => g.key) := by
      rw [hkeys]
      exact List.mem_map.mpr ⟨s, hso, rfl⟩
    obtain ⟨g, hg, hgk⟩ := List.mem_map.mp hk
    refine ⟨g, hg, ⟨s.columns, storeScores db s.id⟩, ?_, hgk, rfl, ?_, rfl⟩
    · rw [hown]
      exact List.mem_map.mpr ⟨s, hso, rfl⟩
    · rw [uniqueRaters_eq db ownerId g hu hg, hgk]
      rfl
  · intro g hg g' hg' hid
    rw [uniqueRaters_eq db ownerId g hu hg, hcnt g' hg', hid]
  · have hmap : (ratingUsersGroups db ownerId).map uniqueRaters
        = (db.stores.filter (fun s => decide (s.owner_id = some ownerId))).map
            (fun s => (storeScores db s.id).length) := by
      have hall : ∀ g ∈ ratingUsersGroups db ownerId,
          uniqueRaters g = (storeScores db g.key.1).length :=
        fun g hg => uniqueRaters_eq db ownerId g hu hg
      have hsplit : (ratingUsersGroups db ownerId).map
            (fun g => (storeScores db g.key.1).length)
          = ((ratingUsersGroups db ownerId).map (fun g => g.key)).map
              (fun k => (storeScores db k.1).length) := by
        rw [List.map_map]
        rfl
      rw [List.map_congr_left hall, hsplit, hkeys, List.map_map]
      rfl
    rw [hmap, ← sum_flatMap_length]
    show _ = ((ownerRows db ownerId).filterMap (fun row => row.2.map (fun r => r.rating))).length
    rw [ownerScores_eq]

theorem unique_raters_are_counts_witness :
    (ratingUsersGroups ownerDb 2).map (fun g => g.key)
      = [(1, "Corner Shop"), (3, "Tea House"), (4, "Empty Lot")] ∧
    (ratingUsersGroups ownerDb 2).map uniqueRaters = [1, 2, 0] ∧
    (ownerStoresGroups ownerDb 2).map (fun g => g.total_ratings) = [1, 2, 0] ∧
    ((ratingUsersGroups ownerDb 2).map uniqueRaters).sum
      = (overallStatsQuery ownerDb 2).total_ratings_received :=
  have h := unique_raters_are_counts ownerDb 2 (by decide) (by decide)
  ⟨h.1.trans (by decide), by decide, by decide, h.2.2.2⟩

/-! ## One row for each store in the store listings -/

theorem storeListRows_eq (db : Db) (userId : Int) (flt : Store → Bool) :
    storeListRows db userId flt
      = leftJoin (leftJoin (db.stores.filter flt) db.ratings
            (fun s r => decide (s.id = r.store_id))) db.ratings
          (fun row ur => decide (row.1.id = ur.store_id ∧ ur.user_id = userId)) := by
  unfold storeListRows storesWithRatings
  rw [filter_leftJoin_fst (leftJoin db.stores db.ratings (fun s r => decide (s.id = r.store_id)))
    db.ratings _ (fun sr => flt sr.1),
    filter_leftJoin_fst db.stores db.ratings _ flt]

theorem own_filter_eq (db : Db) (userId sid : Int) :
    db.ratings.filter (fun ur => decide (sid = ur.store_id ∧ ur.user_id = userId))
      = selectExisting db userId sid := by
  unfold selectExisting matchesUserStore
  apply List.filter_congr
  intro r _
  apply Bool.decide_congr
  constructor
  · rintro ⟨h1, h2⟩
    exact ⟨h2, h1.symm⟩
  · rintro ⟨h1, h2⟩
    exact ⟨h2.symm, h1⟩

/-- Under the uniqueness invariant and the primary key of the store table, the
groups of the store listing are the stores that pass the filter, in table
order, each with the score of the caller (if any) and the scores of its
ratings. -/
theorem storeListGroups_eq (db : Db) (userId : Int) (flt : Store → Bool)
    (hpk : StoreIdsDistinct db) (hu : UniquePerPair db.ratings) :
    storeListGroups db userId flt
      = (db.stores.filter flt).map (fun s =>
          ⟨⟨s.columns, (selectExisting db userId s.id).head?.map (fun ur => ur.rating)⟩,
            storeScores db s.id⟩) := by
  unfold storeListGroups
  rw [storeListRows_eq, leftJoin_of_le_one _ db.ratings _ (fun sr _ => by
    rw [own_filter_eq db userId sr.1.id]
    exact (uniquePerPair_iff db.ratings).mp hu userId sr.1.id), groupRows_map]
  have hnd : ((db.stores.filter flt).map (fun s : Store =>
      (⟨s.columns, (selectExisting db userId s.id).head?.map (fun ur => ur.rating)⟩ :
        StoreListKey))).Nodup := by
    have : ((db.stores.filter flt).map (fun s : Store =>
        (⟨s.columns, (selectExisting db userId s.id).head?.map (fun ur => ur.rating)⟩ :
          StoreListKey))).map (fun k => k.store.id)
        = (db.stores.filter flt).map (fun s => s.id) := by
      rw [List.map_map]
      rfl
    exact List.Nodup.of_map (fun k : StoreListKey => k.store.id)
      (this ▸ owned_ids_nodup db flt hpk)
  have hrw := groupRows_leftJoin (db.stores.filter flt) db.ratings
    (fun s r => decide (s.id = r.store_id))
    (fun s : Store =>
      (⟨s.columns, (selectExisting db userId s.id).head?.map (fun ur => ur.rating)⟩ :
        StoreListKey))
    (fun r => r.rating) hnd
  have hkey : (fun x : Store × Option Rating =>
        (⟨x.1.columns, (db.ratings.filter
          (fun ur => decide (x.1.id = ur.store_id ∧ ur.user_id = userId))).head?.map
            (fun ur => ur.rating)⟩ : StoreListKey))
      = (fun row => (⟨row.1.columns,
          (selectExisting db userId row.1.id).head?.map (fun ur => ur.rating)⟩ :
            StoreListKey)) := by
    funext x
    rw [own_filter_eq]
  rw [hkey, hrw]
  apply List.map_congr_left
  intro s _
  rw [storeScores_eq_filter]

theorem own_score_iff (db : Db) (userId sid : Int) (hu : UniquePerPair db.ratings) :
    (∀ v, (selectExisting db userId sid).head?.map (fun ur => ur.rating) = some v ↔
      ∃ r ∈ db.ratings, r.user_id = userId ∧ r.store_id = sid ∧ r.rating = v) ∧
    ((selectExisting db userId sid).head?.map (fun ur => ur.rating) = none ↔
      ∀ r ∈ db.ratings, ¬ (r.user_id = userId ∧ r.store_id = sid)) := by
  constructor
  · intro v
    constructor
    · intro h
      cases hsel : selectExisting db userId sid with
      | nil => rw [hsel] at h; simp at h
      | cons r rest =>
        rw [hsel] at h
        simp only [List.head?_cons, Option.map_some', Option.some.injEq] at h
        have hm := selectExisting_mem db userId sid r (by rw [hsel]; exact List.mem_cons_self _ _)
        exact ⟨r, hm.1, hm.2.1, hm.2.2, h⟩
    · rintro ⟨r, hr, h1, h2, h3⟩
      rw [selectExisting_eq_singleton db userId sid r hu hr ⟨h1, h2⟩]
      simp [h3]
  · rw [← selectExisting_eq_nil_iff]
    cases selectExisting db userId sid with
    | nil => simp
    | cons r rest => simp

/-- C26: under the uniqueness invariant and the primary key of the store table,
the store listing has exactly one row for each store that passes its filter,
in table order, with the scores of all ratings of the store (so
`total_ratings` is their number and `average_rating` their mean, 0 when there
is none) and with `user_rating` the score of the caller on the store, or null
when the caller has none; the store detail answers with that row; the
recommended and unrated queries have one group for each store the caller has
not rated, with the scores of all its ratings. Without uniqueness the view
changes: when user 1 has the scores 5 and 3 on store 1 the listing has two
rows for store 1, and when user 1 has the score 4 twice the row of store 1
counts four ratings where the store has two. -/
theorem store_listing_rows (db : Db) (userId : Int) (flt : Store → Bool)
    (hpk : StoreIdsDistinct db) (hu : UniquePerPair db.ratings) :
    storeListGroups db userId flt
      = (db.stores.filter flt).map (fun s =>
          ⟨⟨s.columns, (selectExisting db userId s.id).head?.map (fun ur => ur.rating)⟩,
            storeScores db s.id⟩) ∧
    (∀ g ∈ storeListGroups db userId flt,
      g.total_ratings = (storeScores db g.key.store.id).length ∧
      g.average_rating = (sqlAvg (storeScores db g.key.store.id)).getD 0 ∧
      (g.scores ≠ [] → g.average_rating = (g.scores.sum : ℚ) / (g.scores.length : ℚ)) ∧
      (∀ v, g.key.user_rating = some v ↔
        ∃ r ∈ db.ratings, r.user_id = userId ∧ r.store_id = g.key.store.id ∧ r.rating = v) ∧
      (g.key.user_rating = none ↔
        ∀ r ∈ db.ratings, ¬ (r.user_id = userId ∧ r.store_id = g.key.store.id))) ∧
    (∀ reqUser : User, ∀ s ∈ db.stores, ∃ g, getStoreById db reqUser s.id = .ok g ∧
      g.key.store.id = s.id ∧ g.scores = storeScores db s.id) ∧
    notRatedGroups db userId
      = (db.stores.filter (fun s => (db.ratings.filter
            (fun ur => decide (s.id = ur.store_id ∧ ur.user_id = userId))).isEmpty)).map
          (fun s => ⟨(s.id, s.name, s.address), storeScores db s.id⟩) ∧
    (¬ UniquePerPair dupDb.ratings ∧
      storeListGroups dupDb 1 (fun _ => true)
        = [⟨⟨⟨1, "Corner Shop", "corner@example.org", "1 Main St", 10⟩, some 5⟩, [5, 3]⟩,
           ⟨⟨⟨1, "Corner Shop", "corner@example.org", "1 Main St", 10⟩, some 3⟩, [5, 3]⟩,
           ⟨⟨⟨2, "Book Nook", "books@example.org", "2 Side St", 11⟩, none⟩, []⟩] ∧
      storeListGroups dupSameDb 1 (fun _ => true)
        = [⟨⟨⟨1, "Corner Shop", "corner@example.org", "1 Main St", 10⟩, some 4⟩, [4, 4, 4, 4]⟩,
           ⟨⟨⟨2, "Book Nook", "books@example.org", "2 Side St", 11⟩, none⟩, []⟩] ∧
      storeScores dupSameDb 1 = [4, 4]) := by
  have hall : ∀ (u : Int) (f : Store → Bool), ∀ g ∈ storeListGroups db u f,
      ∃ s ∈ db.stores, f s = true ∧ g = ⟨⟨s.columns,
        (selectExisting db u s.id).head?.map (fun ur => ur.rating)⟩, storeScores db s.id⟩ := by
    intro u f g hg
    rw [storeListGroups_eq db u f hpk hu] at hg
    obtain ⟨s, hs, rfl⟩ := List.mem_map.mp hg
    exact ⟨s, (List.mem_filter.mp hs).1, (List.mem_filter.mp hs).2, rfl⟩
  refine ⟨storeListGroups_eq db userId flt hpk hu, ?_, ?_, notRatedGroups_eq db userId hpk,
    by decide, by decide, by decide, by decide⟩
  · intro g hg
    obtain ⟨s, _, _, rfl⟩ := hall userId flt g hg
    refine ⟨rfl, rfl, ?_, (own_score_iff db userId s.id hu).1, (own_score_iff db userId s.id hu).2⟩
    intro hne
    show (sqlAvg (storeScores db s.id)).getD 0 = _
    unfold sqlAvg
    rw [if_neg (fun h => hne (List.length_eq_zero.mp h))]
    rfl
  · intro reqUser s hs
    have hne : (db.stores.filter (fun x => decide (x.id = s.id))) ≠ [] :=
      List.ne_nil_of_mem (List.mem_filter.mpr ⟨hs, by simp⟩)
    cases hl : storeListGroups db reqUser.id (fun x => decide (x.id = s.id)) with
    | nil =>
      rw [storeListGroups_eq db reqUser.id _ hpk hu] at hl
      exact absurd (List.map_eq_nil_iff.mp hl) hne
    | cons g rest =>
      obtain ⟨s', _, hid, rfl⟩ := hall reqUser.id _ g (by rw [hl]; exact List.mem_cons_self _ _)
      rw [decide_eq_true_eq] at hid
      refine ⟨⟨⟨s'.columns,
        (selectExisting db reqUser.id s'.id).head?.map (fun ur => ur.rating)⟩,
        storeScores db s'.id⟩, ?_, hid, ?_⟩
      · unfold getStoreById
        rw [hl]
      · show storeScores db s'.id = storeScores db s.id
        rw [hid]

theorem store_listing_rows_witness :
    storeListGroups statsDb 1 (fun _ => true)
      = [⟨⟨⟨1, "Corner Shop", "corner@example.org", "1 Main St", 10⟩, some 5⟩, [5, 5, 4, 3, 1]⟩,
         ⟨⟨⟨2, "Book Nook", "books@example.org", "2 Side St", 11⟩, none⟩, []⟩] :=
  (store_listing_rows statsDb 1 (fun _ => true) (by decide) (by decide)).1.trans (by decide)

/-! ## Which stores a store owner is shown -/

theorem exists_mem_storeListRows (db : Db) (userId : Int) (flt : Store → Bool) (s : Store)
    (hs : s ∈ db.stores) (hf : flt s = true) :
    ∃ row ∈ storeListRows db userId flt, row.1.1 = s := by
  obtain ⟨o, ho⟩ := exists_mem_leftJoin db.stores db.ratings
    (fun s r => decide (s.id = r.store_id)) s hs
  obtain ⟨o', ho'⟩ := exists_mem_leftJoin (storesWithRatings db) db.ratings
    (fun row ur => decide (row.1.id = ur.store_id ∧ ur.user_id = userId)) (s, o) ho
  exact ⟨((s, o), o'), List.mem_filter.mpr ⟨ho', hf⟩, rfl⟩

theorem storeListRows_store_mem (db : Db) (userId : Int) (flt : Store → Bool)
    (row : (Store × Option Rating) × Option Rating) (h : row ∈ storeListRows db userId flt) :
    row.1.1 ∈ db.stores ∧ flt row.1.1 = true := by
  unfold storeListRows at h
  rw [List.mem_filter] at h
  exact ⟨leftJoin_fst_mem _ _ _ _ (leftJoin_fst_mem _ _ _ _ h.1), h.2⟩

theorem getStoreStats_ok (parseFloat : ℚ → ℚ) (db : Db) (reqUser : User) (storeId : Int)
    (st : StoreStats) (h : getStoreStats parseFloat db reqUser storeId = .ok st) :
    reqUser.role = "store_owner" ∧
      ∃ s ∈ db.stores, s.id = storeId ∧ s.owner_id = some reqUser.id := by
  unfold getStoreStats authorizeRoles at h
  by_cases hrole : reqUser.role = "store_owner"
  · refine ⟨hrole, ?_⟩
    simp only [hrole, List.contains_cons, List.contains_nil, Bool.or_false, beq_self_eq_true,
      if_true] at h
    cases hf : db.stores.filter (fun s => decide (s.id = storeId)) with
    | nil => rw [hf] at h; simp at h
    | cons x rest =>
      rw [hf] at h
      have hx : x ∈ db.stores.filter (fun s => decide (s.id = storeId)) := by
        rw [hf]; exact List.mem_cons_self _ _
      rw [List.mem_filter, decide_eq_true_eq] at hx
      by_cases ho : x.owner_id = some reqUser.id
      · exact ⟨x, hx.1, hx.2, ho⟩
      · simp [ho] at h
  · simp [hrole] at h

/-- C24, as the claim states it, fails for the store listing and the store
detail: Ravi, a store owner, owns the stores 1, 3 and 4; store 2 has no owner
and one rating of 4, and both reads show Ravi its aggregate. -/
theorem owner_sees_other_store_counterexample :
    (ownerDb.stores.filter (fun s => decide (s.id = 2))).map (fun s => s.owner_id) = [none] ∧
    getStoreById ownerDb ⟨2, "Ravi", "ravi@example.org", "store_owner", 2⟩ 2
      = .ok ⟨⟨⟨2, "Book Nook", "books@example.org", "2 Side St", 11⟩, none⟩, [4]⟩ ∧
    (⟨⟨⟨2, "Book Nook", "books@example.org", "2 Side St", 11⟩, none⟩, [4]⟩ :
      RatingGroup StoreListKey) ∈ storeListGroups ownerDb 2 (fun _ => true) :=
  ⟨by decide, rfl, by decide⟩

/-- C24 (amended): for an identity with the role `store_owner`, the reads scoped
to the owner show owned stores only: every row of the owner listing is a store
whose `owner_id` is the id of the identity, and the statistics route answers
with statistics only for a store of the identity (and does so whenever the
store row found has that owner). The store listing and the store detail are
not scoped: the listing has a row for every store that passes its filter, and
the detail answers with a row for every store, whoever owns it. -/
theorem owner_scope (db : Db) (reqUser : User) (hrole : reqUser.role = "store_owner") :
    (∀ g ∈ ownerStoresGroups db reqUser.id,
      ∃ s ∈ db.stores, s.owner_id = some reqUser.id ∧ g.key = s.columns) ∧
    (∀ (parseFloat : ℚ → ℚ) (storeId : Int) (st : StoreStats),
      getStoreStats parseFloat db reqUser storeId = .ok st →
        ∃ s ∈ db.stores, s.id = storeId ∧ s.owner_id = some reqUser.id) ∧
    (∀ (parseFloat : ℚ → ℚ) (storeId : Int) (s : Store) (rest : List Store),
      db.stores.filter (fun x => decide (x.id = storeId)) = s :: rest →
      s.owner_id = some reqUser.id →
        getStoreStats parseFloat db reqUser storeId = .ok (storeStats parseFloat db storeId)) ∧
    (∀ (flt : Store → Bool), ∀ s ∈ db.stores, flt s = true →
      ∃ g ∈ storeListGroups db reqUser.id flt, g.key.store = s.columns) ∧
    (∀ s ∈ db.stores, ∃ g, getStoreById db reqUser s.id = .ok g ∧ g.key.store.id = s.id) := by
  have hlist : ∀ (flt : Store → Bool), ∀ s ∈ db.stores, flt s = true →
      ∃ g ∈ storeListGroups db reqUser.id flt, g.key.store = s.columns := by
    intro flt s hs hf
    obtain ⟨row, hrow, hrs⟩ := exists_mem_storeListRows db reqUser.id flt s hs hf
    refine ⟨⟨⟨row.1.1.columns, row.2.map (fun ur => ur.rating)⟩,
      ((storeListRows db reqUser.id flt).filter (fun r => decide
        ((⟨r.1.1.columns, r.2.map (fun ur => ur.rating)⟩ : StoreListKey)
          = ⟨row.1.1.columns, row.2.map (fun ur => ur.rating)⟩))).filterMap
        (fun r => r.1.2.map (fun x => x.rating))⟩,
      (mem_groupRows _ _ _ _).mpr ⟨⟨row, hrow, rfl⟩, rfl⟩, ?_⟩
    show row.1.1.columns = s.columns
    rw [hrs]
  refine ⟨?_, ?_, ?_, hlist, ?_⟩
  · intro g hg
    unfold ownerStoresGroups at hg
    obtain ⟨⟨row, hrow, hkey⟩, _⟩ := (mem_groupRows _ _ _ g).mp hg
    unfold ownerRows at hrow
    rw [List.mem_filter, decide_eq_true_eq] at hrow
    exact ⟨row.1, leftJoin_fst_mem _ _ _ _ hrow.1, hrow.2, hkey.symm⟩
  · intro parseFloat storeId st h
    exact (getStoreStats_ok parseFloat db reqUser storeId st h).2
  · intro parseFloat storeId s rest hf ho
    unfold getStoreStats authorizeRoles
    simp only [hrole, List.contains_cons, List.contains_nil, Bool.or_false, beq_self_eq_true,
      if_true]
    rw [hf]
    simp [ho]
  · intro s hs
    obtain ⟨g, hg, _⟩ := hlist (fun x => decide (x.id = s.id)) s hs (by simp)
    cases hl : storeListGroups db reqUser.id (fun x => decide (x.id = s.id)) with
    | nil => rw [hl] at hg; simp at hg
    | cons g0 rest =>
      refine ⟨g0, by unfold getStoreById; rw [hl], ?_⟩
      have hg0 : g0 ∈ storeListGroups db reqUser.id (fun x => decide (x.id = s.id)) := by
        rw [hl]; exact List.mem_cons_self _ _
      unfold storeListGroups at hg0
      obtain ⟨⟨row, hrow, hkey⟩, _⟩ := (mem_groupRows _ _ _ g0).mp hg0
      have := (storeListRows_store_mem db reqUser.id _ row hrow).2
      rw [decide_eq_true_eq] at this
      rw [← hkey]
      exact this

theorem owner_scope_witness :
    (∀ g ∈ ownerStoresGroups ownerDb 2,
      ∃ s ∈ ownerDb.stores, s.owner_id = some 2 ∧ g.key = s.columns) ∧
    (ownerStoresGroups ownerDb 2).map (fun g => g.key.id) = [1, 3, 4] ∧
    (∃ g ∈ storeListGroups ownerDb 2 (fun _ => true),
      g.key.store = ⟨2, "Book Nook", "books@example.org", "2 Side St", 11⟩) ∧
    getStoreStats id ownerDb ⟨2, "Ravi", "ravi@example.org", "store_owner", 2⟩ 3
      = .ok (storeStats id ownerDb 3) :=
  have h := owner_scope ownerDb ⟨2, "Ravi", "ravi@example.org", "store_owner", 2⟩ rfl
  ⟨h.1, by decide,
   h.2.2.2.1 (fun _ => true) ⟨2, "Book Nook", "books@example.org", "2 Side St", none, 11⟩
     (by decide) rfl,
   h.2.2.1 id 3 ⟨3, "Tea House", "tea@example.org", "3 Hill Rd", some 2, 12⟩ [] (by decide) rfl⟩

/-! ## Buckets and mean of the statistics -/

theorem scores_bucket_sums (xs : List Int) (h : ∀ x ∈ xs, 1 ≤ x ∧ x ≤ 5) :
    xs.count 5 + xs.count 4 + xs.count 3 + xs.count 2 + xs.count 1 = xs.length ∧
    xs.sum = 5 * (xs.count 5 : Int) + 4 * (xs.count 4 : Int) + 3 * (xs.count 3 : Int)
      + 2 * (xs.count 2 : Int) + 1 * (xs.count 1 : Int) := by
  induction xs with
  | nil => simp
  | cons a xs ih =>
    have ha := h a (List.mem_cons_self _ _)
    have ih' := ih (fun x hx => h x (List.mem_cons_of_mem _ hx))
    have hcases : a = 1 ∨ a = 2 ∨ a = 3 ∨ a = 4 ∨ a = 5 := by omega
    rcases hcases with rfl | rfl | rfl | rfl | rfl <;>
      simp [List.count_cons] <;> omega

/-- C28: for a store whose scores all lie in 1..5, the five buckets of the
statistics sum to `totalRatings`; when there is at least one rating the exact
average of the query lies between 1 and 5 and is the sum over the buckets of
score times count, divided by `totalRatings`. -/
theorem store_stats_buckets (parseFloat : ℚ → ℚ) (db : Db) (storeId : Int)
    (hrange : ∀ x ∈ storeScores db storeId, 1 ≤ x ∧ x ≤ 5) :
    ((storeStats parseFloat db storeId).distribution.map Prod.snd).sum
      = (storeStats parseFloat db storeId).totalRatings ∧
    (1 ≤ (storeStats parseFloat db storeId).totalRatings →
      ∃ m : ℚ, (statsQuery db storeId).average_rating = some m ∧ 1 ≤ m ∧ m ≤ 5 ∧
        m = ((((storeStats parseFloat db storeId).distribution.map
                (fun e => e.1 * e.2)).sum : ℕ) : ℚ)
              / ((storeStats parseFloat db storeId).totalRatings : ℚ)) := by
  have hb := scores_bucket_sums _ hrange
  constructor
  · simp only [storeStats, statsQuery, List.map_cons, List.map_nil, List.sum_cons, List.sum_nil]
    omega
  · intro hpos
    have hne : storeScores db storeId ≠ [] := by
      intro hn
      simp [storeStats, statsQuery, hn] at hpos
    have hm := mean_bounds _ hne hrange
    refine ⟨_, statsQuery_average db storeId hne, ?_, ?_, ?_⟩
    · simpa [statsQuery] using hm.1
    · simpa [statsQuery] using hm.2
    · have hsum : ((storeScores db storeId).sum : ℚ)
          = (((5 * (storeScores db storeId).count 5 + 4 * (storeScores db storeId).count 4
              + 3 * (storeScores db storeId).count 3 + 2 * (storeScores db storeId).count 2
              + 1 * (storeScores db storeId).count 1 : ℕ)) : ℚ) := by
        have := hb.2
        have h2 : ((storeScores db storeId).sum : ℚ)
            = (((5 * ((storeScores db storeId).count 5 : Int)
              + 4 * ((storeScores db storeId).count 4 : Int)
              + 3 * ((storeScores db storeId).count 3 : Int)
              + 2 * ((storeScores db storeId).count 2 : Int)
              + 1 * ((storeScores db storeId).count 1 : Int) : Int)) : ℚ) := by
          exact_mod_cast congrArg (fun z : Int => (z : ℚ)) this
        rw [h2]
        push_cast
        ring
      simp only [storeStats, statsQuery, List.map_cons, List.map_nil, List.sum_cons,
        List.sum_nil, add_zero]
      rw [hsum]
      congr 2
      ring

theorem store_stats_buckets_witness :
    ((storeStats id statsDb 1).distribution.map Prod.snd).sum = (storeStats id statsDb 1).totalRatings ∧
    ∃ m : ℚ, (statsQuery statsDb 1).average_rating = some m ∧ 1 ≤ m ∧ m ≤ 5 ∧
      m = ((((storeStats id statsDb 1).distribution.map (fun e => e.1 * e.2)).sum : ℕ) : ℚ)
            / ((storeStats id statsDb 1).totalRatings : ℚ) :=
  have h := store_stats_buckets id statsDb 1 (by decide)
  ⟨h.1, h.2 (by decide)⟩

/-! ## Who may list the ratings of a store -/

theorem getStoreRatings_found (db : Db) (reqUser : User) (storeId page limit : Int) (st : Store)
    (h : (db.stores.filter (fun s => decide (s.id = storeId))).head? = some st) :
    getStoreRatings db reqUser storeId page limit =
      if reqUser.role = "store_owner" ∧ st.owner_id ≠ some reqUser.id then
        .error ⟨403, .error "You can only view ratings for your own stores"⟩
      else if reqUser.role = "user" then .error ⟨403, .error "Access denied"⟩
      else
        match limitOffset (storeRatingsRows db storeId) limit ((page - 1) * limit) with
        | none => .error internalError
        | some rows =>
          .ok ⟨rows, (db.ratings.filter (fun r => decide (r.store_id = storeId))).length⟩ := by
  unfold getStoreRatings
  cases hf : db.stores.filter (fun s => decide (s.id = storeId)) with
  | nil => rw [hf] at h; cases h
  | cons x rest =>
    rw [hf] at h
    simp only [List.head?_cons, Option.some.injEq] at h
    subst h
    rfl

theorem storeRatingsRows_mem (db : Db) (storeId : Int) (row : Rating × User)
    (h : row ∈ storeRatingsRows db storeId) :
    row.1 ∈ db.ratings ∧ row.1.store_id = storeId ∧ row.2 ∈ db.users ∧ row.1.user_id = row.2.id := by
  unfold storeRatingsRows at h
  rw [(List.perm_insertionSort _ _).mem_iff, List.mem_filter] at h
  obtain ⟨hj, hs⟩ := h
  unfold innerJoin at hj
  rw [List.mem_flatMap] at hj
  obtain ⟨r, hr, hrow⟩ := hj
  rw [List.mem_map] at hrow
  obtain ⟨u, hu, rfl⟩ := hrow
  rw [List.mem_filter] at hu
  exact ⟨hr, by simpa using hs, hu.1, by simpa using hu.2⟩

theorem limitOffset_mem {α : Type} (rows out : List α) (limit offset : Int)
    (h : limitOffset rows limit offset = some out) (x : α) (hx : x ∈ out) : x ∈ rows := by
  unfold limitOffset at h
  split at h
  · cases h
  · simp only [Option.some.injEq] at h
    subst h
    exact List.mem_of_mem_drop (List.mem_of_mem_take hx)

/-- C23: the handler of the listing of the ratings of a store answers 404 when
no store has the id, for every identity; when the store exists it answers 403
if the role is `user`, 403 if the role is `store_owner` and the owner of the
store is not the identity (never 404), and otherwise runs the listing: the
rows it returns are ratings of that store only, a page of them by created
timestamp descending, with the number of ratings of the store (or the answer
is 500 when the page or the limit make `LIMIT` or `OFFSET` negative). -/
theorem store_ratings_access (db : Db) (reqUser : User) (storeId page limit : Int) :
    ((∀ s ∈ db.stores, s.id ≠ storeId) →
      getStoreRatings db reqUser storeId page limit = .error ⟨404, .error "Store not found"⟩) ∧
    (∀ st, (db.stores.filter (fun s => decide (s.id = storeId))).head? = some st →
      (reqUser.role = "user" →
        getStoreRatings db reqUser storeId page limit = .error ⟨403, .error "Access denied"⟩) ∧
      (reqUser.role = "store_owner" → st.owner_id ≠ some reqUser.id →
        getStoreRatings db reqUser storeId page limit
          = .error ⟨403, .error "You can only view ratings for your own stores"⟩) ∧
      (reqUser.role ≠ "user" → (reqUser.role = "store_owner" → st.owner_id = some reqUser.id) →
        (∃ pg, getStoreRatings db reqUser storeId page limit = .ok pg ∧
          limitOffset (storeRatingsRows db storeId) limit ((page - 1) * limit)
            = some pg.ratings ∧
          (∀ row ∈ pg.ratings, row.1 ∈ db.ratings ∧ row.1.store_id = storeId) ∧
          pg.totalRatings
            = (db.ratings.filter (fun r => decide (r.store_id = storeId))).length) ∨
        (getStoreRatings db reqUser storeId page limit = .error internalError ∧
          (limit < 0 ∨ (page - 1) * limit < 0)))) := by
  constructor
  · intro h
    have : db.stores.filter (fun s => decide (s.id = storeId)) = [] := by
      simpa [List.filter_eq_nil_iff] using h
    simp [getStoreRatings, this]
  · intro st hst
    have hf := getStoreRatings_found db reqUser storeId page limit st hst
    refine ⟨?_, ?_, ?_⟩
    · intro hrole
      have hne : ¬ (reqUser.role = "store_owner" ∧ st.owner_id ≠ some reqUser.id) := by
        rw [hrole]
        exact fun h => absurd h.1 (by decide)
      rw [hf, if_neg hne, if_pos hrole]
    · intro hrole hown
      rw [hf, if_pos ⟨hrole, hown⟩]
    · intro hnu hown
      have hno : ¬ (reqUser.role = "store_owner" ∧ st.owner_id ≠ some reqUser.id) :=
        fun h => h.2 (hown h.1)
      rw [hf, if_neg hno, if_neg hnu]
      cases hlo : limitOffset (storeRatingsRows db storeId) limit ((page - 1) * limit) with
      | none =>
        right
        refine ⟨rfl, ?_⟩
        unfold limitOffset at hlo
        split at hlo
        · assumption
        · cases hlo
      | some rows =>
        left
        refine ⟨_, rfl, rfl, ?_, rfl⟩
        intro row hrow
        have := storeRatingsRows_mem db storeId row (limitOffset_mem _ _ _ _ hlo row hrow)
        exact ⟨this.1, this.2.1⟩

theorem store_ratings_access_witness :
    getStoreRatings statsDb ⟨1, "Asha", "asha@example.org", "user", 1⟩ 1 1 10
      = .error ⟨403, .error "Access denied"⟩ ∧
    getStoreRatings statsDb ⟨2, "Ravi", "ravi@example.org", "store_owner", 2⟩ 2 1 10
      = .error ⟨403, .error "You can only view ratings for your own stores"⟩ ∧
    getStoreRatings statsDb ⟨2, "Ravi", "ravi@example.org", "store_owner", 2⟩ 9 1 10
      = .error ⟨404, .error "Store not found"⟩ :=
  have h1 := (store_ratings_access statsDb ⟨1, "Asha", "asha@example.org", "user", 1⟩ 1 1 10).2
    ⟨1, "Corner Shop", "corner@example.org", "1 Main St", some 2, 10⟩ (by decide)
  have h2 := (store_ratings_access statsDb
    ⟨2, "Ravi", "ravi@example.org", "store_owner", 2⟩ 2 1 10).2
    ⟨2, "Book Nook", "books@example.org", "2 Side St", none, 11⟩ (by decide)
  ⟨h1.1 rfl, h2.2.1 rfl (by decide),
   (store_ratings_access statsDb ⟨2, "Ravi", "ravi@example.org", "store_owner", 2⟩ 9 1 10).1
    (by decide)⟩

/-! ## Query texts -/

/-- C29 fails on the code: the listing of all ratings interpolates
`sortOrder.toUpperCase()` into the query without checking it against `asc` and
`desc`, as the store and user listings do. The column is one of `rating` and
`created_at` for every input, but with `sortOrder` = `desc, r.id` the clause is
`ORDER BY r.created_at DESC, R.ID`, where the same input makes the store and
user listings fall back to their default clause. -/
theorem ratings_order_by_unchecked :
    (∀ sortBy sortOrder : String,
      ratingsOrderBy sortBy sortOrder = "ORDER BY r.rating " ++ toUpperCase sortOrder ∨
      ratingsOrderBy sortBy sortOrder = "ORDER BY r.created_at " ++ toUpperCase sortOrder) ∧
    ratingsOrderBy "created_at" "desc, r.id" = "ORDER BY r.created_at DESC, R.ID" ∧
    ratingsOrderBy "rating" "asc" = "ORDER BY r.rating ASC" ∧
    storesOrderBy "created_at" "desc, r.id" = " ORDER BY s.name ASC" ∧
    usersOrderBy "created_at" "desc, r.id" = " ORDER BY u.name ASC" ∧
    storesOrderBy "created_at" "Desc" = " ORDER BY s.created_at DESC" ∧
    usersOrderBy "email" "asc" = " ORDER BY u.email ASC" := by
  refine ⟨?_, by decide, by decide, by decide, by decide, by decide, by decide⟩
  intro sortBy sortOrder
  unfold ratingsOrderBy
  by_cases h : sortBy = "rating"
  · left; rw [if_pos h]; rfl
  · right; rw [if_neg h]; rfl

/-- C30 fails on the code: the user update pushes the column, ` = ` and the
number without the `$` of a placeholder, so for a body with only a name the
statement is `SET name = 1 ... WHERE id = 2` with two values bound to no
placeholder. The store update, built the same way, writes `name = $1` and
`id = $2`. -/
theorem user_update_placeholders :
    buildUserUpdate (some "Asha Kumar") none none none "5"
      = some ("UPDATE users SET name = 1, updated_at = CURRENT_TIMESTAMP WHERE id = 2"
            ++ " RETURNING id, name, email, address, role, created_at, updated_at",
          [.text "Asha Kumar", .text "5"]) ∧
    buildUserUpdate (some "Asha Kumar") (some "asha@example.org") (some "") (some "user") "5"
      = some ("UPDATE users SET name = 1, email = 2, address = 3, role = 4, "
            ++ "updated_at = CURRENT_TIMESTAMP WHERE id = 5"
            ++ " RETURNING id, name, email, address, role, created_at, updated_at",
          [.text "Asha Kumar", .text "asha@example.org", .text "", .text "user", .text "5"]) ∧
    buildStoreUpdate (some "Corner Shop") none none none "5"
      = some ("UPDATE stores SET name = $1, updated_at = CURRENT_TIMESTAMP WHERE id = $2"
            ++ " RETURNING id, name, email, address, owner_id, created_at, updated_at",
          [.text "Corner Shop", .text "5"]) ∧
    buildUserUpdate none (some "") none none "5" = none := by
  decide

end Roxiler
